import Mathlib

/-!
# recvfs-proc: the receiving side of the fs-object transfer

A shallow embedding of `server/processors/recvfs-proc.c`.

* The private data of the processor and `processor->state` are one record,
  `Processor`.  Everything the processor does to the outside world (responses
  sent to the peer, `ccnet_processor_done`, calls into the object store, the
  creation of the timer) is appended, in program order, to the field `log`.
* `priv->buf` / `priv->bufptr` are represented by the bytes lying between the
  two pointers: the field `buf` is `priv->buf[0 .. bufptr - buf)`, so the write
  offset `bufptr - buf` is `buf.length`.  `Processor` therefore describes the
  processor from the first `request_object_batch_begin` on, when `bufptr`
  points into `buf`.
* `start` does not call `request_object_batch_begin`: until the first
  well-formed root list `bufptr` is the NULL pointer of the zero-filled private
  data.  `Session` adds this to `Processor` (the flag `bufptr_null`), and
  `Session.run` is the session from `start` on; `none` is the end of the
  process, by `g_assert` or by a store through the NULL pointer.  Once the
  buffer has been begun `Session.run` is `run` (`session_run_begun`), and
  wherever it does not end the process its private data are those of `run`
  (`session_run_refines`).
* The key handed to `g_hash_table_remove` by `recv_fs_object` is a pointer to
  the id field of the message, which the function does not terminate: the key
  is the C string found there (`cstring_id`).
* The `int` counters are unbounded integers (signed overflow, undefined in C,
  would need 2^31 outstanding objects).
* The object store, the directory parser and the type discriminator live
  outside this file of the repository; they are oracles collected in `Store`.
-/

set_option autoImplicit false

namespace RecvFs

/-! ## Data model -/

/-- An object id: the 40 characters of a hexadecimal SHA-1 (the C string
without its terminating NUL; the characters are not NUL, so that `strcmp` and
`g_str_equal` are equality of the 40 characters). -/
abbrev ObjId : Type := { l : List Nat // l.length = 40 }

/-- The constant `MAX_NUM_BATCH`. -/
def MAX_NUM_BATCH : Int := 64

/-- The size of `priv->buf`. -/
def BUF_SIZE : Nat := 4096

/-- The status codes the processor sends (their numeric values are declared in
`objecttx-common.h`, outside this file, and play no role here). -/
inductive Status where
  | SC_OK
  | SC_GET_OBJECT
  | SC_BAD_OBJECT
  | SC_END
  | SC_BAD_OL
  | SC_BAD_UPDATE_CODE
  | SC_BAD_ARGS
  | SC_ACCESS_DENIED
  deriving DecidableEq, Repr

/-- The codes of the peer messages `handle_update` distinguishes with
`strncmp (code, ..., 3)`; `OTHER` is any code matching none of them in the
current state. -/
inductive UpdateCode where
  | SC_ROOT
  | SC_ROOT_END
  | SC_OBJECT
  | OTHER
  deriving DecidableEq, Repr

/-- Modelled from the spec: the result of `seaf_metadata_type_from_data`
compared with `SEAF_METADATA_TYPE_DIR` and `SEAF_METADATA_TYPE_FILE` (declared
in `fs-mgr.h`): Directory-typed, File-typed, or any other discriminator. -/
inductive MetadataType where
  | DIR
  | FILE
  | OTHER
  deriving DecidableEq, Repr

/-- The states of the processor (the anonymous `enum` of the source). -/
inductive ProcState where
  | RECV_ROOT
  | FETCH_OBJECT
  deriving DecidableEq, Repr

/-- What the processor does to its environment. -/
inductive Effect where
  | send_response (code : Status) (content : List Nat)
  | done (success : Bool)
  | async_read (id : ObjId) (ok : Bool)
  | async_stat (id : ObjId) (ok : Bool)
  | async_write (id : ObjId) (data : List Nat) (ok : Bool)
  | timer_new
  deriving DecidableEq

/-- A directory entry: only `id` and `mode` are read by the processor. -/
structure SeafDirent where
  id : ObjId
  mode : Nat
  deriving DecidableEq

/-- A parsed directory object. -/
structure SeafDir where
  entries : List SeafDirent
  deriving DecidableEq

/-- The result handed to a completion callback of the object store. -/
structure OSAsyncResult where
  obj_id : ObjId
  success : Bool
  data : List Nat
  deriving DecidableEq

/-- The collaborators outside this file: whether the store accepts an
asynchronous operation (`true` is a return value `>= 0`), the directory parser
and the type discriminator. -/
structure Store where
  async_read : ObjId → Bool
  async_stat : ObjId → Bool
  async_write : ObjId → List Nat → Bool
  seaf_dir_from_data : ObjId → List Nat → Option SeafDir
  seaf_metadata_type_from_data : List Nat → Nat → MetadataType

/-- The record `SeafileRecvfsProcPriv` together with `processor->state` and
the log of effects. `fs_objects` is the set of keys of the hash table (every
value is `1`). -/
structure Processor where
  state : ProcState
  inspect_objects : Int
  pending_objects : Int
  buf : List Nat
  n_batch : Int
  fs_objects : Finset ObjId
  log : List Effect
  deriving DecidableEq

/-- The macro `S_ISDIR` of `sys/stat.h`: `(mode & 0170000) == 0040000`. -/
def S_ISDIR (mode : Nat) : Bool := (mode &&& 61440) == 16384

/-- The 40 characters found at a `char *` pointing to the bytes `p` (bytes
past the end of `p` read as 0; the callers check the length first). -/
def id_at (p : List Nat) : ObjId :=
  ⟨(p ++ List.replicate 40 0).take 40, by simp⟩

/-! ## The processor -/

/-- The call `ccnet_processor_send_response`. -/
def ccnet_processor_send_response (p : Processor) (code : Status)
    (content : List Nat) : Processor :=
  { p with log := p.log ++ [Effect.send_response code content] }

/-- The call `ccnet_processor_done`. -/
def ccnet_processor_done (p : Processor) (success : Bool) : Processor :=
  { p with log := p.log ++ [Effect.done success] }

/-- The call `seaf_obj_store_async_read`, with its result. -/
def seaf_obj_store_async_read (store : Store) (p : Processor) (id : ObjId) :
    Processor × Bool :=
  ({ p with log := p.log ++ [Effect.async_read id (store.async_read id)] },
    store.async_read id)

/-- The call `seaf_obj_store_async_stat`, with its result. -/
def seaf_obj_store_async_stat (store : Store) (p : Processor) (id : ObjId) :
    Processor × Bool :=
  ({ p with log := p.log ++ [Effect.async_stat id (store.async_stat id)] },
    store.async_stat id)

/-- The call `seaf_obj_store_async_write`, with its result. -/
def seaf_obj_store_async_write (store : Store) (p : Processor) (id : ObjId)
    (data : List Nat) : Processor × Bool :=
  ({ p with log := p.log ++ [Effect.async_write id data (store.async_write id data)] },
    store.async_write id data)

/-- The function `request_object_batch_begin`. -/
def request_object_batch_begin (p : Processor) : Processor :=
  { p with buf := [], n_batch := 0 }

/-- The function `request_object_batch_flush`. -/
def request_object_batch_flush (p : Processor) : Processor :=
  if p.buf = [] then p
  else
    let p1 := { p with buf := p.buf ++ [0] }
    let p2 := ccnet_processor_send_response p1 Status.SC_GET_OBJECT p1.buf
    { p2 with n_batch := 0, buf := [] }

/-- The function `request_object_batch`; `none` is the abort of `g_assert`. -/
def request_object_batch (p : Processor) (id : ObjId) : Option Processor :=
  if p.buf.length ≤ 4096 - 41 then
    if id ∈ p.fs_objects then some p
    else
      let p1 := { p with buf := p.buf ++ id.val ++ [10] }
      let p2 := { p1 with fs_objects := insert id p1.fs_objects }
      let p3 := { p2 with n_batch := p2.n_batch + 1 }
      let p4 := if p3.n_batch = MAX_NUM_BATCH then request_object_batch_flush p3 else p3
      some { p4 with pending_objects := p4.pending_objects + 1 }
  else none

/-- The function `check_seafdir`, on the entries of the directory; the second
component is the return value (0 or -1). -/
def check_seafdir (EMPTY_SHA1 : ObjId) (store : Store) (p : Processor) :
    List SeafDirent → Processor × Int
  | [] => (p, 0)
  | dent :: rest =>
    if dent.id = EMPTY_SHA1 then check_seafdir EMPTY_SHA1 store p rest
    else if S_ISDIR dent.mode then
      let r := seaf_obj_store_async_read store p dent.id
      if r.2 then
        check_seafdir EMPTY_SHA1 store
          { r.1 with inspect_objects := r.1.inspect_objects + 1 } rest
      else
        (ccnet_processor_done
          (ccnet_processor_send_response r.1 Status.SC_BAD_OBJECT []) false, -1)
    else
      let r := seaf_obj_store_async_stat store p dent.id
      if r.2 then
        check_seafdir EMPTY_SHA1 store
          { r.1 with inspect_objects := r.1.inspect_objects + 1 } rest
      else
        (ccnet_processor_done
          (ccnet_processor_send_response r.1 Status.SC_BAD_OBJECT []) false, -1)

/-- The callback `on_seafdir_read`. -/
def on_seafdir_read (EMPTY_SHA1 : ObjId) (store : Store) (p : Processor)
    (res : OSAsyncResult) : Option Processor :=
  let p1 := { p with inspect_objects := p.inspect_objects - 1 }
  if res.success = false then request_object_batch p1 res.obj_id
  else
    match store.seaf_dir_from_data res.obj_id res.data with
    | none => request_object_batch p1 res.obj_id
    | some dir => some (check_seafdir EMPTY_SHA1 store p1 dir.entries).1

/-- The callback `on_seafile_stat`. -/
def on_seafile_stat (p : Processor) (res : OSAsyncResult) : Option Processor :=
  let p1 := { p with inspect_objects := p.inspect_objects - 1 }
  if res.success = false then request_object_batch p1 res.obj_id
  else some p1

/-- The callback `on_fs_write`. -/
def on_fs_write (p : Processor) (res : OSAsyncResult) : Processor :=
  if res.success = false then
    ccnet_processor_done
      (ccnet_processor_send_response p Status.SC_BAD_OBJECT []) false
  else p

/-- The timer callback `check_end_condition`; the second component is the
return value (`false` stops the timer). -/
def check_end_condition (p : Processor) : Processor × Bool :=
  let p1 := request_object_batch_flush p
  if p1.pending_objects = 0 ∧ p1.inspect_objects = 0 then
    (ccnet_processor_done
      (ccnet_processor_send_response p1 Status.SC_END []) true, false)
  else (p1, true)

/-- The function `save_fs_object`: `pack_id` is `pack->id`, `pack_object` the
bytes at `pack->object`, `len` the length of the whole message. -/
def save_fs_object (store : Store) (p : Processor) (pack_id : ObjId)
    (pack_object : List Nat) (len : Nat) : Processor × Bool :=
  seaf_obj_store_async_write store p pack_id (pack_object.take (len - 41))

/-- The label `bad` of `recv_fs_object`. -/
def recv_fs_object_bad (p : Processor) : Processor :=
  ccnet_processor_done
    (ccnet_processor_send_response p Status.SC_BAD_OBJECT []) false

/-- The 40-character id that the C string at a pointer spells, if it spells
one: the bytes before the first NUL, when there are exactly 40 of them. -/
def cstring_id (bytes : List Nat) : Option ObjId :=
  if h : (bytes.takeWhile (fun b => decide (b ≠ 0))).length = 40 ∧ 40 < bytes.length then
    some ⟨bytes.takeWhile (fun b => decide (b ≠ 0)), h.1⟩
  else none

/-- The call `g_hash_table_remove (priv->fs_objects, key)` on the table created
with `g_str_hash` and `g_str_equal`: `key` is a pointer to bytes, compared as a
C string with the keys, which are ids of 40 characters. A string that does not
spell a 40-character id equals no key and nothing is removed. -/
def g_hash_table_remove (table : Finset ObjId) (key : List Nat) : Finset ObjId :=
  match cstring_id key with
  | some k => table.erase k
  | none => table

/-- The end of `recv_fs_object`: `save_fs_object`, then the removal of
`pack->id` from the hash table. `content` is the message: `pack->id` points to
its first byte and `recv_fs_object` does not terminate the id field, so the key
handed to `g_hash_table_remove` is the C string that starts there. -/
def recv_fs_object_save (store : Store) (p : Processor) (content : List Nat) :
    Processor :=
  let r := save_fs_object store p (id_at content) (content.drop 41) content.length
  if r.2 = false then recv_fs_object_bad r.1
  else { r.1 with fs_objects := g_hash_table_remove r.1.fs_objects content }

/-- The function `recv_fs_object`; `sizeof (ObjectPack)` is 41 (the id field
`char id[41]` followed by the flexible array `object`). -/
def recv_fs_object (EMPTY_SHA1 : ObjId) (store : Store) (p : Processor)
    (content : List Nat) : Processor :=
  let clen := content.length
  if clen < 41 then recv_fs_object_bad p
  else
    let pack_id := id_at content
    let pack_object := content.drop 41
    let p1 := { p with pending_objects := p.pending_objects - 1 }
    match store.seaf_metadata_type_from_data pack_object clen with
    | MetadataType.DIR =>
      match store.seaf_dir_from_data pack_id (pack_object.take (clen - 41)) with
      | none => recv_fs_object_bad p1
      | some dir =>
        let r := check_seafdir EMPTY_SHA1 store p1 dir.entries
        if r.2 < 0 then recv_fs_object_bad r.1
        else recv_fs_object_save store r.1 content
    | MetadataType.FILE => recv_fs_object_save store p1 content
    | MetadataType.OTHER => recv_fs_object_bad p1

/-- The loop of `process_fsroot_list`: `n` ids remain, `object_id` is the
content from the current id on. After the loop the function sends `SC_OK`. -/
def process_fsroot_loop (EMPTY_SHA1 : ObjId) (store : Store) :
    Nat → List Nat → Processor → Processor
  | 0, _, p => ccnet_processor_send_response p Status.SC_OK []
  | n + 1, object_id, p =>
    if id_at object_id = EMPTY_SHA1 then
      process_fsroot_loop EMPTY_SHA1 store n (object_id.drop 41) p
    else
      let r := seaf_obj_store_async_read store p (id_at object_id)
      if r.2 = false then
        ccnet_processor_done
          (ccnet_processor_send_response r.1 Status.SC_BAD_OBJECT []) false
      else
        process_fsroot_loop EMPTY_SHA1 store n (object_id.drop 41)
          { r.1 with inspect_objects := r.1.inspect_objects + 1 }

/-- The function `process_fsroot_list`. -/
def process_fsroot_list (EMPTY_SHA1 : ObjId) (store : Store) (p : Processor)
    (content : List Nat) : Processor :=
  let clen := content.length
  if clen % 41 ≠ 0 then
    ccnet_processor_done
      (ccnet_processor_send_response p Status.SC_BAD_OL []) false
  else
    process_fsroot_loop EMPTY_SHA1 store (clen / 41) content
      (request_object_batch_begin p)

/-- The function `handle_update`. -/
def handle_update (EMPTY_SHA1 : ObjId) (store : Store) (p : Processor)
    (code : UpdateCode) (content : List Nat) : Processor :=
  match p.state with
  | ProcState.RECV_ROOT =>
    match code with
    | UpdateCode.SC_ROOT => process_fsroot_list EMPTY_SHA1 store p content
    | UpdateCode.SC_ROOT_END =>
      { p with log := p.log ++ [Effect.timer_new], state := ProcState.FETCH_OBJECT }
    | _ =>
      ccnet_processor_done
        (ccnet_processor_send_response p Status.SC_BAD_UPDATE_CODE []) false
  | ProcState.FETCH_OBJECT =>
    match code with
    | UpdateCode.SC_OBJECT => recv_fs_object EMPTY_SHA1 store p content
    | _ =>
      ccnet_processor_done
        (ccnet_processor_send_response p Status.SC_BAD_UPDATE_CODE []) false

/-! ## Events and sessions -/

/-- What the event loop delivers to the processor: a message of the peer
(`handle_update`), a completion of the object store, or a tick of the timer. -/
inductive Event where
  | update (code : UpdateCode) (content : List Nat)
  | seafdir_read (res : OSAsyncResult)
  | seafile_stat (res : OSAsyncResult)
  | fs_write (res : OSAsyncResult)
  | timer

/-- The calls of `ccnet_processor_done` in a log. -/
def dones_of : List Effect → List Bool
  | [] => []
  | Effect.done s :: l => s :: dones_of l
  | _ :: l => dones_of l

/-- Whether `ccnet_processor_done` has been called. -/
def finished (p : Processor) : Bool := !(dones_of p.log).isEmpty

/-- The event loop of the transport framework (the library ccnet), the
environment of the processor: it calls `handle_update` for a message of the
peer, the registered callback for a completion of the store, and
`check_end_condition` for a tick of the timer. It delivers nothing to a
session that is done (`ccnet_processor_done` releases the processor and its
callbacks), and the timer exists only once `handle_update` has created it, in
state `FETCH_OBJECT`. `none` is an abort of the process by `g_assert`. -/
def deliver (EMPTY_SHA1 : ObjId) (store : Store) (p : Processor) (ev : Event) :
    Option Processor :=
  if finished p then some p
  else
    match ev with
    | Event.update code content => some (handle_update EMPTY_SHA1 store p code content)
    | Event.seafdir_read res => on_seafdir_read EMPTY_SHA1 store p res
    | Event.seafile_stat res => on_seafile_stat p res
    | Event.fs_write res => some (on_fs_write p res)
    | Event.timer =>
      if p.state = ProcState.FETCH_OBJECT then some (check_end_condition p).1
      else some p

/-- A session: the events delivered one after the other, each with the
behaviour of the store while it is handled. -/
def run (EMPTY_SHA1 : ObjId) : Processor → List (Store × Event) → Option Processor
  | p, [] => some p
  | p, (store, ev) :: tr =>
    (deliver EMPTY_SHA1 store p ev).bind (fun q => run EMPTY_SHA1 q tr)

/-- The private data of a session at its beginning, with the buffer begun
(`bufptr` equal to `buf`): counters at zero, empty hash table, nothing sent
yet. The function `start` itself leaves `bufptr` NULL: see `Session`. -/
def session_begun : Processor :=
  { state := ProcState.RECV_ROOT, inspect_objects := 0, pending_objects := 0,
    buf := [], n_batch := 0, fs_objects := ∅, log := [] }

/-- The operations of the request buffer alone: `request_object_batch`,
`request_object_batch_flush`, and the checkpoint `check_end_condition`. -/
inductive BatchOp where
  | submit (id : ObjId)
  | flush
  | checkpoint

/-- One operation of the request buffer. -/
def apply_op (p : Processor) : BatchOp → Option Processor
  | BatchOp.submit id => request_object_batch p id
  | BatchOp.flush => some (request_object_batch_flush p)
  | BatchOp.checkpoint => some (check_end_condition p).1

/-- A sequence of operations of the request buffer. -/
def run_ops : Processor → List BatchOp → Option Processor
  | p, [] => some p
  | p, op :: ops => (apply_op p op).bind (fun q => run_ops q ops)

/-- The ids submitted by a sequence of operations, in order, with repetitions. -/
def submitted : List BatchOp → List ObjId
  | [] => []
  | BatchOp.submit id :: ops => id :: submitted ops
  | _ :: ops => submitted ops

/-! ## Observing the messages -/

/-- The bytes `request_object_batch` appends for a list of ids: each id
followed by a newline. -/
def encode_ids : List ObjId → List Nat
  | [] => []
  | id :: ids => id.val ++ [10] ++ encode_ids ids

/-- The effects a handler appended to the log. -/
def emitted (p q : Processor) : List Effect := q.log.drop p.log.length

/-- The payloads of the object-request messages (`SC_GET_OBJECT`) in a log. -/
def requests_of : List Effect → List (List Nat)
  | [] => []
  | Effect.send_response Status.SC_GET_OBJECT content :: l => content :: requests_of l
  | _ :: l => requests_of l

/-- The status responses in a log. -/
def responses_of : List Effect → List Status
  | [] => []
  | Effect.send_response code _ :: l => code :: responses_of l
  | _ :: l => responses_of l

/-- Whether an effect is a read or a stat of the id `x`. -/
def is_probe_of (x : ObjId) : Effect → Bool
  | Effect.async_read id _ => decide (id = x)
  | Effect.async_stat id _ => decide (id = x)
  | _ => false

/-- Whether an effect is a read or a stat the store accepted. -/
def is_issued : Effect → Bool
  | Effect.async_read _ ok => ok
  | Effect.async_stat _ ok => ok
  | _ => false

/-- The number of reads and stats the store accepted. -/
def probes_issued : List Effect → Nat
  | [] => 0
  | e :: l => (if is_issued e then 1 else 0) + probes_issued l

/-- Whether a log holds no read and no stat of the id `x`. -/
def no_probe_of (x : ObjId) (log : List Effect) : Bool :=
  log.all (fun e => !is_probe_of x e)

/-- The request buffer and the request messages sent are well formed: the
messages sent are the framed encodings of the batches `sent`, each of 1 to 64
ids, and the buffer is the encoding of the ids `cur`, fewer than 64, counted
by `n_batch`. -/
structure Shape (p : Processor) (sent : List (List ObjId)) (cur : List ObjId) : Prop where
  log_eq : requests_of p.log = sent.map (fun m => encode_ids m ++ [0])
  buf_eq : p.buf = encode_ids cur
  n_eq : p.n_batch = (cur.length : Int)
  cur_lt : cur.length < 64
  sent_le : ∀ m ∈ sent, 0 < m.length ∧ m.length ≤ 64

/-- The number of writes of the object `x` the store accepted. -/
def writes_accepted (x : ObjId) : List Effect → Nat
  | [] => 0
  | Effect.async_write id _ true :: l =>
    (if id = x then 1 else 0) + writes_accepted x l
  | _ :: l => writes_accepted x l

/-- The first `n` ids of a payload made of 41-byte records. -/
def decode_chunks : Nat → List Nat → List ObjId
  | 0, _ => []
  | n + 1, l => id_at l :: decode_chunks n (l.drop 41)

/-- The ids listed by a payload: one per complete 41-byte record (the bytes
left over, the final NUL of a request message, list nothing). -/
def decode_ids (payload : List Nat) : List ObjId :=
  decode_chunks (payload.length / 41) payload

/-- The ids requested so far, in order: those of the messages sent, then those
waiting in the buffer. -/
def requested_ids (p : Processor) : List ObjId :=
  ((requests_of p.log).map decode_ids).flatten ++ decode_ids p.buf

/-- The ids listed in the object-request messages sent so far. -/
def transmitted_ids (p : Processor) : List ObjId :=
  ((requests_of p.log).map decode_ids).flatten

/-! ## The outcome of one event -/

/-- The id whose read or stat a completion event answers. -/
def completion_id : Event → Option ObjId
  | Event.seafdir_read res => some res.obj_id
  | Event.seafile_stat res => some res.obj_id
  | _ => none

/-- The ways one event can change a live session `p` into `q`, as far as the
hash table, the counter `pending_objects` and the ids requested (`all` before,
`all'` after: those of the messages sent, then those in the buffer) are
concerned; `d` is what the handler appended to the log.
* `plain`: the hash table and the counter are untouched, no id is added;
* `requested`: a completion submitted an id that was not in the hash table;
* `received`: an object message was accepted and `g_hash_table_remove` was
  called with its id field;
* `ended`: the handler called `ccnet_processor_done`. -/
inductive Outcome (p q : Processor) (ev : Event) (all all' : List ObjId)
    (d : List Effect) : Prop where
  | plain : q.fs_objects = p.fs_objects → q.pending_objects = p.pending_objects →
      (∀ x, writes_accepted x d = 0) → all'.Sublist all → dones_of d = [] →
      Outcome p q ev all all' d
  | requested (id : ObjId) : completion_id ev = some id → id ∉ p.fs_objects →
      q.fs_objects = insert id p.fs_objects →
      q.pending_objects = p.pending_objects + 1 →
      (∀ x, writes_accepted x d = 0) → all' = all ++ [id] → dones_of d = [] →
      Outcome p q ev all all' d
  | received (content : List Nat) : ev = Event.update UpdateCode.SC_OBJECT content →
      p.state = ProcState.FETCH_OBJECT → 41 ≤ content.length →
      q.fs_objects = g_hash_table_remove p.fs_objects content →
      q.pending_objects = p.pending_objects - 1 →
      (∀ x, writes_accepted x d = if id_at content = x then 1 else 0) →
      all' = all → dones_of d = [] →
      Outcome p q ev all all' d
  | ended : finished q = true → q.fs_objects = p.fs_objects →
      (∀ x, writes_accepted x d = 0) → all'.Sublist all →
      Outcome p q ev all all' d

/-! ## Sample data -/

/-- A sample id: forty times the character `c`. -/
def sample_id (c : Nat) : ObjId := ⟨List.replicate 40 c, by simp⟩

/-- The id `EMPTY_SHA1` in the samples: forty times the character `0`. -/
def sample_empty : ObjId := sample_id 48

/-- A root-list message: each id followed by one separator byte. -/
def root_list_msg (ids : List ObjId) : List Nat := encode_ids ids

/-- An object message: the 41 bytes of the id field, then the object. -/
def object_msg (id : ObjId) (object : List Nat) : List Nat := id.val ++ [0] ++ object

/-- A store that accepts every operation, parses every directory as two file
entries (mode 0100644) with the same id `sample_id 98` (two files of equal
content), and finds every object File-typed. -/
def twin_store : Store :=
  { async_read := fun _ => true, async_stat := fun _ => true,
    async_write := fun _ _ => true,
    seaf_dir_from_data := fun _ _ =>
      some { entries := [{ id := sample_id 98, mode := 33188 },
                         { id := sample_id 98, mode := 33188 }] },
    seaf_metadata_type_from_data := fun _ _ => MetadataType.FILE }

/-- A session in which the root directory `sample_id 97`, present locally,
lists the absent file `sample_id 98` twice: the first stat completes, the file
is requested and received; then the second stat completes. -/
def twin_trace : List (Store × Event) :=
  [ (twin_store, Event.update UpdateCode.SC_ROOT (root_list_msg [sample_id 97])),
    (twin_store, Event.seafdir_read { obj_id := sample_id 97, success := true, data := [] }),
    (twin_store, Event.update UpdateCode.SC_ROOT_END []),
    (twin_store, Event.seafile_stat { obj_id := sample_id 98, success := false, data := [] }),
    (twin_store, Event.timer),
    (twin_store, Event.update UpdateCode.SC_OBJECT (object_msg (sample_id 98) [1, 2, 3])),
    (twin_store, Event.seafile_stat { obj_id := sample_id 98, success := false, data := [] }),
    (twin_store, Event.timer) ]

/-- A store that refuses every stat, parses every directory as one file entry
`sample_id 98`, and finds every object Directory-typed. -/
def refusing_store : Store :=
  { async_read := fun _ => true, async_stat := fun _ => false,
    async_write := fun _ _ => true,
    seaf_dir_from_data := fun _ _ =>
      some { entries := [{ id := sample_id 98, mode := 33188 }] },
    seaf_metadata_type_from_data := fun _ _ => MetadataType.DIR }

/-- A session in which the root directory `sample_id 97` is absent, is
requested and received, and the stat of its one entry cannot be issued. -/
def refused_trace : List (Store × Event) :=
  [ (twin_store, Event.update UpdateCode.SC_ROOT (root_list_msg [sample_id 97])),
    (twin_store, Event.seafdir_read { obj_id := sample_id 97, success := false, data := [] }),
    (twin_store, Event.update UpdateCode.SC_ROOT_END []),
    (twin_store, Event.timer),
    (refusing_store, Event.update UpdateCode.SC_OBJECT (object_msg (sample_id 97) [1, 2, 3])) ]

/-- A processor waiting for the object `sample_id 97`, which it has requested. -/
def waiting : Processor :=
  { state := ProcState.FETCH_OBJECT, inspect_objects := 0, pending_objects := 1,
    buf := [], n_batch := 0, fs_objects := {sample_id 97},
    log := [Effect.send_response Status.SC_GET_OBJECT (encode_ids [sample_id 97] ++ [0])] }

/-- A session in which the peer sends an object nobody asked for. -/
def unasked_trace : List (Store × Event) :=
  [ (twin_store, Event.update UpdateCode.SC_ROOT (root_list_msg [])),
    (twin_store, Event.update UpdateCode.SC_ROOT_END []),
    (twin_store, Event.update UpdateCode.SC_OBJECT (object_msg (sample_id 98) [1, 2, 3])) ]

/-- A session with two root-list messages: the read of the first root
completes, not found, before the second root list arrives. -/
def two_lists_trace : List (Store × Event) :=
  [ (twin_store, Event.update UpdateCode.SC_ROOT (root_list_msg [sample_id 97])),
    (twin_store, Event.seafdir_read { obj_id := sample_id 97, success := false, data := [] }),
    (twin_store, Event.update UpdateCode.SC_ROOT (root_list_msg [sample_empty])),
    (twin_store, Event.update UpdateCode.SC_ROOT_END []),
    (twin_store, Event.timer) ]

/-- A session whose root list names `EMPTY_SHA1` and the absent directory
`sample_id 97`. -/
def empty_root_trace : List (Store × Event) :=
  [ (twin_store, Event.update UpdateCode.SC_ROOT
      (root_list_msg [sample_empty, sample_id 97])),
    (twin_store, Event.seafdir_read { obj_id := sample_id 97, success := false, data := [] }),
    (twin_store, Event.update UpdateCode.SC_ROOT_END []),
    (twin_store, Event.timer) ]

/-- A directory with an empty file and a subdirectory (mode 040000). -/
def sample_dir : SeafDir :=
  { entries := [{ id := sample_empty, mode := 33188 }, { id := sample_id 98, mode := 16384 }] }

/-! ## Well-behaved environments -/

/-- Whether the event, if it is a completion, answers a read (for
`on_seafdir_read`) or a stat (for `on_seafile_stat`) of the same id that the
store accepted earlier. -/
def was_issued (log : List Effect) : Event → Bool
  | Event.seafdir_read res => decide (Effect.async_read res.obj_id true ∈ log)
  | Event.seafile_stat res => decide (Effect.async_stat res.obj_id true ∈ log)
  | _ => true

/-- A session in which store completions are delivered only for reads and
stats that were issued. -/
def answered (EMPTY_SHA1 : ObjId) : Processor → List (Store × Event) → Bool
  | _, [] => true
  | p, (store, ev) :: tr =>
    was_issued p.log ev &&
      match deliver EMPTY_SHA1 store p ev with
      | some q => answered EMPTY_SHA1 q tr
      | none => true

/-- Whether the id field of a message, read as a C string, spells an id of the
hash table (an object that was requested and has not arrived yet). -/
def pending_id_field (p : Processor) (content : List Nat) : Bool :=
  match cstring_id content with
  | some k => decide (k ∈ p.fs_objects)
  | none => false

/-- Whether the event that took `p` to `q`, if it is an object message handled
without ending the session, carried an id field that spells an id of the hash
table. -/
def asked_for (p q : Processor) : Event → Bool
  | Event.update UpdateCode.SC_OBJECT content => finished q || pending_id_field p content
  | _ => true

/-- A session in which the peer sends object messages only for objects that
were requested and have not arrived yet: every object message that
`recv_fs_object` accepts carries an id field spelling an id of the hash
table. -/
def asked (EMPTY_SHA1 : ObjId) : Processor → List (Store × Event) → Bool
  | _, [] => true
  | p, (store, ev) :: tr =>
    match deliver EMPTY_SHA1 store p ev with
    | some q => asked_for p q ev && asked EMPTY_SHA1 q tr
    | none => true

/-! ## The round trip of the spec -/

/-- A store that accepts every operation and knows two directories: the root
`sample_id 114` with the entries file `sample_id 97`, file `sample_id 98` and
directory `sample_id 99` (mode 040000), and the directory `sample_id 99` with
the one entry file `sample_id 100`; it finds every object Directory-typed. -/
def tree_store : Store :=
  { async_read := fun _ => true, async_stat := fun _ => true,
    async_write := fun _ _ => true,
    seaf_dir_from_data := fun id _ =>
      if id = sample_id 114 then
        some { entries := [{ id := sample_id 97, mode := 33188 },
                           { id := sample_id 98, mode := 33188 },
                           { id := sample_id 99, mode := 16384 }] }
      else if id = sample_id 99 then
        some { entries := [{ id := sample_id 100, mode := 33188 }] }
      else none,
    seaf_metadata_type_from_data := fun _ _ => MetadataType.DIR }

/-- The objects of the round trip of the spec: a root directory with the
entries file `a`, file `b` and directory `c`, in this order, and the directory
`c` with the one entry file `d`. `mode_a` to `mode_d` are the modes of the four
entries, `root_data` the bytes the store holds for the root, `c_object` the
object the peer sends for `c`. -/
structure Tree where
  root : ObjId
  a : ObjId
  b : ObjId
  c : ObjId
  d : ObjId
  mode_a : Nat
  mode_b : Nat
  mode_c : Nat
  mode_d : Nat
  root_data : List Nat
  c_object : List Nat

/-- The beginning of the round trip: the root list naming the root, its end,
and the completion of the read of the root, which is present locally. -/
def round_trip_start (store : Store) (t : Tree) : List (Store × Event) :=
  [ (store, Event.update UpdateCode.SC_ROOT (root_list_msg [t.root])),
    (store, Event.update UpdateCode.SC_ROOT_END []),
    (store, Event.seafdir_read { obj_id := t.root, success := true, data := t.root_data }) ]

/-- The completions of the three probes of the root's entries, in the order of
the entries: the stat of `a` finds it, the stat of `b` and the read of `c`
report not-found. -/
def round_trip_probes (store : Store) (t : Tree) : List (Store × Event) :=
  [ (store, Event.seafile_stat { obj_id := t.a, success := true, data := [] }),
    (store, Event.seafile_stat { obj_id := t.b, success := false, data := [] }),
    (store, Event.seafdir_read { obj_id := t.c, success := false, data := [] }) ]

/-- The object message of the peer for the directory `c`. -/
def round_trip_receipt (store : Store) (t : Tree) : Store × Event :=
  (store, Event.update UpdateCode.SC_OBJECT (object_msg t.c t.c_object))

/-- The completion of the stat of `d`, which reports not-found. -/
def round_trip_stat_d (store : Store) (t : Tree) : Store × Event :=
  (store, Event.seafile_stat { obj_id := t.d, success := false, data := [] })

/-- What makes a store and the objects `t` the situation of the round trip:
none of the five ids is `EMPTY_SHA1`; `b` is not `c` and `d` is not `b`; the
id of `c` is text (no NUL character); `a`, `b` and `d` are entries
of files and `c` the entry of a directory; the store holds the root, whose
data parse to the three entries; the object sent for `c` is Directory-typed
and parses to the one entry `d`; and the store accepts the reads, stats and
the write of the round trip. -/
structure RoundTrip (EMPTY_SHA1 : ObjId) (store : Store) (t : Tree) : Prop where
  root_ne : t.root ≠ EMPTY_SHA1
  a_ne : t.a ≠ EMPTY_SHA1
  b_ne : t.b ≠ EMPTY_SHA1
  c_ne : t.c ≠ EMPTY_SHA1
  d_ne : t.d ≠ EMPTY_SHA1
  b_ne_c : t.b ≠ t.c
  d_ne_b : t.d ≠ t.b
  c_text : ∀ x ∈ t.c.val, x ≠ 0
  file_a : S_ISDIR t.mode_a = false
  file_b : S_ISDIR t.mode_b = false
  dir_c : S_ISDIR t.mode_c = true
  file_d : S_ISDIR t.mode_d = false
  read_root : store.async_read t.root = true
  root_parsed : store.seaf_dir_from_data t.root t.root_data =
    some { entries := [{ id := t.a, mode := t.mode_a }, { id := t.b, mode := t.mode_b },
                       { id := t.c, mode := t.mode_c }] }
  stat_a : store.async_stat t.a = true
  stat_b : store.async_stat t.b = true
  read_c : store.async_read t.c = true
  c_typed : store.seaf_metadata_type_from_data t.c_object
    (object_msg t.c t.c_object).length = MetadataType.DIR
  c_parsed : store.seaf_dir_from_data t.c t.c_object =
    some { entries := [{ id := t.d, mode := t.mode_d }] }
  stat_d : store.async_stat t.d = true
  write_c : store.async_write t.c t.c_object = true

/-- The objects of `tree_store`: the root `sample_id 114`, the files
`sample_id 97` and `sample_id 98`, the directory `sample_id 99` and its file
`sample_id 100`. -/
def sample_tree : Tree :=
  { root := sample_id 114, a := sample_id 97, b := sample_id 98, c := sample_id 99,
    d := sample_id 100, mode_a := 33188, mode_b := 33188, mode_c := 16384, mode_d := 33188,
    root_data := [7], c_object := [7, 7] }

/-- The private data of the round trip once the root has been walked: the three
probes of its entries are outstanding, nothing has been requested. -/
def round_trip_walked (t : Tree) : Processor :=
  { state := ProcState.FETCH_OBJECT, inspect_objects := 3, pending_objects := 0,
    buf := [], n_batch := 0, fs_objects := ∅,
    log := [Effect.send_response Status.SC_OK [], Effect.async_read t.root true,
      Effect.send_response Status.SC_OK [], Effect.timer_new,
      Effect.async_stat t.a true, Effect.async_stat t.b true,
      Effect.async_read t.c true] }

/-- The private data of the round trip once the three probes have completed,
the one of `x` reporting not-found before the one of `y`: both ids are in the
hash table and in the buffer, nothing has been sent. -/
def round_trip_probed (t : Tree) (x y : ObjId) : Processor :=
  { round_trip_walked t with
    inspect_objects := 0, pending_objects := 2, buf := encode_ids [x, y], n_batch := 2,
    fs_objects := insert y (insert x ∅) }

/-- The ids listed by the request messages of a log, message by message. -/
def request_batches (p : Processor) : List (List ObjId) :=
  (requests_of p.log).map decode_ids

/-! ## The walk of a directory, in the words of the spec -/

/-- The store operation the spec prescribes for an entry: a read of the child
id if the entry is a directory, a stat otherwise (here accepted by the
store). -/
def spec_probe_of_entry (dent : SeafDirent) : Effect :=
  if S_ISDIR dent.mode then Effect.async_read dent.id true
  else Effect.async_stat dent.id true

/-- The entries the spec has probed: all but those whose child id is the
empty-object id, in the order of the directory. -/
def spec_walked (EMPTY_SHA1 : ObjId) (es : List SeafDirent) : List SeafDirent :=
  es.filter (fun dent => decide (dent.id ≠ EMPTY_SHA1))

/-- The store operations of `probe_directory_entries` in the words of the
spec: one per probed entry, in entry order. -/
def spec_walk_probes (EMPTY_SHA1 : ObjId) (es : List SeafDirent) : List Effect :=
  (spec_walked EMPTY_SHA1 es).map spec_probe_of_entry

/-- Whether the store accepts the operation the walk issues for an entry. -/
def accepts_entry (store : Store) (dent : SeafDirent) : Bool :=
  if S_ISDIR dent.mode then store.async_read dent.id else store.async_stat dent.id

/-! ## Outstanding probes -/

/-- The reads (`true`) and stats (`false`) of a log that the store accepted,
in order. -/
def accepted_probes : List Effect → List (Bool × ObjId)
  | [] => []
  | Effect.async_read id true :: l => (true, id) :: accepted_probes l
  | Effect.async_stat id true :: l => (false, id) :: accepted_probes l
  | _ :: l => accepted_probes l

/-- The read (`true`) or stat (`false`) a completion event answers. -/
def completion_probe : Event → Option (Bool × ObjId)
  | Event.seafdir_read res => some (true, res.obj_id)
  | Event.seafile_stat res => some (false, res.obj_id)
  | _ => none

/-- The outstanding probes once an event has been handled by a live session:
the probe a completion answers is no longer outstanding. -/
def settle (out : List (Bool × ObjId)) (ev : Event) : List (Bool × ObjId) :=
  match completion_probe ev with
  | some k => out.erase k
  | none => out

/-- The outstanding probes after one event that took `p` to `q`: the probe
answered by the event is removed (a session that is done handles no event),
the reads and stats the handler issued and the store accepted are added. -/
def outstanding_step (out : List (Bool × ObjId)) (p q : Processor) (ev : Event) :
    List (Bool × ObjId) :=
  (if finished p then out else settle out ev) ++ accepted_probes (emitted p q)

/-- The reads and stats issued, accepted by the store and not yet completed at
the end of a session that starts with the outstanding probes `out`. -/
def outstanding (EMPTY_SHA1 : ObjId) :
    List (Bool × ObjId) → Processor → List (Store × Event) → List (Bool × ObjId)
  | out, _, [] => out
  | out, p, (store, ev) :: tr =>
    match deliver EMPTY_SHA1 store p ev with
    | some q => outstanding EMPTY_SHA1 (outstanding_step out p q ev) q tr
    | none => out

/-- A session in which the store delivers a completion only for a read or stat
that is outstanding (so exactly one completion per accepted read or stat). -/
def punctual (EMPTY_SHA1 : ObjId) :
    List (Bool × ObjId) → Processor → List (Store × Event) → Bool
  | _, _, [] => true
  | out, p, (store, ev) :: tr =>
    (finished p ||
      match completion_probe ev with
      | some k => decide (k ∈ out)
      | none => true) &&
    match deliver EMPTY_SHA1 store p ev with
    | some q => punctual EMPTY_SHA1 (outstanding_step out p q ev) q tr
    | none => true

/-! ## Writes -/

/-- The writes handed to the store in a log: key, data, and whether the store
accepted the write. -/
def writes_of : List Effect → List (ObjId × List Nat × Bool)
  | [] => []
  | Effect.async_write id data ok :: l => (id, data, ok) :: writes_of l
  | _ :: l => writes_of l

/-- A store that refuses every write and finds every object File-typed. -/
def full_store : Store :=
  { async_read := fun _ => true, async_stat := fun _ => true,
    async_write := fun _ _ => false, seaf_dir_from_data := fun _ _ => none,
    seaf_metadata_type_from_data := fun _ _ => MetadataType.FILE }

/-! ## Completions in any order -/

/-- The completion handler the store calls for an event (`on_seafdir_read` for
a read, `on_seafile_stat` for a stat); other events are not completions of
probes. -/
def on_completion (EMPTY_SHA1 : ObjId) (store : Store) (p : Processor) :
    Event → Option Processor
  | Event.seafdir_read res => on_seafdir_read EMPTY_SHA1 store p res
  | Event.seafile_stat res => on_seafile_stat p res
  | _ => some p

/-- The completion handlers applied to a list of completions, in order. -/
def complete_all (EMPTY_SHA1 : ObjId) (store : Store) :
    Processor → List Event → Option Processor
  | p, [] => some p
  | p, ev :: l =>
    (on_completion EMPTY_SHA1 store p ev).bind
      (fun q => complete_all EMPTY_SHA1 store q l)

/-- Whether an event is the completion of a stat (with any result) or the
completion of a read that reports not-found. -/
def stat_or_missing : Event → Bool
  | Event.seafile_stat _ => true
  | Event.seafdir_read res => !res.success
  | _ => false

/-- The id a completion reports absent, if it does. -/
def absent_ids : Event → List ObjId
  | Event.seafile_stat res => if res.success then [] else [res.obj_id]
  | Event.seafdir_read res => if res.success then [] else [res.obj_id]
  | _ => []

/-! ## Accepted payloads -/

/-- Whether the store accepts every read and stat of the walk of a directory:
the one of every entry whose id is not `EMPTY_SHA1`. -/
def walk_accepted (EMPTY_SHA1 : ObjId) (store : Store) (es : List SeafDirent) : Bool :=
  es.all (fun dent => decide (dent.id = EMPTY_SHA1) || accepts_entry store dent)

/-- Whether the payload of an object message of at least 41 bytes is valid, in
the words of the spec: its type is known (File-typed, or Directory-typed), a
Directory-typed payload parses as a directory and the store accepts every read
and stat of the walk of its entries, and the store accepts the write of the
object. The id is the first 40 bytes, the object what follows the 41 bytes of
the id field. -/
def payload_accepted (EMPTY_SHA1 : ObjId) (store : Store) (content : List Nat) : Bool :=
  (match store.seaf_metadata_type_from_data (content.drop 41) content.length with
    | MetadataType.DIR =>
      match store.seaf_dir_from_data (id_at content) (content.drop 41) with
      | none => false
      | some dir => walk_accepted EMPTY_SHA1 store dir.entries
    | MetadataType.FILE => true
    | MetadataType.OTHER => false) &&
    store.async_write (id_at content) (content.drop 41)

/-! ## The session from `start` on -/

/-- The private data together with what `Processor` leaves out: whether
`priv->bufptr` is still the NULL pointer of the zero-filled private data.
`start` does not set `bufptr`; only `request_object_batch_begin` does. While
`bufptr_null` is `true` the field `buf` of `proc` stands for nothing. -/
structure Session where
  bufptr_null : Bool
  proc : Processor
  deriving DecidableEq

/-- The function `start`, on the zero-filled private data of a new processor;
`token_ok` is whether `seaf_token_manager_verify_token` returned 0. The second
component is the return value. The hash table is created empty, the async
callbacks are registered, and `bufptr` is left as it was: NULL. -/
def start (argc : Nat) (token_ok : Bool) : Session × Int :=
  let p : Processor :=
    { state := ProcState.RECV_ROOT, inspect_objects := 0, pending_objects := 0,
      buf := [], n_batch := 0, fs_objects := ∅, log := [] }
  if argc ≠ 1 then
    (⟨true, ccnet_processor_done
      (ccnet_processor_send_response p Status.SC_BAD_ARGS []) false⟩, -1)
  else if token_ok then
    (⟨true, { ccnet_processor_send_response p Status.SC_OK [] with
      state := ProcState.RECV_ROOT, fs_objects := ∅ }⟩, 0)
  else
    (⟨true, ccnet_processor_done
      (ccnet_processor_send_response p Status.SC_ACCESS_DENIED []) false⟩, -1)

/-- The function `request_object_batch_begin`: `bufptr` is set to `buf`. -/
def Session.request_object_batch_begin (s : Session) : Session :=
  ⟨false, RecvFs.request_object_batch_begin s.proc⟩

/-- The function `request_object_batch_flush`. A NULL `bufptr` is not equal to
`buf`, so the function does not return at its first line and stores the NUL
through the NULL pointer: `none`, the crash of the process. -/
def Session.request_object_batch_flush (s : Session) : Option Session :=
  if s.bufptr_null then none
  else some ⟨false, RecvFs.request_object_batch_flush s.proc⟩

/-- The function `request_object_batch`. With a NULL `bufptr` the difference
`bufptr - buf` of the assertion is negative and the assertion passes; an id of
the hash table returns at once, any other is copied through the NULL pointer:
`none`, the crash of the process. -/
def Session.request_object_batch (s : Session) (id : ObjId) : Option Session :=
  if s.bufptr_null then
    if id ∈ s.proc.fs_objects then some s else none
  else (RecvFs.request_object_batch s.proc id).map (fun q => ⟨false, q⟩)

/-- The callback `on_seafdir_read`. -/
def Session.on_seafdir_read (EMPTY_SHA1 : ObjId) (store : Store) (s : Session)
    (res : OSAsyncResult) : Option Session :=
  let s1 : Session :=
    ⟨s.bufptr_null, { s.proc with inspect_objects := s.proc.inspect_objects - 1 }⟩
  if res.success = false then s1.request_object_batch res.obj_id
  else
    match store.seaf_dir_from_data res.obj_id res.data with
    | none => s1.request_object_batch res.obj_id
    | some dir =>
      some ⟨s1.bufptr_null, (check_seafdir EMPTY_SHA1 store s1.proc dir.entries).1⟩

/-- The callback `on_seafile_stat`. -/
def Session.on_seafile_stat (s : Session) (res : OSAsyncResult) : Option Session :=
  let s1 : Session :=
    ⟨s.bufptr_null, { s.proc with inspect_objects := s.proc.inspect_objects - 1 }⟩
  if res.success = false then s1.request_object_batch res.obj_id
  else some s1

/-- The timer callback `check_end_condition`: the flush, then the test of the
two counters. -/
def Session.check_end_condition (s : Session) : Option (Session × Bool) :=
  match s.request_object_batch_flush with
  | none => none
  | some s1 =>
    if s1.proc.pending_objects = 0 ∧ s1.proc.inspect_objects = 0 then
      some (⟨s1.bufptr_null, ccnet_processor_done
        (ccnet_processor_send_response s1.proc Status.SC_END []) true⟩, false)
    else some (s1, true)

/-- The function `process_fsroot_list`: `request_object_batch_begin` is called
once the length of the list has been checked, before the loop. -/
def Session.process_fsroot_list (EMPTY_SHA1 : ObjId) (store : Store) (s : Session)
    (content : List Nat) : Session :=
  let clen := content.length
  if clen % 41 ≠ 0 then
    ⟨s.bufptr_null, ccnet_processor_done
      (ccnet_processor_send_response s.proc Status.SC_BAD_OL []) false⟩
  else
    let s1 := s.request_object_batch_begin
    ⟨s1.bufptr_null, process_fsroot_loop EMPTY_SHA1 store (clen / 41) content s1.proc⟩

/-- The function `handle_update`; `recv_fs_object` does not touch `bufptr`. -/
def Session.handle_update (EMPTY_SHA1 : ObjId) (store : Store) (s : Session)
    (code : UpdateCode) (content : List Nat) : Session :=
  match s.proc.state with
  | ProcState.RECV_ROOT =>
    match code with
    | UpdateCode.SC_ROOT => s.process_fsroot_list EMPTY_SHA1 store content
    | UpdateCode.SC_ROOT_END =>
      ⟨s.bufptr_null, { s.proc with log := s.proc.log ++ [Effect.timer_new],
                                    state := ProcState.FETCH_OBJECT }⟩
    | _ =>
      ⟨s.bufptr_null, ccnet_processor_done
        (ccnet_processor_send_response s.proc Status.SC_BAD_UPDATE_CODE []) false⟩
  | ProcState.FETCH_OBJECT =>
    match code with
    | UpdateCode.SC_OBJECT => ⟨s.bufptr_null, recv_fs_object EMPTY_SHA1 store s.proc content⟩
    | _ =>
      ⟨s.bufptr_null, ccnet_processor_done
        (ccnet_processor_send_response s.proc Status.SC_BAD_UPDATE_CODE []) false⟩

/-- The event loop, as `deliver`, for a session that began with `start`; `none`
is the end of the process, by `g_assert` or by a store through the NULL
`bufptr`. -/
def Session.deliver (EMPTY_SHA1 : ObjId) (store : Store) (s : Session) (ev : Event) :
    Option Session :=
  if finished s.proc then some s
  else
    match ev with
    | Event.update code content => some (s.handle_update EMPTY_SHA1 store code content)
    | Event.seafdir_read res => s.on_seafdir_read EMPTY_SHA1 store res
    | Event.seafile_stat res => s.on_seafile_stat res
    | Event.fs_write res => some ⟨s.bufptr_null, on_fs_write s.proc res⟩
    | Event.timer =>
      if s.proc.state = ProcState.FETCH_OBJECT then
        s.check_end_condition.map (fun r => r.1)
      else some s

/-- A session that began with `start`: the events delivered one after the
other. -/
def Session.run (EMPTY_SHA1 : ObjId) : Session → List (Store × Event) → Option Session
  | s, [] => some s
  | s, (store, ev) :: tr =>
    (Session.deliver EMPTY_SHA1 store s ev).bind (fun q => Session.run EMPTY_SHA1 q tr)

/-- The buffer fields of a session whose `bufptr` is NULL are those of the
zero-filled private data. -/
def Session.unbegun (s : Session) : Prop :=
  s.bufptr_null = true → s.proc.buf = [] ∧ s.proc.n_batch = 0

/-- A session of `start` in which the peer sends object messages only for
objects that were requested and have not arrived yet (as `asked`). -/
def Session.asked (EMPTY_SHA1 : ObjId) : Session → List (Store × Event) → Bool
  | _, [] => true
  | s, (store, ev) :: tr =>
    match Session.deliver EMPTY_SHA1 store s ev with
    | some q => asked_for s.proc q.proc ev && Session.asked EMPTY_SHA1 q tr
    | none => true

/-- A session of `start` in which the store delivers a completion only for a
read or stat that is outstanding (as `punctual`). -/
def Session.punctual (EMPTY_SHA1 : ObjId) :
    List (Bool × ObjId) → Session → List (Store × Event) → Bool
  | _, _, [] => true
  | out, s, (store, ev) :: tr =>
    (finished s.proc ||
      match completion_probe ev with
      | some k => decide (k ∈ out)
      | none => true) &&
    match Session.deliver EMPTY_SHA1 store s ev with
    | some q => Session.punctual EMPTY_SHA1 (outstanding_step out s.proc q.proc ev) q tr
    | none => true

/-! ## Encoding and decoding of request payloads -/

theorem encode_ids_append (a b : List ObjId) :
    encode_ids (a ++ b) = encode_ids a ++ encode_ids b := by
  induction a with
  | nil => rfl
  | cons x a ih => simp [encode_ids, ih]

theorem encode_ids_length (a : List ObjId) : (encode_ids a).length = 41 * a.length := by
  induction a with
  | nil => rfl
  | cons x a ih => simp [encode_ids, ih, x.property]; omega

theorem id_at_append (x : ObjId) (rest : List Nat) : id_at (x.val ++ rest) = x := by
  apply Subtype.ext
  have h : x.val.length = 40 := x.property
  simp [id_at, List.take_append_eq_append_take, h]

theorem drop_record (x : ObjId) (rest : List Nat) :
    (x.val ++ [10] ++ rest).drop 41 = rest := by
  have h : x.val.length = 40 := x.property
  have h2 : (x.val ++ [10]).length = 41 := by simp [h]
  rw [List.drop_append_eq_append_drop, h2]
  simp [h]

theorem decode_chunks_encode (a : List ObjId) (rest : List Nat) :
    decode_chunks a.length (encode_ids a ++ rest) = a := by
  induction a with
  | nil => rfl
  | cons x a ih =>
    have h1 : encode_ids (x :: a) ++ rest = x.val ++ ([10] ++ (encode_ids a ++ rest)) := by
      simp [encode_ids]
    have h2 : (encode_ids (x :: a) ++ rest).drop 41 = encode_ids a ++ rest := by
      have := drop_record x (encode_ids a ++ rest)
      simpa [encode_ids] using this
    simp only [List.length_cons, decode_chunks]
    rw [h2, ih, h1, id_at_append]

theorem decode_ids_encode (a : List ObjId) : decode_ids (encode_ids a) = a := by
  have h := decode_chunks_encode a []
  simp only [List.append_nil] at h
  unfold decode_ids
  rw [encode_ids_length]
  have : 41 * a.length / 41 = a.length := by omega
  rw [this, h]

theorem decode_ids_frame (a : List ObjId) : decode_ids (encode_ids a ++ [0]) = a := by
  have h := decode_chunks_encode a [0]
  unfold decode_ids
  have : (encode_ids a ++ [0]).length / 41 = a.length := by
    simp [encode_ids_length]; omega
  rw [this, h]

/-! ## Observations of a log that grows -/

@[simp] theorem requests_of_append (a b : List Effect) :
    requests_of (a ++ b) = requests_of a ++ requests_of b := by
  induction a with
  | nil => rfl
  | cons e a ih => cases e <;> try (simp [requests_of, ih])
                   rename_i c _; cases c <;> simp [requests_of, ih]

@[simp] theorem responses_of_append (a b : List Effect) :
    responses_of (a ++ b) = responses_of a ++ responses_of b := by
  induction a with
  | nil => rfl
  | cons e a ih => cases e <;> simp [responses_of, ih]

@[simp] theorem dones_of_append (a b : List Effect) :
    dones_of (a ++ b) = dones_of a ++ dones_of b := by
  induction a with
  | nil => rfl
  | cons e a ih => cases e <;> simp [dones_of, ih]

@[simp] theorem probes_issued_append (a b : List Effect) :
    probes_issued (a ++ b) = probes_issued a + probes_issued b := by
  induction a with
  | nil => simp [probes_issued]
  | cons e a ih => simp [probes_issued, ih]; omega

@[simp] theorem writes_accepted_append (x : ObjId) (a b : List Effect) :
    writes_accepted x (a ++ b) = writes_accepted x a + writes_accepted x b := by
  induction a with
  | nil => simp [writes_accepted]
  | cons e a ih =>
    cases e <;> try (simp [writes_accepted, ih])
    rename_i id data ok; cases ok <;> simp [writes_accepted, ih]; omega

@[simp] theorem no_probe_of_append (x : ObjId) (a b : List Effect) :
    no_probe_of x (a ++ b) = (no_probe_of x a && no_probe_of x b) := by
  simp [no_probe_of, List.all_append]

theorem no_probe_of_cons (x : ObjId) (e : Effect) (l : List Effect) :
    no_probe_of x (e :: l) = (!is_probe_of x e && no_probe_of x l) := by
  simp [no_probe_of]

theorem emitted_append (p q : Processor) (d : List Effect) (h : q.log = p.log ++ d) :
    emitted p q = d := by
  simp [emitted, h]

/-! ## The request buffer -/

theorem encode_ids_eq_nil (cur : List ObjId) : encode_ids cur = [] ↔ cur = [] := by
  cases cur with
  | nil => simp [encode_ids]
  | cons x cur => simp [encode_ids]

theorem request_object_batch_flush_eq (p : Processor) :
    request_object_batch_flush p =
      if p.buf = [] then p
      else { p with buf := [], n_batch := 0,
                    log := p.log ++ [Effect.send_response Status.SC_GET_OBJECT (p.buf ++ [0])] } := by
  unfold request_object_batch_flush ccnet_processor_send_response
  split <;> rfl

theorem request_object_batch_eq (p : Processor) (id : ObjId)
    (hlen : p.buf.length ≤ 4055) (hid : id ∉ p.fs_objects) :
    request_object_batch p id = some
      (if p.n_batch + 1 = 64 then
        { p with buf := [], n_batch := 0, fs_objects := insert id p.fs_objects,
                 pending_objects := p.pending_objects + 1,
                 log := p.log ++ [Effect.send_response Status.SC_GET_OBJECT
                          (p.buf ++ id.val ++ [10] ++ [0])] }
      else
        { p with buf := p.buf ++ id.val ++ [10], n_batch := p.n_batch + 1,
                 fs_objects := insert id p.fs_objects,
                 pending_objects := p.pending_objects + 1 }) := by
  unfold request_object_batch
  have h1 : p.buf.length ≤ 4096 - 41 := hlen
  simp only [h1, hid, if_true, if_false, MAX_NUM_BATCH]
  split
  · simp [request_object_batch_flush_eq]
  · rfl

theorem request_object_batch_mem (p : Processor) (id : ObjId)
    (hlen : p.buf.length ≤ 4055) (hid : id ∈ p.fs_objects) :
    request_object_batch p id = some p := by
  unfold request_object_batch
  have h1 : p.buf.length ≤ 4096 - 41 := hlen
  simp [h1, hid]

theorem Shape.congr {p q : Processor} {sent : List (List ObjId)} {cur : List ObjId}
    (h : Shape p sent cur) (hb : q.buf = p.buf) (hn : q.n_batch = p.n_batch)
    (hl : requests_of q.log = requests_of p.log) : Shape q sent cur :=
  ⟨hl ▸ h.log_eq, hb ▸ h.buf_eq, hn ▸ h.n_eq, h.cur_lt, h.sent_le⟩

theorem Shape.buf_length {p : Processor} {sent : List (List ObjId)} {cur : List ObjId}
    (h : Shape p sent cur) : p.buf.length ≤ 4055 := by
  have := h.cur_lt
  rw [h.buf_eq, encode_ids_length]; omega

theorem Shape.requested {p : Processor} {sent : List (List ObjId)} {cur : List ObjId}
    (h : Shape p sent cur) :
    transmitted_ids p = sent.flatten ∧ requested_ids p = sent.flatten ++ cur := by
  have h1 : (requests_of p.log).map decode_ids = sent := by
    rw [h.log_eq, List.map_map]
    have : (decode_ids ∘ fun m => encode_ids m ++ [0]) = id := by
      funext m; simp [decode_ids_frame]
    rw [this, List.map_id]
  unfold transmitted_ids requested_ids
  rw [h1, h.buf_eq, decode_ids_encode]
  exact ⟨rfl, rfl⟩

theorem Shape.begin {p : Processor} {sent : List (List ObjId)} {cur : List ObjId}
    (h : Shape p sent cur) : Shape (request_object_batch_begin p) sent [] :=
  ⟨h.log_eq, rfl, rfl, by simp, h.sent_le⟩

theorem Shape.flush {p : Processor} {sent : List (List ObjId)} {cur : List ObjId}
    (h : Shape p sent cur) :
    ∃ sent', Shape (request_object_batch_flush p) sent' [] ∧
      sent'.flatten = sent.flatten ++ cur := by
  rw [request_object_batch_flush_eq]
  by_cases hc : cur = []
  · subst hc
    have hb : p.buf = [] := by rw [h.buf_eq]; rfl
    refine ⟨sent, ?_, by simp⟩
    simp only [hb, if_true]
    exact h
  · have hb : p.buf ≠ [] := by
      rw [h.buf_eq]; exact fun e => hc ((encode_ids_eq_nil cur).1 e)
    refine ⟨sent ++ [cur], ?_, by simp⟩
    simp only [hb, if_false]
    refine ⟨?_, rfl, rfl, by simp, ?_⟩
    · simp [requests_of, h.log_eq, h.buf_eq]
    · intro m hm
      rcases List.mem_append.1 hm with hm | hm
      · exact h.sent_le m hm
      · simp only [List.mem_singleton] at hm
        subst hm
        have := h.cur_lt
        exact ⟨List.length_pos.2 hc, by omega⟩

theorem Shape.request {p : Processor} {sent : List (List ObjId)} {cur : List ObjId}
    (h : Shape p sent cur) (id : ObjId) (hid : id ∉ p.fs_objects) :
    ∃ q d sent' cur', request_object_batch p id = some q ∧
      q = { p with buf := q.buf, n_batch := q.n_batch,
                   fs_objects := insert id p.fs_objects,
                   pending_objects := p.pending_objects + 1,
                   log := p.log ++ d } ∧
      (d = [] ∨ ∃ c, d = [Effect.send_response Status.SC_GET_OBJECT c]) ∧
      Shape q sent' cur' ∧ sent'.flatten ++ cur' = sent.flatten ++ cur ++ [id] := by
  rw [request_object_batch_eq p id h.buf_length hid]
  have hlt := h.cur_lt
  by_cases hn : p.n_batch + 1 = 64
  · simp only [hn, if_true]
    refine ⟨_, _, sent ++ [cur ++ [id]], [], rfl, rfl, Or.inr ⟨_, rfl⟩, ?_, by simp⟩
    refine ⟨?_, rfl, rfl, by simp, ?_⟩
    · simp [requests_of, h.log_eq, h.buf_eq, encode_ids_append, encode_ids]
    · intro m hm
      rcases List.mem_append.1 hm with hm | hm
      · exact h.sent_le m hm
      · simp only [List.mem_singleton] at hm
        subst hm
        simp only [List.length_append, List.length_singleton]
        omega
  · simp only [hn, if_false]
    refine ⟨_, [], sent, cur ++ [id], rfl, by simp, Or.inl rfl, ?_, by simp⟩
    refine ⟨h.log_eq, ?_, ?_, ?_, h.sent_le⟩
    · simp [h.buf_eq, encode_ids_append, encode_ids]
    · simp [h.n_eq]
    · have := h.n_eq
      simp only [List.length_append, List.length_singleton]
      omega

theorem check_end_condition_eq (p : Processor) :
    check_end_condition p =
      if (request_object_batch_flush p).pending_objects = 0 ∧
          (request_object_batch_flush p).inspect_objects = 0 then
        ({ request_object_batch_flush p with
            log := (request_object_batch_flush p).log ++
              [Effect.send_response Status.SC_END [], Effect.done true] }, false)
      else (request_object_batch_flush p, true) := by
  unfold check_end_condition ccnet_processor_done ccnet_processor_send_response
  by_cases h : (request_object_batch_flush p).pending_objects = 0 ∧
      (request_object_batch_flush p).inspect_objects = 0
  · rw [if_pos h, if_pos h]; simp
  · rw [if_neg h, if_neg h]

theorem Shape.check_end {p : Processor} {sent : List (List ObjId)} {cur : List ObjId}
    (h : Shape p sent cur) :
    ∃ sent', Shape (check_end_condition p).1 sent' [] ∧
      sent'.flatten = sent.flatten ++ cur := by
  obtain ⟨sent', hs, hf⟩ := h.flush
  refine ⟨sent', ?_, hf⟩
  rw [check_end_condition_eq]
  split
  · exact hs.congr rfl rfl (by simp [requests_of])
  · exact hs

theorem Shape.message_bound {p : Processor} {sent : List (List ObjId)} {cur : List ObjId}
    (h : Shape p sent cur) (m : List Nat) (hm : m ∈ requests_of p.log) :
    ((decode_ids m).length : Int) ≤ MAX_NUM_BATCH ∧ 0 < (decode_ids m).length ∧
      m.length = 41 * (decode_ids m).length + 1 ∧ m.length ≤ 64 * 41 + 1 ∧
      m.length ≤ BUF_SIZE := by
  rw [h.log_eq] at hm
  obtain ⟨ms, hms, rfl⟩ := List.mem_map.1 hm
  have hb := h.sent_le ms hms
  rw [decode_ids_frame]
  have hl : (encode_ids ms ++ [0]).length = 41 * ms.length + 1 := by
    simp [encode_ids_length]
  rw [hl]
  refine ⟨?_, hb.1, rfl, by omega, ?_⟩
  · simp only [MAX_NUM_BATCH]; omega
  · simp only [BUF_SIZE]; omega

/-- The buffer operations keep the buffer and the messages well formed, and
never trip the assertion. -/
theorem apply_op_shape {p : Processor} {sent : List (List ObjId)} {cur : List ObjId}
    (h : Shape p sent cur) (op : BatchOp) :
    ∃ q sent' cur', apply_op p op = some q ∧ Shape q sent' cur' := by
  cases op with
  | submit id =>
    by_cases hid : id ∈ p.fs_objects
    · exact ⟨p, sent, cur, request_object_batch_mem p id h.buf_length hid, h⟩
    · obtain ⟨q, d, sent', cur', hq, -, -, hs, -⟩ := h.request id hid
      exact ⟨q, sent', cur', hq, hs⟩
  | flush =>
    obtain ⟨sent', hs, -⟩ := h.flush
    exact ⟨_, sent', [], rfl, hs⟩
  | checkpoint =>
    obtain ⟨sent', hs, -⟩ := h.check_end
    exact ⟨_, sent', [], rfl, hs⟩

theorem run_ops_shape (ops : List BatchOp) :
    ∀ (p : Processor) (sent : List (List ObjId)) (cur : List ObjId), Shape p sent cur →
      ∃ q sent' cur', run_ops p ops = some q ∧ Shape q sent' cur' := by
  induction ops with
  | nil => intro p sent cur h; exact ⟨p, sent, cur, rfl, h⟩
  | cons op ops ih =>
    intro p sent cur h
    obtain ⟨q, sent', cur', hq, hs⟩ := apply_op_shape h op
    obtain ⟨r, sent2, cur2, hr, hs2⟩ := ih q sent' cur' hs
    exact ⟨r, sent2, cur2, by simp [run_ops, hq, hr], hs2⟩

/-- The state of the buffer, the hash table and the counter after ids have been
submitted to a fresh buffer: `all` lists, without repetition, the ids sent or
buffered; they are the keys of the hash table. -/
theorem apply_op_dedup {p : Processor} {sent : List (List ObjId)} {cur : List ObjId}
    (h : Shape p sent cur) (hnd : (sent.flatten ++ cur).Nodup)
    (hfs : p.fs_objects = (sent.flatten ++ cur).toFinset) (op : BatchOp) :
    ∃ q sent' cur', apply_op p op = some q ∧ Shape q sent' cur' ∧
      (sent'.flatten ++ cur').Nodup ∧
      q.fs_objects = (sent'.flatten ++ cur').toFinset ∧
      (sent'.flatten ++ cur').toFinset =
        (sent.flatten ++ cur).toFinset ∪ (submitted [op]).toFinset ∧
      q.pending_objects - ((sent'.flatten ++ cur').length : Int) =
        p.pending_objects - ((sent.flatten ++ cur).length : Int) := by
  cases op with
  | submit id =>
    by_cases hid : id ∈ p.fs_objects
    · refine ⟨p, sent, cur, request_object_batch_mem p id h.buf_length hid, h, hnd, hfs, ?_, rfl⟩
      rw [hfs] at hid
      simp only [submitted, List.toFinset_cons, List.toFinset_nil]
      ext x
      simp only [Finset.mem_union, Finset.mem_insert, Finset.not_mem_empty, or_false]
      constructor
      · exact Or.inl
      · rintro (hx | rfl)
        · exact hx
        · exact hid
    · obtain ⟨q, d, sent', cur', hq, hqe, -, hs, hall⟩ := h.request id hid
      have hid2 : id ∉ sent.flatten ++ cur := by
        rw [hfs] at hid; simpa using hid
      refine ⟨q, sent', cur', hq, hs, ?_, ?_, ?_, ?_⟩
      · rw [hall]
        exact List.Nodup.append hnd (List.nodup_singleton id) (by simpa using hid2)
      · rw [hqe, hall]
        simp only [hfs]
        ext x
        simp only [Finset.mem_insert, List.mem_toFinset, List.mem_append, List.mem_singleton]
        tauto
      · rw [hall]
        ext x
        simp only [submitted, List.mem_toFinset, List.mem_append, List.mem_singleton,
          Finset.mem_union, List.toFinset_cons, List.toFinset_nil, Finset.mem_insert,
          Finset.not_mem_empty, or_false]
      · rw [hall, hqe]
        simp only [List.length_append, List.length_singleton]
        push_cast
        ring
  | flush =>
    obtain ⟨sent', hs, hf⟩ := h.flush
    refine ⟨_, sent', [], rfl, hs, ?_, ?_, ?_, ?_⟩
    · simpa [hf] using hnd
    · rw [request_object_batch_flush_eq]
      split <;> simp [hfs, hf]
    · simp [hf, submitted]
    · rw [request_object_batch_flush_eq]
      split <;> simp [hf]
  | checkpoint =>
    obtain ⟨sent', hs, hf⟩ := h.check_end
    refine ⟨_, sent', [], rfl, hs, ?_, ?_, ?_, ?_⟩
    · simpa [hf] using hnd
    · rw [check_end_condition_eq, request_object_batch_flush_eq]
      split <;> split <;> simp [hfs, hf]
    · simp [hf, submitted]
    · rw [check_end_condition_eq, request_object_batch_flush_eq]
      split <;> split <;> simp [hf]

theorem submitted_cons (op : BatchOp) (ops : List BatchOp) :
    submitted (op :: ops) = submitted [op] ++ submitted ops := by
  cases op <;> simp [submitted]

theorem run_ops_dedup (ops : List BatchOp) :
    ∀ (p : Processor) (sent : List (List ObjId)) (cur : List ObjId), Shape p sent cur →
      (sent.flatten ++ cur).Nodup → p.fs_objects = (sent.flatten ++ cur).toFinset →
      ∃ q sent' cur', run_ops p ops = some q ∧ Shape q sent' cur' ∧
        (sent'.flatten ++ cur').Nodup ∧
        q.fs_objects = (sent'.flatten ++ cur').toFinset ∧
        (sent'.flatten ++ cur').toFinset =
          (sent.flatten ++ cur).toFinset ∪ (submitted ops).toFinset ∧
        q.pending_objects - ((sent'.flatten ++ cur').length : Int) =
          p.pending_objects - ((sent.flatten ++ cur).length : Int) := by
  induction ops with
  | nil =>
    intro p sent cur h hnd hfs
    exact ⟨p, sent, cur, rfl, h, hnd, hfs, by simp [submitted], rfl⟩
  | cons op ops ih =>
    intro p sent cur h hnd hfs
    obtain ⟨q, sent', cur', hq, hs, hnd', hfs', hset, hpend⟩ := apply_op_dedup h hnd hfs op
    obtain ⟨r, sent2, cur2, hr, hs2, hnd2, hfs2, hset2, hpend2⟩ := ih q sent' cur' hs hnd' hfs'
    refine ⟨r, sent2, cur2, by simp [run_ops, hq, hr], hs2, hnd2, hfs2, ?_, by omega⟩
    rw [hset2, hset, submitted_cons op ops, List.toFinset_append, Finset.union_assoc]
    simp [List.toFinset_append]

theorem session_begun_shape : Shape session_begun [] [] :=
  ⟨rfl, rfl, rfl, by simp, by simp⟩

theorem shape_of_begun (p : Processor) (hbuf : p.buf = []) (hn : p.n_batch = 0)
    (hlog : requests_of p.log = []) : Shape p [] [] :=
  ⟨by simp [hlog], by simp [hbuf, encode_ids], by simp [hn], by simp, by simp⟩

/-! ## The claims -/

/-- C1: from a freshly begun session (empty hash table, empty buffer,
`pending_objects = 0`, no request sent), after any finite sequence of
`request_object_batch` calls, with repeated ids and interleaved with flushes
and checkpoints, every call returns, each id occurs at most once among the ids
of all request messages sent followed by those still in the buffer, and
`pending_objects` is the number of distinct ids submitted. -/
theorem C1_idempotent_dedup (p0 : Processor) (ops : List BatchOp)
    (hset : p0.fs_objects = ∅) (hbuf : p0.buf = []) (hn : p0.n_batch = 0)
    (hpend : p0.pending_objects = 0) (hlog : requests_of p0.log = []) :
    ∃ p, run_ops p0 ops = some p ∧ (requested_ids p).Nodup ∧
      (∀ id, id ∈ requested_ids p ↔ id ∈ submitted ops) ∧
      p.pending_objects = ((submitted ops).toFinset.card : Int) := by
  obtain ⟨q, sent, cur, hq, hs, hnd, -, hsub, hpe⟩ :=
    run_ops_dedup ops p0 [] [] (shape_of_begun p0 hbuf hn hlog) (by simp) (by simp [hset])
  refine ⟨q, hq, ?_, ?_, ?_⟩
  · rw [hs.requested.2]; exact hnd
  · intro id
    rw [hs.requested.2, ← List.mem_toFinset, hsub]
    simp
  · have hcard : (submitted ops).toFinset.card = (sent.flatten ++ cur).length := by
      rw [← List.toFinset_card_of_nodup hnd, hsub]
      simp
    rw [hcard]
    simp only [hpend, List.flatten_nil, List.append_nil, List.length_nil] at hpe
    omega

theorem C1_idempotent_dedup_witness :
    (session_begun.fs_objects = ∅ ∧ session_begun.buf = [] ∧ session_begun.n_batch = 0 ∧
      session_begun.pending_objects = 0 ∧ requests_of session_begun.log = []) ∧
    ∃ p, run_ops session_begun
        [BatchOp.submit (sample_id 97), BatchOp.submit (sample_id 97), BatchOp.flush,
          BatchOp.submit (sample_id 98), BatchOp.submit (sample_id 97)] = some p ∧
      (requested_ids p).Nodup ∧
      (∀ id, id ∈ requested_ids p ↔ id ∈ submitted
        [BatchOp.submit (sample_id 97), BatchOp.submit (sample_id 97), BatchOp.flush,
          BatchOp.submit (sample_id 98), BatchOp.submit (sample_id 97)]) ∧
      p.pending_objects = ((submitted
        [BatchOp.submit (sample_id 97), BatchOp.submit (sample_id 97), BatchOp.flush,
          BatchOp.submit (sample_id 98), BatchOp.submit (sample_id 97)]).toFinset.card : Int) :=
  ⟨⟨rfl, rfl, rfl, rfl, rfl⟩, C1_idempotent_dedup session_begun _ rfl rfl rfl rfl rfl⟩

/-- C2: in every state reached from a begun buffer (empty, batch count 0, no
request sent yet) by any sequence of `request_object_batch`,
`request_object_batch_flush` and `check_end_condition`, every call returns and
every object-request message sent lists at least one and at most
`MAX_NUM_BATCH` = 64 ids, is 41 bytes per id plus the final NUL long, hence at
most 64*41+1 bytes, which fits the 4096 bytes of the buffer. -/
theorem C2_batch_bound (p0 : Processor) (ops : List BatchOp)
    (hbuf : p0.buf = []) (hn : p0.n_batch = 0) (hlog : requests_of p0.log = []) :
    ∃ p, run_ops p0 ops = some p ∧
      ∀ m ∈ requests_of p.log,
        ((decode_ids m).length : Int) ≤ MAX_NUM_BATCH ∧ 0 < (decode_ids m).length ∧
          m.length = 41 * (decode_ids m).length + 1 ∧ m.length ≤ 64 * 41 + 1 ∧
          m.length ≤ BUF_SIZE := by
  obtain ⟨q, sent, cur, hq, hs⟩ := run_ops_shape ops p0 [] [] (shape_of_begun p0 hbuf hn hlog)
  exact ⟨q, hq, fun m hm => hs.message_bound m hm⟩

theorem C2_batch_bound_witness :
    (session_begun.buf = [] ∧ session_begun.n_batch = 0 ∧ requests_of session_begun.log = []) ∧
    ∃ p, run_ops session_begun
        [BatchOp.submit (sample_id 97), BatchOp.checkpoint, BatchOp.submit (sample_id 98),
          BatchOp.flush] = some p ∧
      ∀ m ∈ requests_of p.log,
        ((decode_ids m).length : Int) ≤ MAX_NUM_BATCH ∧ 0 < (decode_ids m).length ∧
          m.length = 41 * (decode_ids m).length + 1 ∧ m.length ≤ 64 * 41 + 1 ∧
          m.length ≤ BUF_SIZE :=
  ⟨⟨rfl, rfl, rfl⟩, C2_batch_bound session_begun _ rfl rfl rfl⟩

theorem emitted_flush (p : Processor) :
    emitted p (request_object_batch_flush p) =
      if p.buf = [] then []
      else [Effect.send_response Status.SC_GET_OBJECT (p.buf ++ [0])] := by
  rw [request_object_batch_flush_eq]
  split <;> simp [emitted]

theorem flush_fields (p : Processor) :
    (request_object_batch_flush p).buf = [] ∧
    (request_object_batch_flush p).pending_objects = p.pending_objects ∧
    (request_object_batch_flush p).inspect_objects = p.inspect_objects ∧
    (request_object_batch_flush p).fs_objects = p.fs_objects ∧
    (request_object_batch_flush p).state = p.state := by
  rw [request_object_batch_flush_eq]
  split <;> simp [*]

theorem emitted_check_end (p : Processor) :
    emitted p (check_end_condition p).1 =
      (if p.buf = [] then []
        else [Effect.send_response Status.SC_GET_OBJECT (p.buf ++ [0])]) ++
      (if p.pending_objects = 0 ∧ p.inspect_objects = 0 then
        [Effect.send_response Status.SC_END [], Effect.done true] else []) := by
  rw [check_end_condition_eq]
  obtain ⟨-, h2, h3, -, -⟩ := flush_fields p
  rw [h2, h3, request_object_batch_flush_eq]
  split <;> split <;> simp [emitted]

/-- The checkpoint of a session whose buffer has been begun (`bufptr` points
into `buf`): `check_end_condition` sends the end-of-transfer response `SC_END`,
calls `ccnet_processor_done` with success and stops the timer if and only if
`inspect_objects = 0` and `pending_objects = 0`; the buffer is empty after the
flush of the checkpoint; when one of the counters is not zero the checkpoint
sends no `SC_END`, does not call `ccnet_processor_done` and keeps the timer
running. What it emits is exactly the flushed request message, if the buffer
was not empty, followed by `SC_END` and `done` in the first case. -/
theorem check_end_condition_begun (p : Processor) :
    ((Effect.send_response Status.SC_END [] ∈ emitted p (check_end_condition p).1 ∧
        dones_of (emitted p (check_end_condition p).1) = [true] ∧
        (check_end_condition p).2 = false) ↔
      (p.inspect_objects = 0 ∧ p.pending_objects = 0)) ∧
    (check_end_condition p).1.buf = [] ∧
    (¬ (p.inspect_objects = 0 ∧ p.pending_objects = 0) →
      Status.SC_END ∉ responses_of (emitted p (check_end_condition p).1) ∧
      dones_of (emitted p (check_end_condition p).1) = [] ∧
      (check_end_condition p).2 = true ∧
      (check_end_condition p).1 = request_object_batch_flush p) ∧
    emitted p (check_end_condition p).1 =
      (if p.buf = [] then []
        else [Effect.send_response Status.SC_GET_OBJECT (p.buf ++ [0])]) ++
      (if p.pending_objects = 0 ∧ p.inspect_objects = 0 then
        [Effect.send_response Status.SC_END [], Effect.done true] else []) := by
  have he := emitted_check_end p
  obtain ⟨hb, h2, h3, -, -⟩ := flush_fields p
  have hc := check_end_condition_eq p
  rw [h2, h3] at hc
  by_cases h : p.pending_objects = 0 ∧ p.inspect_objects = 0
  · rw [if_pos h] at hc he
    have h' : p.inspect_objects = 0 ∧ p.pending_objects = 0 := ⟨h.2, h.1⟩
    refine ⟨?_, ?_, fun hne => absurd h' hne, ?_⟩
    · rw [he, hc]
      refine ⟨fun _ => h', fun _ => ⟨by simp, ?_, rfl⟩⟩
      split <;> simp [dones_of]
    · rw [hc]; exact hb
    · rw [he, if_pos h]
  · rw [if_neg h] at hc he
    have h' : ¬ (p.inspect_objects = 0 ∧ p.pending_objects = 0) := fun x => h ⟨x.2, x.1⟩
    refine ⟨?_, ?_, fun _ => ?_, ?_⟩
    · rw [hc]
      simp [h']
    · rw [hc]; exact hb
    · rw [he, hc]
      refine ⟨?_, ?_, rfl, rfl⟩
      · split <;> simp [responses_of]
      · split <;> simp [dones_of]
    · rw [he, if_neg h]

/-- For a session whose buffer has been begun, the checkpoint is the one of
`check_end_condition_begun`. -/
theorem session_check_end_begun (p : Processor) :
    Session.check_end_condition ⟨false, p⟩ =
      some (⟨false, (check_end_condition p).1⟩, (check_end_condition p).2) := by
  simp only [Session.check_end_condition, Session.request_object_batch_flush,
    check_end_condition, Bool.false_eq_true, if_false]
  split <;> rfl

/-- C3 fails in the code. `start` leaves `bufptr` NULL, and `handle_update`
accepts `SC_ROOT_END` from a peer that has sent no root list: the session is
then in state `FETCH_OBJECT`, live, with `inspect_objects = 0` and
`pending_objects = 0`, and `bufptr` still NULL. At the first checkpoint, where
the claim has the session send `SC_END` and end with success,
`request_object_batch_flush` finds `bufptr` different from `buf` and stores
through the NULL pointer: `check_end_condition` does not return, no `SC_END`
is sent, and `ccnet_processor_done` is not called. The same holds at every
checkpoint of a session whose buffer was never begun, whatever its counters. -/
theorem C3_checkpoint_before_begin (E : ObjId) (store : Store) :
    (Session.run E (start 1 true).1
        [(store, Event.update UpdateCode.SC_ROOT_END [])]).map
        (fun s => (s.bufptr_null, s.proc.state, s.proc.inspect_objects,
          s.proc.pending_objects, finished s.proc, s.proc.log)) =
      some (true, ProcState.FETCH_OBJECT, 0, 0, false,
        [Effect.send_response Status.SC_OK [], Effect.timer_new]) ∧
    Session.run E (start 1 true).1
        [(store, Event.update UpdateCode.SC_ROOT_END []), (store, Event.timer)] = none ∧
    (∀ s : Session, s.bufptr_null = true → s.check_end_condition = none) := by
  refine ⟨?_, ?_, ?_⟩
  · simp [Session.run, Session.deliver, Session.handle_update, start, finished, dones_of,
      ccnet_processor_send_response]
  · simp [Session.run, Session.deliver, Session.handle_update, start, finished, dones_of,
      ccnet_processor_send_response, Session.check_end_condition,
      Session.request_object_batch_flush]
  · intro s hs
    simp [Session.check_end_condition, Session.request_object_batch_flush, hs]

/-! ## What the handlers append to the log -/

/-- What `check_seafdir` does: it leaves everything but `inspect_objects` and
the log alone, adds to `inspect_objects` the number of reads and stats the
store accepted, asks the store nothing about `EMPTY_SHA1`, and either returns
0 having sent nothing, or returns -1 having sent one `SC_BAD_OBJECT` and
called `ccnet_processor_done` once. -/
theorem check_seafdir_spec (E : ObjId) (store : Store) (es : List SeafDirent) :
    ∀ p : Processor, ∃ d : List Effect,
      (check_seafdir E store p es).1 =
        { p with inspect_objects := p.inspect_objects + (probes_issued d : Int),
                 log := p.log ++ d } ∧
      requests_of d = [] ∧ (∀ x, writes_accepted x d = 0) ∧ no_probe_of E d = true ∧
      (((check_seafdir E store p es).2 = 0 ∧ dones_of d = [] ∧ responses_of d = []) ∨
       ((check_seafdir E store p es).2 = -1 ∧ dones_of d = [false] ∧
          responses_of d = [Status.SC_BAD_OBJECT])) := by
  induction es with
  | nil =>
    intro p
    exact ⟨[], by simp [check_seafdir, probes_issued], rfl, fun _ => rfl, rfl, Or.inl ⟨rfl, rfl, rfl⟩⟩
  | cons dent rest ih =>
    intro p
    unfold check_seafdir
    by_cases he : dent.id = E
    · simp only [he, if_true]
      exact ih p
    · simp only [he, if_false]
      by_cases hdir : S_ISDIR dent.mode = true
      · simp only [hdir, if_true, seaf_obj_store_async_read]
        by_cases hok : store.async_read dent.id = true
        · simp only [hok, if_true]
          obtain ⟨d, h1, h2, h3, h4, h5⟩ := ih
            { p with log := p.log ++ [Effect.async_read dent.id true],
                     inspect_objects := p.inspect_objects + 1 }
          refine ⟨Effect.async_read dent.id true :: d, ?_, ?_, ?_, ?_, ?_⟩
          · rw [h1]
            simp [probes_issued, is_issued]
            omega
          · simpa [requests_of] using h2
          · intro x; simpa [writes_accepted] using h3 x
          · rw [no_probe_of_cons, h4]
            simp [is_probe_of, he]
          · simpa [dones_of, responses_of] using h5
        · simp only [hok]
          refine ⟨[Effect.async_read dent.id false, Effect.send_response Status.SC_BAD_OBJECT [],
            Effect.done false], ?_, ?_, ?_, ?_, ?_⟩
          · simp [ccnet_processor_done, ccnet_processor_send_response, probes_issued, is_issued,
              Bool.not_eq_true _ ▸ hok]
          · simp [requests_of]
          · intro x; simp [writes_accepted]
          · simp [no_probe_of, is_probe_of, he]
          · simp [dones_of, responses_of]
      · simp only [hdir, seaf_obj_store_async_stat]
        by_cases hok : store.async_stat dent.id = true
        · simp only [hok, if_true]
          obtain ⟨d, h1, h2, h3, h4, h5⟩ := ih
            { p with log := p.log ++ [Effect.async_stat dent.id true],
                     inspect_objects := p.inspect_objects + 1 }
          refine ⟨Effect.async_stat dent.id true :: d, ?_, ?_, ?_, ?_, ?_⟩
          · simp only [Bool.false_eq_true, if_false]
            rw [h1]
            simp [probes_issued, is_issued]
            omega
          · simpa [requests_of] using h2
          · intro x; simpa [writes_accepted] using h3 x
          · rw [no_probe_of_cons, h4]
            simp [is_probe_of, he]
          · simpa [dones_of, responses_of] using h5
        · simp only [hok]
          refine ⟨[Effect.async_stat dent.id false, Effect.send_response Status.SC_BAD_OBJECT [],
            Effect.done false], ?_, ?_, ?_, ?_, ?_⟩
          · simp [ccnet_processor_done, ccnet_processor_send_response, probes_issued, is_issued,
              Bool.not_eq_true _ ▸ hok]
          · simp [requests_of]
          · intro x; simp [writes_accepted]
          · simp [no_probe_of, is_probe_of, he]
          · simp [dones_of, responses_of]

/-- What the loop of `process_fsroot_list` does: it changes only
`inspect_objects` and the log, reads nothing for `EMPTY_SHA1`, and ends either
with `SC_OK` or with `SC_BAD_OBJECT` and `ccnet_processor_done`. -/
theorem process_fsroot_loop_spec (E : ObjId) (store : Store) (n : Nat) :
    ∀ (content : List Nat) (p : Processor), ∃ d : List Effect,
      process_fsroot_loop E store n content p =
        { p with inspect_objects := p.inspect_objects + (probes_issued d : Int),
                 log := p.log ++ d } ∧
      requests_of d = [] ∧ (∀ x, writes_accepted x d = 0) ∧ no_probe_of E d = true ∧
      ((dones_of d = [] ∧ responses_of d = [Status.SC_OK]) ∨
       (dones_of d = [false] ∧ responses_of d = [Status.SC_BAD_OBJECT])) := by
  induction n with
  | zero =>
    intro content p
    refine ⟨[Effect.send_response Status.SC_OK []], ?_, ?_, ?_, ?_, ?_⟩
    · simp [process_fsroot_loop, ccnet_processor_send_response, probes_issued, is_issued]
    · simp [requests_of]
    · intro x; simp [writes_accepted]
    · simp [no_probe_of, is_probe_of]
    · simp [dones_of, responses_of]
  | succ n ih =>
    intro content p
    unfold process_fsroot_loop
    by_cases he : id_at content = E
    · simp only [he, if_true]
      exact ih _ p
    · simp only [he, if_false, seaf_obj_store_async_read]
      by_cases hok : store.async_read (id_at content) = true
      · simp only [hok, Bool.true_eq_false, if_false]
        obtain ⟨d, h1, h2, h3, h4, h5⟩ := ih (content.drop 41)
          { p with log := p.log ++ [Effect.async_read (id_at content) true],
                   inspect_objects := p.inspect_objects + 1 }
        refine ⟨Effect.async_read (id_at content) true :: d, ?_, ?_, ?_, ?_, ?_⟩
        · rw [h1]
          simp [probes_issued, is_issued]
          omega
        · simpa [requests_of] using h2
        · intro x; simpa [writes_accepted] using h3 x
        · rw [no_probe_of_cons, h4]
          simp [is_probe_of, he]
        · simpa [dones_of, responses_of] using h5
      · have hf : store.async_read (id_at content) = false := by simpa using hok
        simp only [hf, if_true]
        refine ⟨[Effect.async_read (id_at content) false,
          Effect.send_response Status.SC_BAD_OBJECT [], Effect.done false], ?_, ?_, ?_, ?_, ?_⟩
        · simp [ccnet_processor_done, ccnet_processor_send_response, probes_issued, is_issued]
        · simp [requests_of]
        · intro x; simp [writes_accepted]
        · simp [no_probe_of, is_probe_of, he]
        · simp [dones_of, responses_of]

/-- The return value of `check_seafdir`: 0 when the store accepts every read
and stat of the walk, -1 otherwise. -/
theorem check_seafdir_ret (E : ObjId) (store : Store) (es : List SeafDirent) :
    ∀ p : Processor, (check_seafdir E store p es).2 =
      if walk_accepted E store es = true then 0 else -1 := by
  induction es with
  | nil => intro p; simp [check_seafdir, walk_accepted]
  | cons dent rest ih =>
    intro p
    unfold check_seafdir
    by_cases he : dent.id = E
    · simp only [he, if_true]
      rw [ih p]
      simp [walk_accepted, he]
    · simp only [he, if_false]
      by_cases hdir : S_ISDIR dent.mode = true
      · simp only [hdir, if_true, seaf_obj_store_async_read]
        by_cases hok : store.async_read dent.id = true
        · simp only [hok, if_true]
          rw [ih]
          simp [walk_accepted, he, accepts_entry, hdir, hok]
        · simp [walk_accepted, he, accepts_entry, hdir, hok]
      · simp only [hdir, seaf_obj_store_async_stat, Bool.false_eq_true, if_false]
        by_cases hok : store.async_stat dent.id = true
        · simp only [hok, if_true]
          rw [ih]
          simp [walk_accepted, he, accepts_entry, hdir, hok]
        · simp [walk_accepted, he, accepts_entry, hdir, hok]

theorem recv_fs_object_bad_eq (p : Processor) :
    recv_fs_object_bad p =
      { p with log := p.log ++
          [Effect.send_response Status.SC_BAD_OBJECT [], Effect.done false] } := by
  simp [recv_fs_object_bad, ccnet_processor_done, ccnet_processor_send_response]

theorem cstring_id_eq {bytes : List Nat} {k : ObjId} (h : cstring_id bytes = some k) :
    k = id_at bytes := by
  unfold cstring_id at h
  split at h
  · rename_i hc
    simp only [Option.some.injEq] at h
    subst h
    apply Subtype.ext
    have hpre : bytes.takeWhile (fun b => decide (b ≠ 0)) <+: bytes :=
      List.takeWhile_prefix _
    have htake := List.prefix_iff_eq_take.1 hpre
    rw [hc.1] at htake
    simp only [id_at]
    rw [List.take_append_of_le_length (by omega)]
    exact htake
  · exact absurd h (by simp)

/-- The two things `g_hash_table_remove` can do with the id field of a
message: remove the id spelled by its first 40 bytes, or remove nothing. -/
theorem g_hash_table_remove_cases (table : Finset ObjId) (content : List Nat) :
    (cstring_id content = some (id_at content) ∧
        g_hash_table_remove table content = table.erase (id_at content)) ∨
      (cstring_id content = none ∧ g_hash_table_remove table content = table) := by
  unfold g_hash_table_remove
  cases h : cstring_id content with
  | none => exact Or.inr ⟨rfl, rfl⟩
  | some k =>
    have hk := cstring_id_eq h
    subst hk
    exact Or.inl ⟨rfl, rfl⟩

theorem drop_take_body (content : List Nat) :
    (content.drop 41).take (content.length - 41) = content.drop 41 :=
  List.take_of_length_le (by simp)

/-- What the end of `recv_fs_object` does: one write is handed to the store;
if the store accepts it `g_hash_table_remove` is called with the id field,
otherwise the session is ended with `SC_BAD_OBJECT` and the hash table is left
alone. -/
theorem recv_fs_object_save_eq (store : Store) (p : Processor) (content : List Nat) :
    recv_fs_object_save store p content =
      if store.async_write (id_at content) (content.drop 41) = true then
        { p with fs_objects := g_hash_table_remove p.fs_objects content,
                 log := p.log ++ [Effect.async_write (id_at content) (content.drop 41) true] }
      else
        { p with log := p.log ++ [Effect.async_write (id_at content) (content.drop 41) false,
                   Effect.send_response Status.SC_BAD_OBJECT [], Effect.done false] } := by
  unfold recv_fs_object_save save_fs_object seaf_obj_store_async_write
  rw [drop_take_body]
  by_cases hok : store.async_write (id_at content) (content.drop 41) = true
  · simp [hok]
  · have hf : store.async_write (id_at content) (content.drop 41) = false := by simpa using hok
    simp [hf, recv_fs_object_bad_eq]

/-- What `recv_fs_object` does with a message of at least 41 bytes:
`pending_objects` goes down by one in every case; either the payload is
accepted (`payload_accepted`), the object is handed to the store and
`g_hash_table_remove` is called with the id field, or the payload is not
accepted, the session is ended and the hash table is left alone. -/
theorem recv_fs_object_spec (E : ObjId) (store : Store) (p : Processor)
    (content : List Nat) (hlen : 41 ≤ content.length) :
    ∃ d : List Effect, requests_of d = [] ∧ no_probe_of E d = true ∧
      ((recv_fs_object E store p content =
          { p with pending_objects := p.pending_objects - 1,
                   inspect_objects := p.inspect_objects + (probes_issued d : Int),
                   fs_objects := g_hash_table_remove p.fs_objects content,
                   log := p.log ++ d } ∧
        dones_of d = [] ∧ responses_of d = [] ∧
        (∀ x, writes_accepted x d = if id_at content = x then 1 else 0) ∧
        payload_accepted E store content = true) ∨
       (recv_fs_object E store p content =
          { p with pending_objects := p.pending_objects - 1,
                   inspect_objects := p.inspect_objects + (probes_issued d : Int),
                   log := p.log ++ d } ∧
        dones_of d ≠ [] ∧ (∀ x, writes_accepted x d = 0) ∧
        Status.SC_BAD_OBJECT ∈ responses_of d ∧
        payload_accepted E store content = false)) := by
  unfold recv_fs_object
  have hl : ¬ content.length < 41 := by omega
  simp only [hl, if_false, drop_take_body]
  cases hty : store.seaf_metadata_type_from_data (content.drop 41) content.length with
  | OTHER =>
    refine ⟨[Effect.send_response Status.SC_BAD_OBJECT [], Effect.done false], ?_, ?_,
      Or.inr ⟨?_, ?_, ?_, ?_, ?_⟩⟩
    · simp [requests_of]
    · simp [no_probe_of, is_probe_of]
    · simp [recv_fs_object_bad_eq, probes_issued, is_issued]
    · simp [dones_of]
    · intro x; simp [writes_accepted]
    · simp [responses_of]
    · simp [payload_accepted, hty]
  | FILE =>
    simp only [recv_fs_object_save_eq]
    by_cases hok : store.async_write (id_at content) (content.drop 41) = true
    · refine ⟨[Effect.async_write (id_at content) (content.drop 41) true], ?_, ?_,
        Or.inl ⟨?_, ?_, ?_, ?_, ?_⟩⟩
      · simp [requests_of]
      · simp [no_probe_of, is_probe_of]
      · simp [hok, probes_issued, is_issued]
      · simp [dones_of]
      · simp [responses_of]
      · intro x; simp [writes_accepted]
      · simp [payload_accepted, hty, hok]
    · refine ⟨[Effect.async_write (id_at content) (content.drop 41) false,
        Effect.send_response Status.SC_BAD_OBJECT [], Effect.done false], ?_, ?_,
        Or.inr ⟨?_, ?_, ?_, ?_, ?_⟩⟩
      · simp [requests_of]
      · simp [no_probe_of, is_probe_of]
      · simp [hok, probes_issued, is_issued]
      · simp [dones_of]
      · intro x; simp [writes_accepted]
      · simp [responses_of]
      · simp [payload_accepted, hty, hok]
  | DIR =>
    simp only
    cases hparse : store.seaf_dir_from_data (id_at content) (content.drop 41) with
    | none =>
      refine ⟨[Effect.send_response Status.SC_BAD_OBJECT [], Effect.done false], ?_, ?_,
        Or.inr ⟨?_, ?_, ?_, ?_, ?_⟩⟩
      · simp [requests_of]
      · simp [no_probe_of, is_probe_of]
      · simp [recv_fs_object_bad_eq, probes_issued, is_issued]
      · simp [dones_of]
      · intro x; simp [writes_accepted]
      · simp [responses_of]
      · simp [payload_accepted, hty, hparse]
    | some dir =>
      simp only
      obtain ⟨d, h1, h2, h3, h4, h5⟩ := check_seafdir_spec E store dir.entries
        { p with pending_objects := p.pending_objects - 1 }
      rcases h5 with ⟨hr, hd, hresp⟩ | ⟨hr, hd, hresp⟩
      · have hr' : ¬ (check_seafdir E store
            { p with pending_objects := p.pending_objects - 1 } dir.entries).2 < 0 := by
          rw [hr]; decide
        simp only [hr', if_false, recv_fs_object_save_eq]
        rw [h1]
        by_cases hok : store.async_write (id_at content) (content.drop 41) = true
        · refine ⟨d ++ [Effect.async_write (id_at content) (content.drop 41) true], ?_, ?_,
            Or.inl ⟨?_, ?_, ?_, ?_, ?_⟩⟩
          · simp [requests_of, h2]
          · rw [no_probe_of_append, h4]; simp [no_probe_of, is_probe_of]
          · simp [hok, probes_issued, is_issued]
          · simp [dones_of, hd]
          · simp [responses_of, hresp]
          · intro x; simp [writes_accepted, h3 x]
          · have hw := check_seafdir_ret E store dir.entries
              { p with pending_objects := p.pending_objects - 1 }
            rw [hr] at hw
            have hwa : walk_accepted E store dir.entries = true := by
              cases hwv : walk_accepted E store dir.entries with
              | true => rfl
              | false => rw [hwv] at hw; simp at hw
            simp [payload_accepted, hty, hparse, hok, hwa]
        · refine ⟨d ++ [Effect.async_write (id_at content) (content.drop 41) false,
            Effect.send_response Status.SC_BAD_OBJECT [], Effect.done false], ?_, ?_,
            Or.inr ⟨?_, ?_, ?_, ?_, ?_⟩⟩
          · simp [requests_of, h2]
          · rw [no_probe_of_append, h4]; simp [no_probe_of, is_probe_of]
          · simp [hok, probes_issued, is_issued]
          · simp [dones_of, hd]
          · intro x; simp [writes_accepted, h3 x]
          · simp [responses_of]
          · simp [payload_accepted, hty, hparse, hok]
      · have hr' : (check_seafdir E store
            { p with pending_objects := p.pending_objects - 1 } dir.entries).2 < 0 := by
          rw [hr]; decide
        simp only [hr', if_true]
        rw [h1]
        refine ⟨d ++ [Effect.send_response Status.SC_BAD_OBJECT [], Effect.done false], ?_, ?_,
          Or.inr ⟨?_, ?_, ?_, ?_, ?_⟩⟩
        · simp [requests_of, h2]
        · rw [no_probe_of_append, h4]; simp [no_probe_of, is_probe_of]
        · simp [recv_fs_object_bad_eq, probes_issued, is_issued]
        · simp [dones_of, hd]
        · intro x; simp [writes_accepted, h3 x]
        · simp [responses_of]
        · have hw := check_seafdir_ret E store dir.entries
            { p with pending_objects := p.pending_objects - 1 }
          rw [hr] at hw
          have hwa : walk_accepted E store dir.entries = false := by
            cases hwv : walk_accepted E store dir.entries with
            | false => rfl
            | true => rw [hwv] at hw; simp at hw
          simp [payload_accepted, hty, hparse, hwa]

/-! ## One event of a session -/

theorem finished_of_append {p q : Processor} {d : List Effect}
    (hq : q.log = p.log ++ d) (hd : dones_of d ≠ []) : finished q = true := by
  unfold finished
  rw [hq, dones_of_append]
  cases hdd : dones_of d with
  | nil => exact absurd hdd hd
  | cons a l => simp

/-- A completion that submits its id: `request_object_batch` after the
decrement of `inspect_objects`. -/
theorem request_outcome (E : ObjId) {p : Processor} {sent : List (List ObjId)}
    {cur : List ObjId} (h : Shape p sent cur) (ev : Event) (id : ObjId)
    (hev : completion_id ev = some id) :
    ∃ q d sent' cur',
      request_object_batch { p with inspect_objects := p.inspect_objects - 1 } id = some q ∧
      Shape q sent' cur' ∧ q.log = p.log ++ d ∧ no_probe_of E d = true ∧
      q.inspect_objects = p.inspect_objects + (probes_issued d : Int) - 1 ∧
      q.state = p.state ∧
      Outcome p q ev (sent.flatten ++ cur) (sent'.flatten ++ cur') d := by
  have h1 : Shape { p with inspect_objects := p.inspect_objects - 1 } sent cur :=
    h.congr rfl rfl rfl
  by_cases hid : id ∈ p.fs_objects
  · refine ⟨_, [], sent, cur, request_object_batch_mem _ id h1.buf_length hid, h1, by simp,
      rfl, by simp [probes_issued], rfl, ?_⟩
    exact Outcome.plain rfl rfl (fun _ => rfl) (List.Sublist.refl _) rfl
  · obtain ⟨q, d, sent', cur', hq, hqe, hd, hs, hall⟩ := h1.request id hid
    have hdd : dones_of d = [] ∧ probes_issued d = 0 ∧ (∀ x, writes_accepted x d = 0) ∧
        no_probe_of E d = true := by
      rcases hd with rfl | ⟨c, rfl⟩
      · exact ⟨rfl, rfl, fun _ => rfl, rfl⟩
      · exact ⟨rfl, rfl, fun _ => rfl, rfl⟩
    refine ⟨q, d, sent', cur', hq, hs, by rw [hqe], hdd.2.2.2, ?_, by rw [hqe], ?_⟩
    · rw [hqe, hdd.2.1]; simp
    · exact Outcome.requested id hev hid (by rw [hqe]) (by rw [hqe]) hdd.2.2.1 hall hdd.1

/-- A handler that leaves the hash table alone, accepts no write, requests no
new id, and changes `pending_objects` only when it ends the session. -/
theorem outcome_of_quiet {p q : Processor} (ev : Event) (all all' : List ObjId)
    (d : List Effect) (hlog : q.log = p.log ++ d)
    (hfs : q.fs_objects = p.fs_objects)
    (hpend : dones_of d = [] → q.pending_objects = p.pending_objects)
    (hw : ∀ x, writes_accepted x d = 0) (hsub : all'.Sublist all) :
    Outcome p q ev all all' d := by
  by_cases hd : dones_of d = []
  · exact Outcome.plain hfs (hpend hd) hw hsub hd
  · exact Outcome.ended (finished_of_append hlog hd) hfs hw hsub

theorem check_end_fields (E : ObjId) (p : Processor) :
    ∃ d, (check_end_condition p).1.log = p.log ++ d ∧ probes_issued d = 0 ∧
      (∀ x, writes_accepted x d = 0) ∧ no_probe_of E d = true ∧
      (check_end_condition p).1.fs_objects = p.fs_objects ∧
      (check_end_condition p).1.pending_objects = p.pending_objects ∧
      (check_end_condition p).1.inspect_objects = p.inspect_objects ∧
      (check_end_condition p).1.state = p.state := by
  rw [check_end_condition_eq, request_object_batch_flush_eq]
  by_cases hb : p.buf = []
  · simp only [hb, if_true]
    split
    · exact ⟨[Effect.send_response Status.SC_END [], Effect.done true], rfl, rfl,
        fun _ => rfl, rfl, rfl, rfl, rfl, rfl⟩
    · exact ⟨[], by simp, rfl, fun _ => rfl, rfl, rfl, rfl, rfl, rfl⟩
  · simp only [hb, if_false]
    split
    · exact ⟨[Effect.send_response Status.SC_GET_OBJECT (p.buf ++ [0]),
        Effect.send_response Status.SC_END [], Effect.done true], by simp, rfl,
        fun _ => rfl, rfl, rfl, rfl, rfl, rfl⟩
    · exact ⟨[Effect.send_response Status.SC_GET_OBJECT (p.buf ++ [0])], rfl, rfl,
        fun _ => rfl, rfl, rfl, rfl, rfl, rfl⟩

/-- One event delivered to a live session whose buffer is well formed: the
handler returns (the assertion holds), the buffer stays well formed, no read or
stat of `EMPTY_SHA1` is issued, `inspect_objects` goes down by one for a
completion and up by the number of reads and stats the store accepted, and the
hash table, `pending_objects` and the ids requested change in one of the four
ways of `Outcome`. -/
theorem deliver_outcome (E : ObjId) (store : Store) {p : Processor}
    {sent : List (List ObjId)} {cur : List ObjId} (h : Shape p sent cur)
    (hlive : finished p = false) (ev : Event) :
    ∃ q d sent' cur', deliver E store p ev = some q ∧ Shape q sent' cur' ∧
      q.log = p.log ++ d ∧ no_probe_of E d = true ∧
      q.inspect_objects = p.inspect_objects + (probes_issued d : Int) -
        (if (completion_id ev).isSome then 1 else 0) ∧
      Outcome p q ev (sent.flatten ++ cur) (sent'.flatten ++ cur') d := by
  unfold deliver
  simp only [hlive, Bool.false_eq_true, if_false]
  have hbad : ∀ c : Status, c ≠ Status.SC_GET_OBJECT →
      ∃ q d sent' cur',
        some (ccnet_processor_done (ccnet_processor_send_response p c []) false) = some q ∧
        Shape q sent' cur' ∧ q.log = p.log ++ d ∧ no_probe_of E d = true ∧
        q.inspect_objects = p.inspect_objects + (probes_issued d : Int) - 0 ∧
        Outcome p q ev (sent.flatten ++ cur) (sent'.flatten ++ cur') d := by
    intro c hc
    refine ⟨_, [Effect.send_response c [], Effect.done false], sent, cur, rfl, ?_, ?_, rfl, ?_, ?_⟩
    · refine h.congr rfl rfl ?_
      cases c
      all_goals first
        | exact absurd rfl hc
        | simp [ccnet_processor_done, ccnet_processor_send_response, requests_of]
    · simp [ccnet_processor_done, ccnet_processor_send_response]
    · simp [ccnet_processor_done, ccnet_processor_send_response, probes_issued, is_issued]
    · exact Outcome.ended
        (finished_of_append (p := p) (d := [Effect.send_response c [], Effect.done false])
          (by simp [ccnet_processor_done, ccnet_processor_send_response]) (by simp [dones_of]))
        rfl (fun _ => rfl) (List.Sublist.refl _)
  cases ev with
  | update code content =>
    simp only [completion_id, Option.isSome_none, Bool.false_eq_true, if_false]
    unfold handle_update
    cases hst : p.state with
    | RECV_ROOT =>
      cases code with
      | SC_ROOT =>
        simp only
        unfold process_fsroot_list
        by_cases hm : content.length % 41 ≠ 0
        · rw [if_pos hm]
          exact hbad Status.SC_BAD_OL (by decide)
        · rw [if_neg hm]
          obtain ⟨d, h1, h2, h3, h4, h5⟩ := process_fsroot_loop_spec E store
            (content.length / 41) content (request_object_batch_begin p)
          rw [h1]
          refine ⟨_, d, sent, [], rfl, ?_, rfl, h4, by simp [request_object_batch_begin], ?_⟩
          · exact h.begin.congr rfl rfl (by simp [request_object_batch_begin, h2])
          · exact outcome_of_quiet _ _ _ d rfl rfl (fun _ => rfl) h3
              (List.Sublist.append_left (List.nil_sublist cur) _)
      | SC_ROOT_END =>
        refine ⟨_, [Effect.timer_new], sent, cur, rfl, ?_, rfl, rfl, ?_, ?_⟩
        · exact h.congr rfl rfl (by simp [requests_of])
        · simp [probes_issued, is_issued]
        · exact Outcome.plain rfl rfl (fun _ => rfl) (List.Sublist.refl _) rfl
      | SC_OBJECT => exact hbad Status.SC_BAD_UPDATE_CODE (by decide)
      | OTHER => exact hbad Status.SC_BAD_UPDATE_CODE (by decide)
    | FETCH_OBJECT =>
      cases code with
      | SC_OBJECT =>
        simp only
        by_cases hl : content.length < 41
        · have : recv_fs_object E store p content = recv_fs_object_bad p := by
            unfold recv_fs_object; simp [hl]
          rw [this]
          exact hbad Status.SC_BAD_OBJECT (by decide)
        · have hlen : 41 ≤ content.length := by omega
          obtain ⟨d, h2, h4, hcase⟩ := recv_fs_object_spec E store p content hlen
          rcases hcase with ⟨hq, hd, -, hw, -⟩ | ⟨hq, hd, hw, -, -⟩
          · rw [hq]
            refine ⟨_, d, sent, cur, rfl, ?_, rfl, h4, by simp, ?_⟩
            · exact h.congr rfl rfl (by simp [h2])
            · exact Outcome.received content rfl hst hlen rfl rfl hw rfl hd
          · rw [hq]
            refine ⟨_, d, sent, cur, rfl, ?_, rfl, h4, by simp, ?_⟩
            · exact h.congr rfl rfl (by simp [h2])
            · exact Outcome.ended (finished_of_append (p := p) rfl hd) rfl hw
                (List.Sublist.refl _)
      | SC_ROOT => exact hbad Status.SC_BAD_UPDATE_CODE (by decide)
      | SC_ROOT_END => exact hbad Status.SC_BAD_UPDATE_CODE (by decide)
      | OTHER => exact hbad Status.SC_BAD_UPDATE_CODE (by decide)
  | seafdir_read res =>
    simp only [completion_id, Option.isSome_some, if_true]
    unfold on_seafdir_read
    have hreq := request_outcome E h (Event.seafdir_read res) res.obj_id rfl
    by_cases hsucc : res.success = false
    · simp only [hsucc, if_true]
      obtain ⟨q, d, sent', cur', hq, hs, hlog, hnp, hi, -, ho⟩ := hreq
      exact ⟨q, d, sent', cur', hq, hs, hlog, hnp, hi, ho⟩
    · simp only [hsucc, if_false]
      cases hparse : store.seaf_dir_from_data res.obj_id res.data with
      | none =>
        obtain ⟨q, d, sent', cur', hq, hs, hlog, hnp, hi, -, ho⟩ := hreq
        exact ⟨q, d, sent', cur', hq, hs, hlog, hnp, hi, ho⟩
      | some dir =>
        simp only
        obtain ⟨d, h1, h2, h3, h4, h5⟩ := check_seafdir_spec E store dir.entries
          { p with inspect_objects := p.inspect_objects - 1 }
        rw [h1]
        refine ⟨_, d, sent, cur, rfl, ?_, rfl, h4, by simp; omega, ?_⟩
        · exact h.congr rfl rfl (by simp [h2])
        · exact outcome_of_quiet _ _ _ d rfl rfl (fun _ => rfl) h3 (List.Sublist.refl _)
  | seafile_stat res =>
    simp only [completion_id, Option.isSome_some, if_true]
    unfold on_seafile_stat
    by_cases hsucc : res.success = false
    · simp only [hsucc, if_true]
      obtain ⟨q, d, sent', cur', hq, hs, hlog, hnp, hi, -, ho⟩ :=
        request_outcome E h (Event.seafile_stat res) res.obj_id rfl
      exact ⟨q, d, sent', cur', hq, hs, hlog, hnp, hi, ho⟩
    · simp only [hsucc, if_false]
      refine ⟨_, [], sent, cur, rfl, h.congr rfl rfl rfl, by simp, rfl,
        by simp [probes_issued], ?_⟩
      exact Outcome.plain rfl rfl (fun _ => rfl) (List.Sublist.refl _) rfl
  | fs_write res =>
    simp only [completion_id, Option.isSome_none, Bool.false_eq_true, if_false]
    unfold on_fs_write
    by_cases hsucc : res.success = false
    · simp only [hsucc, if_true]
      exact hbad Status.SC_BAD_OBJECT (by decide)
    · simp only [hsucc, if_false]
      refine ⟨p, [], sent, cur, rfl, h, by simp, rfl, by simp [probes_issued], ?_⟩
      exact Outcome.plain rfl rfl (fun _ => rfl) (List.Sublist.refl _) rfl
  | timer =>
    simp only [completion_id, Option.isSome_none, Bool.false_eq_true, if_false]
    by_cases hst : p.state = ProcState.FETCH_OBJECT
    · simp only [hst, if_true]
      obtain ⟨sent', hs, hf⟩ := h.check_end
      obtain ⟨d, hlog, hpi, hw, hnp, hfs, hpe, hin, -⟩ := check_end_fields E p
      refine ⟨_, d, sent', [], rfl, hs, hlog, hnp, by rw [hin, hpi]; simp, ?_⟩
      exact outcome_of_quiet _ _ _ d hlog hfs (fun _ => hpe) hw
        (by rw [hf]; simp)
    · simp only [hst, if_false]
      refine ⟨p, [], sent, cur, rfl, h, by simp, rfl, by simp [probes_issued], ?_⟩
      exact Outcome.plain rfl rfl (fun _ => rfl) (List.Sublist.refl _) rfl

/-! ## Sessions -/

theorem deliver_finished (E : ObjId) (store : Store) (p : Processor) (ev : Event)
    (h : finished p = true) : deliver E store p ev = some p := by
  unfold deliver
  simp [h]

/-- No session trips the assertion, and the buffer stays well formed. -/
theorem run_shape (E : ObjId) (tr : List (Store × Event)) :
    ∀ (p : Processor) (sent : List (List ObjId)) (cur : List ObjId), Shape p sent cur →
      ∃ q sent' cur', run E p tr = some q ∧ Shape q sent' cur' := by
  induction tr with
  | nil => intro p sent cur h; exact ⟨p, sent, cur, rfl, h⟩
  | cons e tr ih =>
    intro p sent cur h
    obtain ⟨store, ev⟩ := e
    cases hfin : finished p with
    | true =>
      obtain ⟨r, s2, c2, hr, hs2⟩ := ih p sent cur h
      exact ⟨r, s2, c2, by simp [run, deliver_finished E store p ev hfin, hr], hs2⟩
    | false =>
      obtain ⟨q, d, sent', cur', hq, hs, -⟩ := deliver_outcome E store h hfin ev
      obtain ⟨r, s2, c2, hr, hs2⟩ := ih q sent' cur' hs
      exact ⟨r, s2, c2, by simp [run, hq, hr], hs2⟩

/-- The bound behind the deduplication: an id occurs among the ids requested
at most once per accepted write of it, plus once if it is in the hash table. -/
theorem outcome_count {p q : Processor} {ev : Event} {all all' : List ObjId}
    {d : List Effect} (hlog : q.log = p.log ++ d) (ho : Outcome p q ev all all' d)
    (hb : ∀ x, all.count x ≤ writes_accepted x p.log + (if x ∈ p.fs_objects then 1 else 0)) :
    ∀ x, all'.count x ≤ writes_accepted x q.log + (if x ∈ q.fs_objects then 1 else 0) := by
  intro x
  have hx := hb x
  rw [hlog, writes_accepted_append]
  cases ho with
  | plain hfs _ hw hsub _ =>
    have := hsub.count_le x
    rw [hfs, hw x]; omega
  | ended _ hfs hw hsub =>
    have := hsub.count_le x
    rw [hfs, hw x]; omega
  | requested id _ hid hfs _ hw hall _ =>
    rw [hfs, hw x, hall, List.count_append]
    by_cases hxi : x = id
    · subst hxi
      simp only [hid, if_false] at hx
      simp
      omega
    · have h1 : [id].count x = 0 := by
        simp [List.count_singleton, Ne.symm hxi]
      have h2 : (x ∈ insert id p.fs_objects) ↔ x ∈ p.fs_objects := by
        simp [Finset.mem_insert, hxi]
      simp only [h1, h2]
      omega
  | received content _ _ _ hfs _ hw hall _ =>
    rw [hfs, hw x, hall]
    rcases g_hash_table_remove_cases p.fs_objects content with ⟨-, hrem⟩ | ⟨-, hrem⟩
    · rw [hrem]
      by_cases hxi : id_at content = x
      · subst hxi
        simp
        split at hx <;> omega
      · have h2 : (x ∈ p.fs_objects.erase (id_at content)) ↔ x ∈ p.fs_objects := by
          simp [Finset.mem_erase, Ne.symm hxi]
        simp only [hxi, if_false, h2]
        omega
    · rw [hrem]
      omega

theorem run_count (E : ObjId) (tr : List (Store × Event)) :
    ∀ (p : Processor) (sent : List (List ObjId)) (cur : List ObjId), Shape p sent cur →
      (∀ x, (sent.flatten ++ cur).count x ≤
        writes_accepted x p.log + (if x ∈ p.fs_objects then 1 else 0)) →
      ∃ q sent' cur', run E p tr = some q ∧ Shape q sent' cur' ∧
        ∀ x, (sent'.flatten ++ cur').count x ≤
          writes_accepted x q.log + (if x ∈ q.fs_objects then 1 else 0) := by
  induction tr with
  | nil => intro p sent cur h hb; exact ⟨p, sent, cur, rfl, h, hb⟩
  | cons e tr ih =>
    intro p sent cur h hb
    obtain ⟨store, ev⟩ := e
    cases hfin : finished p with
    | true =>
      obtain ⟨r, s2, c2, hr, hs2, hb2⟩ := ih p sent cur h hb
      exact ⟨r, s2, c2, by simp [run, deliver_finished E store p ev hfin, hr], hs2, hb2⟩
    | false =>
      obtain ⟨q, d, sent', cur', hq, hs, hlog, -, -, ho⟩ := deliver_outcome E store h hfin ev
      obtain ⟨r, s2, c2, hr, hs2, hb2⟩ := ih q sent' cur' hs (outcome_count hlog ho hb)
      exact ⟨r, s2, c2, by simp [run, hq, hr], hs2, hb2⟩

/-- C4, as the code has it: a session never trips the assertion, and an id is
requested at most once per time it enters the hash table: the number of its
occurrences among the ids of all request messages sent and of the buffer is at
most the number of writes of it the store accepted (object messages received
for it), plus one if it is in the hash table. In particular an id of which no
object message has been accepted occurs in at most one request message, and
once in it. -/
theorem C4_requested_once_per_receipt (E : ObjId) (tr : List (Store × Event)) :
    ∃ p, run E session_begun tr = some p ∧
      (∀ x, (requested_ids p).count x ≤
        writes_accepted x p.log + (if x ∈ p.fs_objects then 1 else 0)) ∧
      (∀ x, writes_accepted x p.log = 0 → (transmitted_ids p).count x ≤ 1) := by
  obtain ⟨q, sent, cur, hq, hs, hb⟩ := run_count E tr session_begun [] []
    session_begun_shape (by intro x; simp)
  refine ⟨q, hq, ?_, ?_⟩
  · rw [hs.requested.2]; exact hb
  · intro x hx
    have h1 := hb x
    rw [hs.requested.1]
    rw [List.count_append, hx] at h1
    split at h1 <;> omega

/-- C4 fails as stated: in the session `twin_trace` the id `sample_id 98` is
listed in two request messages. -/
theorem C4_counterexample :
    (run sample_empty session_begun twin_trace).map
        (fun p => (requests_of p.log).map decode_ids) =
      some [[sample_id 98], [sample_id 98]] := by
  decide

/-- C5 fails in the code: when `recv_fs_object` walks a received directory and
the store refuses a read or stat, `check_seafdir` sends `SC_BAD_OBJECT` and
calls `ccnet_processor_done`, and then the label `bad` of `recv_fs_object`
does both again. In the session `refused_trace` the responses are `SC_OK` (root
list), `SC_GET_OBJECT` (the request), and `SC_BAD_OBJECT` twice, with
`ccnet_processor_done` called twice. -/
theorem C5_double_abort :
    (run sample_empty session_begun refused_trace).map
        (fun p => (responses_of p.log, dones_of p.log)) =
      some ([Status.SC_OK, Status.SC_GET_OBJECT, Status.SC_BAD_OBJECT, Status.SC_BAD_OBJECT],
        [false, false]) := by
  decide

theorem cstring_id_terminated (content : List Nat) (hlen : 41 ≤ content.length)
    (hid : ∀ b ∈ content.take 40, b ≠ 0) (hnul : (content.drop 40).head? = some 0) :
    cstring_id content = some (id_at content) := by
  have htw : content.takeWhile (fun b => decide (b ≠ 0)) = content.take 40 := by
    conv_lhs => rw [← List.take_append_drop 40 content]
    rw [List.takeWhile_append_of_pos (by simpa using hid)]
    cases hd : content.drop 40 with
    | nil => rw [hd] at hnul; simp at hnul
    | cons a l =>
      rw [hd] at hnul
      simp only [List.head?_cons, Option.some.injEq] at hnul
      subst hnul
      simp
  cases h : cstring_id content with
  | some k => rw [cstring_id_eq h]
  | none =>
    unfold cstring_id at h
    split at h
    · simp at h
    · rename_i hc
      exact absurd ⟨by rw [htw, List.length_take]; omega, by omega⟩ hc

theorem session_handle_update_begun (E : ObjId) (store : Store) (p : Processor)
    (code : UpdateCode) (content : List Nat) :
    Session.handle_update E store ⟨false, p⟩ code content =
      ⟨false, handle_update E store p code content⟩ := by
  unfold Session.handle_update handle_update
  cases hst : p.state <;> cases code <;>
    simp [Session.process_fsroot_list, process_fsroot_list, Session.request_object_batch_begin]
  all_goals split <;> rfl

theorem session_deliver_begun (E : ObjId) (store : Store) (p : Processor) (ev : Event) :
    Session.deliver E store ⟨false, p⟩ ev =
      (deliver E store p ev).map (fun q => ⟨false, q⟩) := by
  unfold Session.deliver deliver
  by_cases hfin : finished p = true
  · simp [hfin]
  · simp only [hfin, Bool.false_eq_true, if_false]
    cases ev with
    | update code content => simp [session_handle_update_begun]
    | seafdir_read res =>
      simp only [Session.on_seafdir_read, on_seafdir_read, Session.request_object_batch]
      by_cases hs : res.success = false
      · simp [hs]
      · simp only [hs, if_false]
        cases store.seaf_dir_from_data res.obj_id res.data <;> simp
    | seafile_stat res =>
      simp only [Session.on_seafile_stat, on_seafile_stat, Session.request_object_batch]
      by_cases hs : res.success = false
      · simp [hs]
      · simp [hs]
    | fs_write res => simp
    | timer =>
      by_cases hst : p.state = ProcState.FETCH_OBJECT
      · simp only [hst, if_true, Session.check_end_condition, Session.request_object_batch_flush,
          check_end_condition]
        simp only [Bool.false_eq_true, if_false]
        split <;> simp
      · simp [hst]

/-- Once the buffer has been begun a session is the session of `run`. -/
theorem session_run_begun (E : ObjId) (tr : List (Store × Event)) :
    ∀ p : Processor, Session.run E ⟨false, p⟩ tr =
      (run E p tr).map (fun q => ⟨false, q⟩) := by
  induction tr with
  | nil => intro p; rfl
  | cons e tr ih =>
    intro p
    obtain ⟨store, ev⟩ := e
    simp only [Session.run, run, session_deliver_begun]
    cases deliver E store p ev with
    | none => rfl
    | some q => simp [ih q]


theorem check_seafdir_buf (E : ObjId) (store : Store) (p : Processor) (es : List SeafDirent) :
    (check_seafdir E store p es).1.buf = p.buf ∧
      (check_seafdir E store p es).1.n_batch = p.n_batch := by
  obtain ⟨d, h, -⟩ := check_seafdir_spec E store es p
  rw [h]
  exact ⟨rfl, rfl⟩

theorem recv_fs_object_buf (E : ObjId) (store : Store) (p : Processor) (content : List Nat) :
    (recv_fs_object E store p content).buf = p.buf ∧
      (recv_fs_object E store p content).n_batch = p.n_batch := by
  by_cases hlen : 41 ≤ content.length
  · obtain ⟨d, -, -, h⟩ := recv_fs_object_spec E store p content hlen
    rcases h with ⟨h, -⟩ | ⟨h, -⟩ <;> rw [h] <;> exact ⟨rfl, rfl⟩
  · have hl : content.length < 41 := by omega
    unfold recv_fs_object
    simp [hl, recv_fs_object_bad_eq]

theorem session_request_refines (s s' : Session) (id : ObjId) (hinv : s.unbegun)
    (h : s.request_object_batch id = some s') :
    request_object_batch s.proc id = some s'.proc ∧ s'.unbegun := by
  obtain ⟨b, p⟩ := s
  cases b with
  | false =>
    simp only [Session.request_object_batch, Bool.false_eq_true, if_false,
      Option.map_eq_some'] at h
    obtain ⟨q, hq, rfl⟩ := h
    exact ⟨hq, fun hn => absurd hn (by simp)⟩
  | true =>
    obtain ⟨hbuf, hnb⟩ := hinv rfl
    simp only [Session.request_object_batch, if_true] at h
    by_cases hid : id ∈ p.fs_objects
    · simp only [hid, if_true, Option.some.injEq] at h
      subst h
      refine ⟨request_object_batch_mem _ id ?_ hid, hinv⟩
      simp only at hbuf
      rw [hbuf]; simp
    · simp [hid] at h

theorem session_handle_update_refines (E : ObjId) (store : Store) (s : Session)
    (code : UpdateCode) (content : List Nat) (hinv : s.unbegun) :
    (s.handle_update E store code content).proc = handle_update E store s.proc code content ∧
      (s.handle_update E store code content).unbegun := by
  obtain ⟨b, p⟩ := s
  cases b with
  | false =>
    rw [session_handle_update_begun]
    exact ⟨rfl, fun hn => absurd hn (by simp)⟩
  | true =>
    obtain ⟨hbuf, hnb⟩ := hinv rfl
    simp only at hbuf hnb
    unfold Session.handle_update handle_update Session.unbegun
    cases hst : p.state with
    | RECV_ROOT =>
      cases code with
      | SC_ROOT =>
        simp only [Session.process_fsroot_list, process_fsroot_list,
          Session.request_object_batch_begin]
        by_cases hm : content.length % 41 ≠ 0
        · rw [if_pos hm, if_pos hm]
          exact ⟨rfl, fun _ => ⟨hbuf, hnb⟩⟩
        · rw [if_neg hm, if_neg hm]
          exact ⟨rfl, fun hn => absurd hn (by simp)⟩
      | SC_ROOT_END => exact ⟨rfl, fun _ => ⟨hbuf, hnb⟩⟩
      | SC_OBJECT => exact ⟨rfl, fun _ => ⟨hbuf, hnb⟩⟩
      | OTHER => exact ⟨rfl, fun _ => ⟨hbuf, hnb⟩⟩
    | FETCH_OBJECT =>
      cases code with
      | SC_OBJECT =>
        obtain ⟨h1, h2⟩ := recv_fs_object_buf E store p content
        exact ⟨rfl, fun _ => ⟨h1.trans hbuf, h2.trans hnb⟩⟩
      | SC_ROOT => exact ⟨rfl, fun _ => ⟨hbuf, hnb⟩⟩
      | SC_ROOT_END => exact ⟨rfl, fun _ => ⟨hbuf, hnb⟩⟩
      | OTHER => exact ⟨rfl, fun _ => ⟨hbuf, hnb⟩⟩

theorem session_deliver_refines (E : ObjId) (store : Store) (s s' : Session) (ev : Event)
    (hinv : s.unbegun) (h : Session.deliver E store s ev = some s') :
    deliver E store s.proc ev = some s'.proc ∧ s'.unbegun := by
  unfold Session.deliver at h
  unfold deliver
  by_cases hfin : finished s.proc = true
  · simp only [hfin, if_true, Option.some.injEq] at h
    subst h
    rw [if_pos hfin]
    exact ⟨rfl, hinv⟩
  · rw [if_neg hfin] at h ⊢
    cases ev with
    | update code content =>
      simp only [Option.some.injEq] at h
      subst h
      obtain ⟨h1, h2⟩ := session_handle_update_refines E store s code content hinv
      exact ⟨by rw [h1], h2⟩
    | seafdir_read res =>
      have hinv1 : Session.unbegun
          ⟨s.bufptr_null, { s.proc with inspect_objects := s.proc.inspect_objects - 1 }⟩ :=
        fun hn => hinv hn
      simp only [Session.on_seafdir_read] at h
      simp only [on_seafdir_read]
      cases hs : res.success with
      | false =>
        simp only [hs, if_true] at h ⊢
        exact session_request_refines _ _ _ hinv1 h
      | true =>
        simp only [hs, Bool.true_eq_false, if_false] at h ⊢
        cases hparse : store.seaf_dir_from_data res.obj_id res.data with
        | none =>
          simp only [hparse] at h
          exact session_request_refines _ _ _ hinv1 h
        | some dir =>
          simp only [hparse, Option.some.injEq] at h
          subst h
          refine ⟨rfl, fun hn => ?_⟩
          obtain ⟨h1, h2⟩ := check_seafdir_buf E store
            { s.proc with inspect_objects := s.proc.inspect_objects - 1 } dir.entries
          obtain ⟨hbuf, hnb⟩ := hinv hn
          exact ⟨h1.trans hbuf, h2.trans hnb⟩
    | seafile_stat res =>
      have hinv1 : Session.unbegun
          ⟨s.bufptr_null, { s.proc with inspect_objects := s.proc.inspect_objects - 1 }⟩ :=
        fun hn => hinv hn
      simp only [Session.on_seafile_stat] at h
      simp only [on_seafile_stat]
      cases hs : res.success with
      | false =>
        simp only [hs, if_true] at h ⊢
        exact session_request_refines _ _ _ hinv1 h
      | true =>
        simp only [hs, Bool.true_eq_false, if_false, Option.some.injEq] at h ⊢
        subst h
        exact ⟨rfl, hinv1⟩
    | fs_write res =>
      simp only [Option.some.injEq] at h
      subst h
      refine ⟨rfl, fun hn => ?_⟩
      obtain ⟨hbuf, hnb⟩ := hinv hn
      simp only [on_fs_write]
      split
      · exact ⟨hbuf, hnb⟩
      · exact ⟨hbuf, hnb⟩
    | timer =>
      by_cases hst : s.proc.state = ProcState.FETCH_OBJECT
      · simp only [hst, if_true] at h ⊢
        cases hb : s.bufptr_null with
        | true =>
          simp [Session.check_end_condition, Session.request_object_batch_flush, hb] at h
        | false =>
          simp only [Session.check_end_condition, Session.request_object_batch_flush, hb,
            Bool.false_eq_true, if_false, Option.map_eq_some'] at h
          obtain ⟨r, hr, rfl⟩ := h
          simp only [check_end_condition]
          split at hr
          · simp only [Option.some.injEq] at hr
            subst hr
            rename_i hc
            rw [if_pos hc]
            exact ⟨rfl, fun hn => absurd hn (by simp)⟩
          · simp only [Option.some.injEq] at hr
            subst hr
            rename_i hc
            rw [if_neg hc]
            exact ⟨rfl, fun hn => absurd hn (by simp)⟩
      · simp only [hst, if_false, Option.some.injEq] at h ⊢
        subst h
        exact ⟨rfl, hinv⟩

/-- Where the session of `start` does not crash, its private data are those of
the session of `run`. -/
theorem session_run_refines (E : ObjId) (tr : List (Store × Event)) :
    ∀ (s s' : Session), s.unbegun → Session.run E s tr = some s' →
      run E s.proc tr = some s'.proc := by
  induction tr with
  | nil =>
    intro s s' _ h
    simp only [Session.run, Option.some.injEq] at h
    subst h
    rfl
  | cons e tr ih =>
    intro s s' hinv h
    obtain ⟨store, ev⟩ := e
    simp only [Session.run] at h
    cases hd : Session.deliver E store s ev with
    | none => rw [hd] at h; simp at h
    | some q =>
      rw [hd] at h
      simp only [Option.some_bind] at h
      obtain ⟨h1, h2⟩ := session_deliver_refines E store s q ev hinv hd
      simp only [run, h1, Option.some_bind]
      exact ih q s' h2 h

theorem start_unbegun : (start 1 true).1.unbegun := fun _ => ⟨rfl, rfl⟩

theorem start_shape : Shape (start 1 true).1.proc [] [] :=
  ⟨rfl, rfl, rfl, by decide, by simp⟩

/-! ## The counters -/

theorem accepted_probes_length (d : List Effect) :
    (accepted_probes d).length = probes_issued d := by
  induction d with
  | nil => rfl
  | cons e d ih =>
    cases e with
    | async_read id ok => cases ok <;> simp [accepted_probes, probes_issued, is_issued, ih]; omega
    | async_stat id ok => cases ok <;> simp [accepted_probes, probes_issued, is_issued, ih]; omega
    | send_response c m => simp [accepted_probes, probes_issued, is_issued, ih]
    | done b => simp [accepted_probes, probes_issued, is_issued, ih]
    | async_write id data ok => simp [accepted_probes, probes_issued, is_issued, ih]
    | timer_new => simp [accepted_probes, probes_issued, is_issued, ih]

theorem settle_length (out : List (Bool × ObjId)) (ev : Event)
    (h : ∀ k, completion_probe ev = some k → k ∈ out) :
    ((settle out ev).length : Int) =
      (out.length : Int) - (if (completion_id ev).isSome then 1 else 0) := by
  cases ev with
  | seafdir_read res =>
    have hm := h (true, res.obj_id) rfl
    have hpos : 0 < out.length := List.length_pos_of_mem hm
    simp only [settle, completion_probe, completion_id, Option.isSome_some, if_true]
    rw [List.length_erase_of_mem hm]
    omega
  | seafile_stat res =>
    have hm := h (false, res.obj_id) rfl
    have hpos : 0 < out.length := List.length_pos_of_mem hm
    simp only [settle, completion_probe, completion_id, Option.isSome_some, if_true]
    rw [List.length_erase_of_mem hm]
    omega
  | update code content => simp [settle, completion_probe, completion_id]
  | fs_write res => simp [settle, completion_probe, completion_id]
  | timer => simp [settle, completion_probe, completion_id]

theorem run_outstanding (E : ObjId) (tr : List (Store × Event)) :
    ∀ (out : List (Bool × ObjId)) (p : Processor) (sent : List (List ObjId))
      (cur : List ObjId), Shape p sent cur →
      p.inspect_objects = (out.length : Int) → punctual E out p tr = true →
      ∃ q, run E p tr = some q ∧
        q.inspect_objects = ((outstanding E out p tr).length : Int) := by
  induction tr with
  | nil => intro out p sent cur _ hi _; exact ⟨p, rfl, hi⟩
  | cons e tr ih =>
    intro out p sent cur h hi hp
    obtain ⟨store, ev⟩ := e
    cases hfin : finished p with
    | true =>
      have hd := deliver_finished E store p ev hfin
      have hstep : outstanding_step out p p ev = out := by
        simp [outstanding_step, hfin, emitted, accepted_probes]
      have hp' : punctual E out p tr = true := by
        simpa [punctual, hfin, hd, hstep] using hp
      obtain ⟨r, hr, hinv⟩ := ih out p sent cur h hi hp'
      refine ⟨r, by simp [run, hd, hr], ?_⟩
      simp only [outstanding, hd, hstep]
      exact hinv
    | false =>
      obtain ⟨q, d, sent', cur', hq, hs, hlog, -, hins, -⟩ := deliver_outcome E store h hfin ev
      have hp' : (∀ k, completion_probe ev = some k → k ∈ out) ∧
          punctual E (outstanding_step out p q ev) q tr = true := by
        have := hp
        simp only [punctual, hfin, hq, Bool.false_or, Bool.and_eq_true] at this
        refine ⟨?_, this.2⟩
        intro k hk
        have h1 := this.1
        rw [hk] at h1
        simpa using h1
      have hlen : q.inspect_objects = ((outstanding_step out p q ev).length : Int) := by
        have he : emitted p q = d := emitted_append p q d hlog
        simp only [outstanding_step, hfin, Bool.false_eq_true, if_false, he, List.length_append,
          accepted_probes_length]
        push_cast
        rw [settle_length out ev hp'.1, hins, hi]
        ring
      obtain ⟨r, hr, hinv⟩ := ih _ q sent' cur' hs hlen hp'.2
      refine ⟨r, by simp [run, hq, hr], ?_⟩
      simp only [outstanding, hq]
      exact hinv

/-- The counter `pending_objects` of a live session after one event of a
session in which the peer sends only objects that were asked for. -/
theorem outcome_pending {p q : Processor} {ev : Event} {all all' : List ObjId}
    {d : List Effect} (ho : Outcome p q ev all all' d)
    (hask : asked_for p q ev = true)
    (hpend : p.pending_objects = (p.fs_objects.card : Int))
    (hlive : finished q = false) :
    q.pending_objects = (q.fs_objects.card : Int) := by
  cases ho with
  | plain hfs hpe _ _ _ => rw [hfs, hpe, hpend]
  | ended hfin _ _ _ => rw [hfin] at hlive; exact absurd hlive (by decide)
  | requested id _ hid hfs hpe _ _ _ =>
    rw [hfs, hpe, hpend, Finset.card_insert_of_not_mem hid]
    push_cast
    rfl
  | received content hev _ _ hfs hpe _ _ _ =>
    subst hev
    have hfield : pending_id_field p content = true := by
      simpa [asked_for, hlive] using hask
    unfold pending_id_field at hfield
    cases hk : cstring_id content with
    | none => rw [hk] at hfield; exact absurd hfield (by simp)
    | some k =>
      rw [hk] at hfield
      have hmem : k ∈ p.fs_objects := by simpa using hfield
      have hpos : 0 < p.fs_objects.card := Finset.card_pos.2 ⟨_, hmem⟩
      rw [hfs, hpe, hpend]
      simp only [g_hash_table_remove, hk]
      rw [Finset.card_erase_of_mem hmem]
      omega

theorem run_pending (E : ObjId) (tr : List (Store × Event)) :
    ∀ (p : Processor) (sent : List (List ObjId)) (cur : List ObjId),
      Shape p sent cur →
      (finished p = false → p.pending_objects = (p.fs_objects.card : Int)) →
      asked E p tr = true →
      ∃ q, run E p tr = some q ∧
        (finished q = false → q.pending_objects = (q.fs_objects.card : Int)) := by
  induction tr with
  | nil => intro p sent cur _ hinv _; exact ⟨p, rfl, hinv⟩
  | cons e tr ih =>
    intro p sent cur h hinv hask
    obtain ⟨store, ev⟩ := e
    cases hfin : finished p with
    | true =>
      have hd := deliver_finished E store p ev hfin
      have hask' : asked E p tr = true := by
        have := hask
        simp only [asked, hd, Bool.and_eq_true] at this
        exact this.2
      obtain ⟨r, hr, hinv'⟩ := ih p sent cur h hinv hask'
      exact ⟨r, by simp [run, hd, hr], hinv'⟩
    | false =>
      obtain ⟨q, d, sent', cur', hq, hs, hlog, -, -, ho⟩ := deliver_outcome E store h hfin ev
      have hask' : asked_for p q ev = true ∧ asked E q tr = true := by
        have := hask
        simp only [asked, hq, Bool.and_eq_true] at this
        exact this
      obtain ⟨r, hr, hinv'⟩ := ih q sent' cur' hs
        (fun hl => outcome_pending ho hask'.1 (hinv hfin) hl) hask'.2
      exact ⟨r, by simp [run, hq, hr], hinv'⟩

theorem get_of_map {α β : Type} (f : α → β) (o : Option α) (h : o.isSome = true) (b : β)
    (hm : o.map f = some b) : f (o.get h) = b := by
  cases o with
  | none => simp at h
  | some a => simpa using hm

theorem session_asked_refines (E : ObjId) (tr : List (Store × Event)) :
    ∀ (s s' : Session), s.unbegun → Session.run E s tr = some s' →
      Session.asked E s tr = asked E s.proc tr := by
  induction tr with
  | nil => intro s s' _ _; rfl
  | cons e tr ih =>
    intro s s' hinv h
    obtain ⟨store, ev⟩ := e
    simp only [Session.run] at h
    cases hd : Session.deliver E store s ev with
    | none => rw [hd] at h; simp at h
    | some q =>
      rw [hd] at h
      simp only [Option.some_bind] at h
      obtain ⟨h1, h2⟩ := session_deliver_refines E store s q ev hinv hd
      simp only [Session.asked, asked, hd, h1, ih q s' h2 h]

theorem session_punctual_refines (E : ObjId) (tr : List (Store × Event)) :
    ∀ (out : List (Bool × ObjId)) (s s' : Session), s.unbegun →
      Session.run E s tr = some s' →
      Session.punctual E out s tr = punctual E out s.proc tr := by
  induction tr with
  | nil => intro out s s' _ _; rfl
  | cons e tr ih =>
    intro out s s' hinv h
    obtain ⟨store, ev⟩ := e
    simp only [Session.run] at h
    cases hd : Session.deliver E store s ev with
    | none => rw [hd] at h; simp at h
    | some q =>
      rw [hd] at h
      simp only [Option.some_bind] at h
      obtain ⟨h1, h2⟩ := session_deliver_refines E store s q ev hinv hd
      simp only [Session.punctual, punctual, hd, h1, ih _ q s' h2 h]

/-- C7, as the code has it, for every state `s` a session reaches from `start`
(every sequence of peer messages, store completions and timer ticks that does
not end the process). In a live session `pending_objects` is the number of keys
of the hash table, hence not negative, provided the peer has sent object
messages only for objects that were requested and have not arrived yet (every
object message that `recv_fs_object` accepted carried an id field that, read as
a C string, spells an id of the hash table). `inspect_objects` is not negative
provided every store completion answered a read or stat that was accepted and
not yet completed; this needs no condition on the peer. -/
theorem C7_counters_consistent (E : ObjId) (tr : List (Store × Event)) (s : Session)
    (hrun : Session.run E (start 1 true).1 tr = some s) :
    (Session.asked E (start 1 true).1 tr = true → finished s.proc = false →
      s.proc.pending_objects = (s.proc.fs_objects.card : Int) ∧
        0 ≤ s.proc.pending_objects) ∧
    (Session.punctual E [] (start 1 true).1 tr = true → 0 ≤ s.proc.inspect_objects) := by
  have hr := session_run_refines E tr _ s start_unbegun hrun
  refine ⟨?_, ?_⟩
  · intro hask hl
    rw [session_asked_refines E tr _ s start_unbegun hrun] at hask
    obtain ⟨q, hq, hinv⟩ := run_pending E tr (start 1 true).1.proc [] [] start_shape
      (fun _ => rfl) hask
    rw [hr] at hq
    simp only [Option.some.injEq] at hq
    subst hq
    have h1 := hinv hl
    exact ⟨h1, by rw [h1]; exact Int.natCast_nonneg _⟩
  · intro hpun
    rw [session_punctual_refines E tr [] _ s start_unbegun hrun] at hpun
    obtain ⟨q, hq, hinv⟩ := run_outstanding E tr [] (start 1 true).1.proc [] [] start_shape
      rfl hpun
    rw [hr] at hq
    simp only [Option.some.injEq] at hq
    subst hq
    rw [hinv]
    exact Int.natCast_nonneg _

theorem C7_counters_consistent_witness :
    Session.asked sample_empty (start 1 true).1 twin_trace = true ∧
    Session.punctual sample_empty [] (start 1 true).1 twin_trace = true ∧
    ∃ s, Session.run sample_empty (start 1 true).1 twin_trace = some s ∧
      finished s.proc = false ∧
      s.proc.pending_objects = (s.proc.fs_objects.card : Int) ∧
      0 ≤ s.proc.pending_objects ∧ 0 ≤ s.proc.inspect_objects :=
  have hsome : (Session.run sample_empty (start 1 true).1 twin_trace).isSome = true := by
    decide
  have hlive : finished ((Session.run sample_empty (start 1 true).1 twin_trace).get
      hsome).proc = false :=
    get_of_map (fun s => finished s.proc) _ hsome false (by decide)
  have h := C7_counters_consistent sample_empty twin_trace
    ((Session.run sample_empty (start 1 true).1 twin_trace).get hsome)
    (Option.some_get hsome).symm
  ⟨by decide, by decide, _, (Option.some_get hsome).symm, hlive,
    (h.1 (by decide) hlive).1, (h.1 (by decide) hlive).2, h.2 (by decide)⟩

/-- C7 fails as stated: after an object message for an id that was never
requested (session `unasked_trace`) the session is live, the hash table is
empty and `pending_objects` is -1. -/
theorem C7_counterexample :
    (Session.run sample_empty (start 1 true).1 unasked_trace).map
        (fun s => (finished s.proc, s.proc.fs_objects.card, s.proc.pending_objects)) =
      some (false, 0, -1) := by
  decide

/-- C8 fails in the code: `process_fsroot_list` calls
`request_object_batch_begin` for every root-list message, which empties the
buffer without sending it. In the session `two_lists_trace` the id
`sample_id 97` was submitted before the second root list arrived: after the
checkpoint the session is live, the id is in the hash table and counted in
`pending_objects`, but it is neither in the buffer nor in any request message
sent. -/
theorem C8_buffer_reset_drops_request :
    (run sample_empty session_begun two_lists_trace).map
        (fun p => (finished p, decide (sample_id 97 ∈ p.fs_objects), p.pending_objects)) =
      some (false, true, 1) ∧
    (run sample_empty session_begun two_lists_trace).map
        (fun p => (p.buf, requests_of p.log)) = some ([], []) ∧
    (run sample_empty session_begun two_lists_trace).map requested_ids = some [] ∧
    (run sample_empty session_begun (two_lists_trace.take 2)).map requested_ids =
      some [sample_id 97] := by
  decide

/-- C9: for every root-list payload whose length is not a multiple of 41,
`process_fsroot_list` sends exactly `SC_BAD_OL` and calls
`ccnet_processor_done` with failure, hands nothing to the store, and leaves
`inspect_objects`, `pending_objects`, the hash table, the buffer, its count
and the state as they were. -/
theorem C9_malformed_root_list (E : ObjId) (store : Store) (p : Processor)
    (content : List Nat) (h : content.length % 41 ≠ 0) :
    emitted p (process_fsroot_list E store p content) =
      [Effect.send_response Status.SC_BAD_OL [], Effect.done false] ∧
    (process_fsroot_list E store p content).inspect_objects = p.inspect_objects ∧
    (process_fsroot_list E store p content).pending_objects = p.pending_objects ∧
    (process_fsroot_list E store p content).fs_objects = p.fs_objects ∧
    (process_fsroot_list E store p content).buf = p.buf ∧
    (process_fsroot_list E store p content).n_batch = p.n_batch ∧
    (process_fsroot_list E store p content).state = p.state := by
  unfold process_fsroot_list
  rw [if_pos h]
  simp [emitted, ccnet_processor_done, ccnet_processor_send_response]

theorem C9_malformed_root_list_witness :
    [1, 2, 3].length % 41 ≠ 0 ∧
    emitted waiting (process_fsroot_list sample_empty twin_store waiting [1, 2, 3]) =
      [Effect.send_response Status.SC_BAD_OL [], Effect.done false] ∧
    (process_fsroot_list sample_empty twin_store waiting [1, 2, 3]).inspect_objects =
      waiting.inspect_objects ∧
    (process_fsroot_list sample_empty twin_store waiting [1, 2, 3]).pending_objects =
      waiting.pending_objects ∧
    (process_fsroot_list sample_empty twin_store waiting [1, 2, 3]).fs_objects =
      waiting.fs_objects ∧
    (process_fsroot_list sample_empty twin_store waiting [1, 2, 3]).buf = waiting.buf ∧
    (process_fsroot_list sample_empty twin_store waiting [1, 2, 3]).n_batch =
      waiting.n_batch ∧
    (process_fsroot_list sample_empty twin_store waiting [1, 2, 3]).state = waiting.state :=
  ⟨by decide, C9_malformed_root_list sample_empty twin_store waiting [1, 2, 3] (by decide)⟩

/-! ## The empty object -/

theorem no_probe_of_mem {E : ObjId} {log : List Effect} (h : no_probe_of E log = true)
    {e : Effect} (he : e ∈ log) : is_probe_of E e = false := by
  simp only [no_probe_of, List.all_eq_true] at h
  simpa using h e he

/-- A completion that answers an issued read or stat is not a completion for
`EMPTY_SHA1` when no read or stat of it was issued. -/
theorem completion_id_ne {E : ObjId} {log : List Effect} (h : no_probe_of E log = true)
    {ev : Event} {id : ObjId} (hev : completion_id ev = some id)
    (hw : was_issued log ev = true) : id ≠ E := by
  cases ev with
  | seafdir_read res =>
    simp only [completion_id, Option.some.injEq] at hev
    simp only [was_issued, decide_eq_true_eq] at hw
    have := no_probe_of_mem h hw
    subst hev
    simpa [is_probe_of] using this
  | seafile_stat res =>
    simp only [completion_id, Option.some.injEq] at hev
    simp only [was_issued, decide_eq_true_eq] at hw
    have := no_probe_of_mem h hw
    subst hev
    simpa [is_probe_of] using this
  | update code content => simp [completion_id] at hev
  | fs_write res => simp [completion_id] at hev
  | timer => simp [completion_id] at hev

theorem outcome_empty {E : ObjId} {p q : Processor} {ev : Event} {all all' : List ObjId}
    {d : List Effect} (ho : Outcome p q ev all all' d)
    (hnp : no_probe_of E p.log = true) (hw : was_issued p.log ev = true)
    (hfs : E ∉ p.fs_objects) (hall : E ∉ all) :
    E ∉ q.fs_objects ∧ E ∉ all' := by
  cases ho with
  | plain hf _ _ hsub _ => exact ⟨hf ▸ hfs, fun hm => hall (hsub.subset hm)⟩
  | ended _ hf _ hsub => exact ⟨hf ▸ hfs, fun hm => hall (hsub.subset hm)⟩
  | requested id hev _ hf _ _ ha _ =>
    have hne : id ≠ E := completion_id_ne hnp hev hw
    refine ⟨?_, ?_⟩
    · rw [hf]
      simp only [Finset.mem_insert, not_or]
      exact ⟨Ne.symm hne, hfs⟩
    · rw [ha]
      simp only [List.mem_append, List.mem_singleton, not_or]
      exact ⟨hall, Ne.symm hne⟩
  | received content _ _ _ hf _ _ ha _ =>
    refine ⟨?_, ha ▸ hall⟩
    rw [hf]
    rcases g_hash_table_remove_cases p.fs_objects content with ⟨-, hrem⟩ | ⟨-, hrem⟩
    · rw [hrem]
      exact fun hm => hfs (Finset.mem_of_mem_erase hm)
    · rw [hrem]
      exact hfs

theorem run_empty (E : ObjId) (tr : List (Store × Event)) :
    ∀ (p : Processor) (sent : List (List ObjId)) (cur : List ObjId), Shape p sent cur →
      no_probe_of E p.log = true → E ∉ p.fs_objects → E ∉ sent.flatten ++ cur →
      answered E p tr = true →
      ∃ q sent' cur', run E p tr = some q ∧ Shape q sent' cur' ∧
        no_probe_of E q.log = true ∧ E ∉ q.fs_objects ∧ E ∉ sent'.flatten ++ cur' := by
  induction tr with
  | nil => intro p sent cur h h1 h2 h3 _; exact ⟨p, sent, cur, rfl, h, h1, h2, h3⟩
  | cons e tr ih =>
    intro p sent cur h h1 h2 h3 hans
    obtain ⟨store, ev⟩ := e
    cases hfin : finished p with
    | true =>
      have hd := deliver_finished E store p ev hfin
      have hans' : was_issued p.log ev = true ∧ answered E p tr = true := by
        simpa [answered, hd] using hans
      obtain ⟨r, s2, c2, hr, hs2, g1, g2, g3⟩ := ih p sent cur h h1 h2 h3 hans'.2
      exact ⟨r, s2, c2, by simp [run, hd, hr], hs2, g1, g2, g3⟩
    | false =>
      obtain ⟨q, d, sent', cur', hq, hs, hlog, hnp, -, ho⟩ := deliver_outcome E store h hfin ev
      have hans' : was_issued p.log ev = true ∧ answered E q tr = true := by
        simpa [answered, hq] using hans
      obtain ⟨k2, k3⟩ := outcome_empty ho h1 hans'.1 h2 h3
      obtain ⟨r, s2, c2, hr, hs2, g1, g2, g3⟩ := ih q sent' cur' hs
        (by rw [hlog, no_probe_of_append, h1, hnp]; rfl) k2 k3 hans'.2
      exact ⟨r, s2, c2, by simp [run, hq, hr], hs2, g1, g2, g3⟩

theorem process_fsroot_list_probes (E : ObjId) (store : Store) (p : Processor)
    (content : List Nat) :
    no_probe_of E (emitted p (process_fsroot_list E store p content)) = true ∧
    (process_fsroot_list E store p content).inspect_objects =
      p.inspect_objects +
        (probes_issued (emitted p (process_fsroot_list E store p content)) : Int) := by
  unfold process_fsroot_list
  by_cases hm : content.length % 41 ≠ 0
  · rw [if_pos hm]
    simp [emitted, ccnet_processor_done, ccnet_processor_send_response, no_probe_of,
      is_probe_of, probes_issued, is_issued]
  · rw [if_neg hm]
    obtain ⟨d, h1, -, -, h4, -⟩ := process_fsroot_loop_spec E store
      (content.length / 41) content (request_object_batch_begin p)
    have he : emitted p (process_fsroot_loop E store (content.length / 41) content
        (request_object_batch_begin p)) = d :=
      emitted_append _ _ d (by rw [h1]; rfl)
    rw [he]
    exact ⟨h4, by rw [h1]; rfl⟩

theorem check_seafdir_probes (E : ObjId) (store : Store) (p : Processor)
    (es : List SeafDirent) :
    no_probe_of E (emitted p (check_seafdir E store p es).1) = true ∧
    (check_seafdir E store p es).1.inspect_objects =
      p.inspect_objects + (probes_issued (emitted p (check_seafdir E store p es).1) : Int) := by
  obtain ⟨d, h1, -, -, h4, -⟩ := check_seafdir_spec E store es p
  have he : emitted p (check_seafdir E store p es).1 = d :=
    emitted_append _ _ d (by rw [h1])
  rw [he]
  exact ⟨h4, by rw [h1]⟩

/-- C10: for every root list and every directory walked, what
`process_fsroot_list` and `check_seafdir` hand to the store holds no read and
no stat of `EMPTY_SHA1`, and `inspect_objects` grows exactly by the number of
reads and stats the store accepted (none of them for `EMPTY_SHA1`);
consequently, in every session in which store completions are delivered only
for reads and stats that were issued, no handler trips the assertion and
`EMPTY_SHA1` is never read or stat-ed, is never in the hash table, never in the
buffer and never listed in a request message sent. -/
theorem C10_empty_id_short_circuit (E : ObjId) (store : Store) (p : Processor)
    (content : List Nat) (dir : SeafDir) (tr : List (Store × Event))
    (hans : answered E session_begun tr = true) :
    (no_probe_of E (emitted p (process_fsroot_list E store p content)) = true ∧
      (process_fsroot_list E store p content).inspect_objects =
        p.inspect_objects +
          (probes_issued (emitted p (process_fsroot_list E store p content)) : Int)) ∧
    (no_probe_of E (emitted p (check_seafdir E store p dir.entries).1) = true ∧
      (check_seafdir E store p dir.entries).1.inspect_objects =
        p.inspect_objects +
          (probes_issued (emitted p (check_seafdir E store p dir.entries).1) : Int)) ∧
    ∃ q, run E session_begun tr = some q ∧ no_probe_of E q.log = true ∧
      E ∉ q.fs_objects ∧ E ∉ requested_ids q ∧ E ∉ transmitted_ids q := by
  refine ⟨process_fsroot_list_probes E store p content,
    check_seafdir_probes E store p dir.entries, ?_⟩
  obtain ⟨q, sent, cur, hq, hs, h1, h2, h3⟩ := run_empty E tr session_begun [] []
    session_begun_shape rfl (by simp [session_begun]) (by simp) hans
  refine ⟨q, hq, h1, h2, ?_, ?_⟩
  · rw [hs.requested.2]; exact h3
  · rw [hs.requested.1]
    exact fun hm => h3 (List.mem_append_left _ hm)

theorem C10_empty_id_short_circuit_witness :
    answered sample_empty session_begun empty_root_trace = true ∧
    ((no_probe_of sample_empty (emitted session_begun (process_fsroot_list sample_empty
          twin_store session_begun (root_list_msg [sample_empty, sample_id 97]))) = true ∧
      (process_fsroot_list sample_empty twin_store session_begun
          (root_list_msg [sample_empty, sample_id 97])).inspect_objects =
        session_begun.inspect_objects +
          (probes_issued (emitted session_begun (process_fsroot_list sample_empty twin_store
            session_begun (root_list_msg [sample_empty, sample_id 97]))) : Int)) ∧
    (no_probe_of sample_empty (emitted session_begun
          (check_seafdir sample_empty twin_store session_begun sample_dir.entries).1) = true ∧
      (check_seafdir sample_empty twin_store session_begun sample_dir.entries).1.inspect_objects =
        session_begun.inspect_objects +
          (probes_issued (emitted session_begun
            (check_seafdir sample_empty twin_store session_begun sample_dir.entries).1) : Int)) ∧
    ∃ q, run sample_empty session_begun empty_root_trace = some q ∧
      no_probe_of sample_empty q.log = true ∧
      sample_empty ∉ q.fs_objects ∧ sample_empty ∉ requested_ids q ∧
      sample_empty ∉ transmitted_ids q) :=
  ⟨by decide, C10_empty_id_short_circuit sample_empty twin_store session_begun
    (root_list_msg [sample_empty, sample_id 97]) sample_dir empty_root_trace (by decide)⟩

/-! ## The round trip -/

theorem run_append (E : ObjId) (l1 l2 : List (Store × Event)) :
    ∀ p : Processor, run E p (l1 ++ l2) = (run E p l1).bind (fun q => run E q l2) := by
  induction l1 with
  | nil => intro p; rfl
  | cons e l1 ih =>
    intro p
    obtain ⟨store, ev⟩ := e
    simp only [List.cons_append, run]
    cases deliver E store p ev with
    | none => rfl
    | some q => simp [ih q]

theorem object_msg_length (id : ObjId) (obj : List Nat) :
    (object_msg id obj).length = 41 + obj.length := by
  simp [object_msg, id.property]; omega

theorem object_msg_drop (id : ObjId) (obj : List Nat) : (object_msg id obj).drop 41 = obj := by
  have h : (id.val ++ [0]).length = 41 := by simp [id.property]
  unfold object_msg
  rw [List.drop_append_of_le_length (by omega), List.drop_of_length_le (by omega)]
  rfl

theorem id_at_object_msg (id : ObjId) (obj : List Nat) : id_at (object_msg id obj) = id := by
  unfold object_msg
  rw [List.append_assoc]
  exact id_at_append id _

theorem cstring_id_object_msg (id : ObjId) (obj : List Nat) (h : ∀ x ∈ id.val, x ≠ 0) :
    cstring_id (object_msg id obj) = some id := by
  have h1 := cstring_id_terminated (object_msg id obj)
    (by rw [object_msg_length]; omega)
    (by
      have : (object_msg id obj).take 40 = id.val := by
        unfold object_msg
        rw [List.append_assoc, List.take_append_of_le_length (by rw [id.property])]
        exact List.take_of_length_le (by rw [id.property])
      rw [this]; exact h)
    (by
      have : (object_msg id obj).drop 40 = 0 :: obj := by
        unfold object_msg
        rw [List.append_assoc, List.drop_append_of_le_length (by rw [id.property]),
          List.drop_of_length_le (by rw [id.property])]
        rfl
      rw [this]; rfl)
  rw [h1, id_at_object_msg]

theorem root_list_msg_one (x : ObjId) : (root_list_msg [x]).length = 41 := by
  simp [root_list_msg, encode_ids, x.property]

theorem id_at_root_list_msg (x : ObjId) : id_at (root_list_msg [x]) = x := by
  unfold root_list_msg encode_ids
  rw [List.append_assoc]
  exact id_at_append x _

/-- The round trip up to the walk of the root: the session is in state
`FETCH_OBJECT` with the three probes of the root's entries outstanding. -/
theorem round_trip_walk (E : ObjId) (store : Store) (t : Tree) (h : RoundTrip E store t)
    (tr : List (Store × Event)) :
    Session.run E (start 1 true).1 (round_trip_start store t ++ tr) =
      (run E (round_trip_walked t) tr).map (fun q => ⟨false, q⟩) := by
  have h0 : Session.deliver E store (start 1 true).1
      (Event.update UpdateCode.SC_ROOT (root_list_msg [t.root])) =
      some ⟨false,
        { state := ProcState.RECV_ROOT, inspect_objects := 1, pending_objects := 0,
          buf := [], n_batch := 0, fs_objects := ∅,
          log := [Effect.send_response Status.SC_OK [], Effect.async_read t.root true,
            Effect.send_response Status.SC_OK []] }⟩ := by
    simp [Session.deliver, start, finished, dones_of, ccnet_processor_send_response,
      Session.handle_update, Session.process_fsroot_list, root_list_msg_one,
      Session.request_object_batch_begin, request_object_batch_begin, process_fsroot_loop,
      id_at_root_list_msg, h.root_ne, seaf_obj_store_async_read, h.read_root]
  simp only [round_trip_start, List.cons_append, List.nil_append]
  rw [Session.run, h0, Option.some_bind, session_run_begun]
  congr 1
  simp [round_trip_walked, run, deliver, finished, dones_of, handle_update, on_seafdir_read,
    h.root_parsed,
    check_seafdir, h.a_ne, h.b_ne, h.c_ne, h.file_a, h.file_b, h.dir_c,
    seaf_obj_store_async_read, seaf_obj_store_async_stat, h.stat_a, h.stat_b, h.read_c]

theorem round_trip_orders {α : Type} (a b c : α) (l : List α) (h : l.Perm [a, b, c]) :
    l = [a, b, c] ∨ l = [b, a, c] ∨ l = [b, c, a] ∨ l = [a, c, b] ∨ l = [c, a, b] ∨
      l = [c, b, a] := by
  have hm := List.mem_permutations'.2 h
  simpa [List.permutations', List.permutations'Aux] using hm

/-- The three probes complete, in any order: the ids of `b` and `c` enter the
hash table and the buffer, in the order of their completions. -/
theorem round_trip_probes_done (E : ObjId) (store : Store) (t : Tree)
    (h : RoundTrip E store t) (probes : List (Store × Event))
    (hperm : probes.Perm (round_trip_probes store t)) :
    ∃ x y, ((x = t.b ∧ y = t.c) ∨ (x = t.c ∧ y = t.b)) ∧
      ∀ tr, run E (round_trip_walked t) (probes ++ tr) =
        run E (round_trip_probed t x y) tr := by
  have hbc := h.b_ne_c
  have hcb := h.b_ne_c.symm
  have hb := t.b.property
  have hc := t.c.property
  rcases round_trip_orders _ _ _ probes hperm with rfl | rfl | rfl | rfl | rfl | rfl
  · refine ⟨t.b, t.c, Or.inl ⟨rfl, rfl⟩, fun tr => ?_⟩
    simp [run, deliver, round_trip_walked, round_trip_probed, finished, dones_of,
      on_seafile_stat, on_seafdir_read, request_object_batch, MAX_NUM_BATCH, hb, hc, hbc, hcb,
      encode_ids]
  · refine ⟨t.b, t.c, Or.inl ⟨rfl, rfl⟩, fun tr => ?_⟩
    simp [run, deliver, round_trip_walked, round_trip_probed, finished, dones_of,
      on_seafile_stat, on_seafdir_read, request_object_batch, MAX_NUM_BATCH, hb, hc, hbc, hcb,
      encode_ids]
  · refine ⟨t.b, t.c, Or.inl ⟨rfl, rfl⟩, fun tr => ?_⟩
    simp [run, deliver, round_trip_walked, round_trip_probed, finished, dones_of,
      on_seafile_stat, on_seafdir_read, request_object_batch, MAX_NUM_BATCH, hb, hc, hbc, hcb,
      encode_ids]
  · refine ⟨t.c, t.b, Or.inr ⟨rfl, rfl⟩, fun tr => ?_⟩
    simp [run, deliver, round_trip_walked, round_trip_probed, finished, dones_of,
      on_seafile_stat, on_seafdir_read, request_object_batch, MAX_NUM_BATCH, hb, hc, hbc, hcb,
      encode_ids]
  · refine ⟨t.c, t.b, Or.inr ⟨rfl, rfl⟩, fun tr => ?_⟩
    simp [run, deliver, round_trip_walked, round_trip_probed, finished, dones_of,
      on_seafile_stat, on_seafdir_read, request_object_batch, MAX_NUM_BATCH, hb, hc, hbc, hcb,
      encode_ids]
  · refine ⟨t.c, t.b, Or.inr ⟨rfl, rfl⟩, fun tr => ?_⟩
    simp [run, deliver, round_trip_walked, round_trip_probed, finished, dones_of,
      on_seafile_stat, on_seafdir_read, request_object_batch, MAX_NUM_BATCH, hb, hc, hbc, hcb,
      encode_ids]

theorem decode_ids_one (x : ObjId) : decode_ids (x.val ++ [10, 0]) = [x] := by
  have h := decode_ids_frame [x]
  simpa [encode_ids] using h

/-- C11: the round trip of the spec, for every store and every five objects in
the situation `RoundTrip` (a root with the entries file `a`, file `b`,
directory `c`; the directory `c` with the entry file `d`; `b` and `c`, and `d`
and `b`, different objects), from `start` on, and for every order `probes` in
which the probes of `a` (found), `b` (not found) and `c` (not found) complete.
* The walk of the root issues exactly the stat of `a`, the stat of `b` and the
  read of `c` (the whole log after the root's read is given).
* When the three probes have completed nothing has been sent; the checkpoint
  then sends exactly one request message, listing `b` and `c` in the order of
  their completions (`first`) and not `d`, and the session goes on.
* The object message for `c` makes `recv_fs_object` issue the stat of `d` and
  the write of `c` and nothing else; nothing is sent, also not when the stat
  of `d` reports not-found.
* The next checkpoint sends a second request message listing exactly `d`, and
  the session goes on. -/
theorem C11_round_trip (E : ObjId) (store : Store) (t : Tree) (h : RoundTrip E store t)
    (probes : List (Store × Event)) (hperm : probes.Perm (round_trip_probes store t)) :
    (Session.run E (start 1 true).1 (round_trip_start store t)).map (fun s => s.proc.log) =
      some [Effect.send_response Status.SC_OK [], Effect.async_read t.root true,
        Effect.send_response Status.SC_OK [], Effect.timer_new,
        Effect.async_stat t.a true, Effect.async_stat t.b true,
        Effect.async_read t.c true] ∧
    ∃ first, (first = [t.b, t.c] ∨ first = [t.c, t.b]) ∧
      (Session.run E (start 1 true).1 (round_trip_start store t ++ probes)).map
          (fun s => (request_batches s.proc, s.proc.inspect_objects)) = some ([], 0) ∧
      (Session.run E (start 1 true).1
          (round_trip_start store t ++ probes ++ [(store, Event.timer)])).map
          (fun s => (request_batches s.proc, finished s.proc)) = some ([first], false) ∧
      (Session.run E (start 1 true).1
          (round_trip_start store t ++ probes ++
            [(store, Event.timer), round_trip_receipt store t])).map
          (fun s => (s.proc.log.drop 8, request_batches s.proc)) =
        some ([Effect.async_stat t.d true, Effect.async_write t.c t.c_object true],
          [first]) ∧
      (Session.run E (start 1 true).1
          (round_trip_start store t ++ probes ++
            [(store, Event.timer), round_trip_receipt store t,
              round_trip_stat_d store t])).map
          (fun s => request_batches s.proc) = some [first] ∧
      (Session.run E (start 1 true).1
          (round_trip_start store t ++ probes ++
            [(store, Event.timer), round_trip_receipt store t, round_trip_stat_d store t,
              (store, Event.timer)])).map
          (fun s => (request_batches s.proc, finished s.proc)) =
        some ([first, [t.d]], false) := by
  have hty := h.c_typed
  rw [object_msg_length] at hty
  have hcs := cstring_id_object_msg t.c t.c_object h.c_text
  have hdb := h.d_ne_b
  have hbc := h.b_ne_c
  have hcb := h.b_ne_c.symm
  have hd := t.d.property
  obtain ⟨x, y, hxy, hrun⟩ := round_trip_probes_done E store t h probes hperm
  refine ⟨?_, [x, y], ?_, ?_, ?_, ?_, ?_, ?_⟩
  · have h1 := round_trip_walk E store t h []
    rw [List.append_nil] at h1
    rw [h1]
    simp [run, round_trip_walked]
  · rcases hxy with ⟨rfl, rfl⟩ | ⟨rfl, rfl⟩
    · exact Or.inl rfl
    · exact Or.inr rfl
  · have h1 := hrun []
    rw [← List.append_nil (round_trip_start store t ++ probes), List.append_assoc,
      round_trip_walk E store t h, h1]
    simp [run, round_trip_probed, round_trip_walked, request_batches, requests_of]
  · rw [List.append_assoc, round_trip_walk E store t h, hrun]
    simp [run, deliver, round_trip_probed, round_trip_walked, finished, dones_of,
      check_end_condition, request_object_batch_flush, encode_ids_eq_nil,
      ccnet_processor_send_response, ccnet_processor_done, request_batches, requests_of,
      decode_ids_frame]
  · rw [List.append_assoc, round_trip_walk E store t h, hrun]
    simp [run, deliver, round_trip_probed, round_trip_walked, finished, dones_of,
      check_end_condition, request_object_batch_flush, encode_ids_eq_nil,
      ccnet_processor_send_response, ccnet_processor_done, request_batches, requests_of,
      decode_ids_frame, handle_update, round_trip_receipt, recv_fs_object, object_msg_length,
      object_msg_drop, id_at_object_msg, hty, h.c_parsed, check_seafdir, h.d_ne, h.file_d,
      seaf_obj_store_async_stat, h.stat_d, recv_fs_object_save, save_fs_object,
      seaf_obj_store_async_write, h.write_c]
  · rw [List.append_assoc, round_trip_walk E store t h, hrun]
    rcases hxy with ⟨rfl, rfl⟩ | ⟨rfl, rfl⟩ <;>
    simp [run, deliver, round_trip_probed, round_trip_walked, finished, dones_of,
      check_end_condition, request_object_batch_flush, encode_ids_eq_nil,
      ccnet_processor_send_response, ccnet_processor_done, request_batches, requests_of,
      decode_ids_frame, handle_update, round_trip_receipt, recv_fs_object, object_msg_length,
      object_msg_drop, id_at_object_msg, hty, h.c_parsed, check_seafdir, h.d_ne, h.file_d,
      seaf_obj_store_async_stat, h.stat_d, recv_fs_object_save, save_fs_object,
      seaf_obj_store_async_write, h.write_c, g_hash_table_remove, hcs, round_trip_stat_d,
      on_seafile_stat, request_object_batch, MAX_NUM_BATCH, hd, hdb, hbc, hcb]
  · rw [List.append_assoc, round_trip_walk E store t h, hrun]
    rcases hxy with ⟨rfl, rfl⟩ | ⟨rfl, rfl⟩ <;>
    simp [run, deliver, round_trip_probed, round_trip_walked, finished, dones_of,
      check_end_condition, request_object_batch_flush, encode_ids_eq_nil,
      ccnet_processor_send_response, ccnet_processor_done, request_batches, requests_of,
      decode_ids_frame, handle_update, round_trip_receipt, recv_fs_object, object_msg_length,
      object_msg_drop, id_at_object_msg, hty, h.c_parsed, check_seafdir, h.d_ne, h.file_d,
      seaf_obj_store_async_stat, h.stat_d, recv_fs_object_save, save_fs_object,
      seaf_obj_store_async_write, h.write_c, g_hash_table_remove, hcs, round_trip_stat_d,
      on_seafile_stat, request_object_batch, MAX_NUM_BATCH, hd, hdb, hbc, hcb,
      decode_ids_one]

theorem C11_round_trip_witness :
    RoundTrip sample_empty tree_store sample_tree ∧
    (round_trip_probes tree_store sample_tree).reverse.Perm
      (round_trip_probes tree_store sample_tree) ∧
    ((Session.run sample_empty (start 1 true).1
        (round_trip_start tree_store sample_tree)).map (fun s => s.proc.log) =
      some [Effect.send_response Status.SC_OK [], Effect.async_read sample_tree.root true,
        Effect.send_response Status.SC_OK [], Effect.timer_new,
        Effect.async_stat sample_tree.a true, Effect.async_stat sample_tree.b true,
        Effect.async_read sample_tree.c true] ∧
    ∃ first, (first = [sample_tree.b, sample_tree.c] ∨ first = [sample_tree.c, sample_tree.b]) ∧
      (Session.run sample_empty (start 1 true).1
          (round_trip_start tree_store sample_tree ++
            (round_trip_probes tree_store sample_tree).reverse)).map
          (fun s => (request_batches s.proc, s.proc.inspect_objects)) = some ([], 0) ∧
      (Session.run sample_empty (start 1 true).1
          (round_trip_start tree_store sample_tree ++
            (round_trip_probes tree_store sample_tree).reverse ++
            [(tree_store, Event.timer)])).map
          (fun s => (request_batches s.proc, finished s.proc)) = some ([first], false) ∧
      (Session.run sample_empty (start 1 true).1
          (round_trip_start tree_store sample_tree ++
            (round_trip_probes tree_store sample_tree).reverse ++
            [(tree_store, Event.timer), round_trip_receipt tree_store sample_tree])).map
          (fun s => (s.proc.log.drop 8, request_batches s.proc)) =
        some ([Effect.async_stat sample_tree.d true,
            Effect.async_write sample_tree.c sample_tree.c_object true],
          [first]) ∧
      (Session.run sample_empty (start 1 true).1
          (round_trip_start tree_store sample_tree ++
            (round_trip_probes tree_store sample_tree).reverse ++
            [(tree_store, Event.timer), round_trip_receipt tree_store sample_tree,
              round_trip_stat_d tree_store sample_tree])).map
          (fun s => request_batches s.proc) = some [first] ∧
      (Session.run sample_empty (start 1 true).1
          (round_trip_start tree_store sample_tree ++
            (round_trip_probes tree_store sample_tree).reverse ++
            [(tree_store, Event.timer), round_trip_receipt tree_store sample_tree,
              round_trip_stat_d tree_store sample_tree, (tree_store, Event.timer)])).map
          (fun s => (request_batches s.proc, finished s.proc)) =
        some ([first, [sample_tree.d]], false)) :=
  have hrt : RoundTrip sample_empty tree_store sample_tree :=
    { root_ne := by decide, a_ne := by decide, b_ne := by decide, c_ne := by decide,
      d_ne := by decide, b_ne_c := by decide, d_ne_b := by decide, c_text := by decide,
      file_a := by decide, file_b := by decide, dir_c := by decide, file_d := by decide,
      read_root := by decide, root_parsed := by decide, stat_a := by decide,
      stat_b := by decide, read_c := by decide, c_typed := by decide,
      c_parsed := by decide, stat_d := by decide, write_c := by decide }
  ⟨hrt, List.reverse_perm _,
    C11_round_trip sample_empty tree_store sample_tree hrt _ (List.reverse_perm _)⟩

/-! ## Single handlers -/

/-- C13: for a write completion that reports failure `on_fs_write` sends
`SC_BAD_OBJECT` and calls `ccnet_processor_done` with failure, and does nothing
else (no read, no stat, no object request; counters, hash table and buffer
unchanged); for a write completion that reports success it leaves the
processor as it is and emits nothing. -/
theorem C13_write_completion (p : Processor) (id : ObjId) (data : List Nat) :
    on_fs_write p { obj_id := id, success := false, data := data } =
      { p with log := p.log ++
          [Effect.send_response Status.SC_BAD_OBJECT [], Effect.done false] } ∧
    emitted p (on_fs_write p { obj_id := id, success := false, data := data }) =
      [Effect.send_response Status.SC_BAD_OBJECT [], Effect.done false] ∧
    finished (on_fs_write p { obj_id := id, success := false, data := data }) = true ∧
    on_fs_write p { obj_id := id, success := true, data := data } = p ∧
    emitted p (on_fs_write p { obj_id := id, success := true, data := data }) = [] := by
  have h1 : on_fs_write p { obj_id := id, success := false, data := data } =
      { p with log := p.log ++
          [Effect.send_response Status.SC_BAD_OBJECT [], Effect.done false] } := by
    simp [on_fs_write, ccnet_processor_done, ccnet_processor_send_response]
  have h2 : on_fs_write p { obj_id := id, success := true, data := data } = p := by
    simp [on_fs_write]
  refine ⟨h1, ?_, ?_, h2, ?_⟩
  · rw [h1]; simp [emitted]
  · rw [h1]
    exact finished_of_append (p := p) rfl (by simp [dones_of])
  · rw [h2]; simp [emitted]

theorem recv_fs_object_save_responses (store : Store) (p : Processor)
    (content : List Nat) :
    ∃ d, (recv_fs_object_save store p content).log = p.log ++ d ∧
      ∀ c ∈ responses_of d, c = Status.SC_BAD_OBJECT := by
  rw [recv_fs_object_save_eq]
  split
  · exact ⟨_, rfl, by simp [responses_of]⟩
  · exact ⟨_, rfl, by simp [responses_of]⟩

/-- Every response `recv_fs_object` sends is `SC_BAD_OBJECT`. -/
theorem recv_fs_object_responses (E : ObjId) (store : Store) (p : Processor)
    (content : List Nat) :
    ∃ d, (recv_fs_object E store p content).log = p.log ++ d ∧
      ∀ c ∈ responses_of d, c = Status.SC_BAD_OBJECT := by
  have hbad : ∀ (q : Processor) (d0 : List Effect), q.log = p.log ++ d0 →
      (∀ c ∈ responses_of d0, c = Status.SC_BAD_OBJECT) →
      ∃ d, (recv_fs_object_bad q).log = p.log ++ d ∧
        ∀ c ∈ responses_of d, c = Status.SC_BAD_OBJECT := by
    intro q d0 hq h0
    refine ⟨d0 ++ [Effect.send_response Status.SC_BAD_OBJECT [], Effect.done false], ?_, ?_⟩
    · rw [recv_fs_object_bad_eq]; simp [hq]
    · intro c hc
      simp only [responses_of_append, List.mem_append] at hc
      rcases hc with hc | hc
      · exact h0 c hc
      · simpa [responses_of] using hc
  have hsave : ∀ (q : Processor) (d0 : List Effect),
      q.log = p.log ++ d0 → (∀ c ∈ responses_of d0, c = Status.SC_BAD_OBJECT) →
      ∃ d, (recv_fs_object_save store q content).log = p.log ++ d ∧
        ∀ c ∈ responses_of d, c = Status.SC_BAD_OBJECT := by
    intro q d0 hq h0
    obtain ⟨d1, h1, h2⟩ := recv_fs_object_save_responses store q content
    refine ⟨d0 ++ d1, by rw [h1, hq, List.append_assoc], ?_⟩
    intro c hc
    simp only [responses_of_append, List.mem_append] at hc
    rcases hc with hc | hc
    · exact h0 c hc
    · exact h2 c hc
  unfold recv_fs_object
  by_cases hl : content.length < 41
  · simp only [hl, if_true]
    exact hbad p [] (by simp) (by simp [responses_of])
  · simp only [hl, if_false]
    cases store.seaf_metadata_type_from_data (content.drop 41) content.length with
    | OTHER => exact hbad _ [] (by simp) (by simp [responses_of])
    | FILE => exact hsave _ [] (by simp) (by simp [responses_of])
    | DIR =>
      simp only
      cases store.seaf_dir_from_data (id_at content)
          ((content.drop 41).take (content.length - 41)) with
      | none => exact hbad _ [] (by simp) (by simp [responses_of])
      | some dir =>
        simp only
        obtain ⟨d, h1, -, -, -, h5⟩ := check_seafdir_spec E store dir.entries
          { p with pending_objects := p.pending_objects - 1 }
        have hresp : ∀ c ∈ responses_of d, c = Status.SC_BAD_OBJECT := by
          rcases h5 with ⟨-, -, hr⟩ | ⟨-, -, hr⟩ <;> simp [hr]
        split
        · exact hbad _ d (by rw [h1]) hresp
        · exact hsave _ d (by rw [h1]) hresp

/-- Every response `process_fsroot_list` sends is `SC_BAD_OL`, `SC_OK` or
`SC_BAD_OBJECT`. -/
theorem process_fsroot_list_responses (E : ObjId) (store : Store) (p : Processor)
    (content : List Nat) :
    ∃ d, (process_fsroot_list E store p content).log = p.log ++ d ∧
      ∀ c ∈ responses_of d,
        c = Status.SC_BAD_OL ∨ c = Status.SC_OK ∨ c = Status.SC_BAD_OBJECT := by
  unfold process_fsroot_list
  by_cases hm : content.length % 41 ≠ 0
  · rw [if_pos hm]
    exact ⟨[Effect.send_response Status.SC_BAD_OL [], Effect.done false],
      by simp [ccnet_processor_done, ccnet_processor_send_response], by simp [responses_of]⟩
  · rw [if_neg hm]
    obtain ⟨d, h1, -, -, -, h5⟩ := process_fsroot_loop_spec E store
      (content.length / 41) content (request_object_batch_begin p)
    refine ⟨d, by rw [h1]; rfl, ?_⟩
    rcases h5 with ⟨-, hr⟩ | ⟨-, hr⟩ <;> simp [hr]

/-- C14: in state `RECV_ROOT` every code other than `SC_ROOT` and
`SC_ROOT_END`, and in state `FETCH_OBJECT` every code other than `SC_OBJECT`,
makes `handle_update` send `SC_BAD_UPDATE_CODE` and call `ccnet_processor_done`
with failure, and nothing else: counters, hash table, buffer and state are
unchanged. For the expected codes `handle_update` never sends
`SC_BAD_UPDATE_CODE`. -/
theorem C14_unexpected_code (E : ObjId) (store : Store) (p : Processor)
    (code : UpdateCode) (content : List Nat) :
    (p.state = ProcState.RECV_ROOT → code ≠ UpdateCode.SC_ROOT →
      code ≠ UpdateCode.SC_ROOT_END →
      handle_update E store p code content =
        { p with log := p.log ++
            [Effect.send_response Status.SC_BAD_UPDATE_CODE [], Effect.done false] }) ∧
    (p.state = ProcState.FETCH_OBJECT → code ≠ UpdateCode.SC_OBJECT →
      handle_update E store p code content =
        { p with log := p.log ++
            [Effect.send_response Status.SC_BAD_UPDATE_CODE [], Effect.done false] }) ∧
    ((p.state = ProcState.RECV_ROOT ∧
        (code = UpdateCode.SC_ROOT ∨ code = UpdateCode.SC_ROOT_END)) ∨
      (p.state = ProcState.FETCH_OBJECT ∧ code = UpdateCode.SC_OBJECT) →
      Status.SC_BAD_UPDATE_CODE ∉
        responses_of (emitted p (handle_update E store p code content))) := by
  refine ⟨?_, ?_, ?_⟩
  · intro hst h1 h2
    unfold handle_update
    rw [hst]
    cases code with
    | SC_ROOT => exact absurd rfl h1
    | SC_ROOT_END => exact absurd rfl h2
    | SC_OBJECT => simp [ccnet_processor_done, ccnet_processor_send_response, hst]
    | OTHER => simp [ccnet_processor_done, ccnet_processor_send_response, hst]
  · intro hst h1
    unfold handle_update
    rw [hst]
    cases code with
    | SC_OBJECT => exact absurd rfl h1
    | SC_ROOT => simp [ccnet_processor_done, ccnet_processor_send_response, hst]
    | SC_ROOT_END => simp [ccnet_processor_done, ccnet_processor_send_response, hst]
    | OTHER => simp [ccnet_processor_done, ccnet_processor_send_response, hst]
  · intro h
    unfold handle_update
    rcases h with ⟨hst, rfl | rfl⟩ | ⟨hst, rfl⟩
    · rw [hst]
      simp only
      obtain ⟨d, hlog, hr⟩ := process_fsroot_list_responses E store p content
      rw [emitted_append _ _ d hlog]
      intro hm
      rcases hr _ hm with h | h | h <;> exact absurd h (by decide)
    · rw [hst]
      simp [emitted, responses_of]
    · rw [hst]
      simp only
      obtain ⟨d, hlog, hr⟩ := recv_fs_object_responses E store p content
      rw [emitted_append _ _ d hlog]
      intro hm
      exact absurd (hr _ hm) (by decide)

theorem C14_unexpected_code_witness :
    handle_update sample_empty twin_store session_begun UpdateCode.SC_OBJECT [1] =
      { session_begun with log := session_begun.log ++
          [Effect.send_response Status.SC_BAD_UPDATE_CODE [], Effect.done false] } ∧
    handle_update sample_empty twin_store waiting UpdateCode.SC_ROOT [1] =
      { waiting with log := waiting.log ++
          [Effect.send_response Status.SC_BAD_UPDATE_CODE [], Effect.done false] } ∧
    Status.SC_BAD_UPDATE_CODE ∉ responses_of (emitted waiting
      (handle_update sample_empty twin_store waiting UpdateCode.SC_OBJECT [1])) :=
  ⟨(C14_unexpected_code sample_empty twin_store session_begun UpdateCode.SC_OBJECT [1]).1
      rfl (by decide) (by decide),
    (C14_unexpected_code sample_empty twin_store waiting UpdateCode.SC_ROOT [1]).2.1
      rfl (by decide),
    (C14_unexpected_code sample_empty twin_store waiting UpdateCode.SC_OBJECT [1]).2.2
      (Or.inr ⟨rfl, rfl⟩)⟩

/-! ## The walk of a directory -/

/-- C15: for every parsed directory, when the store accepts every operation
the walk issues, `check_seafdir` hands to the store, in entry order, exactly
one operation per entry whose id is not `EMPTY_SHA1` (a read if the mode of the
entry is a directory, a stat otherwise) and nothing else, adds to
`inspect_objects` the number of these entries, changes nothing else, returns 0,
sends no response and does not call `ccnet_processor_done`. -/
theorem C15_walk_probes_each_entry (E : ObjId) (store : Store) (p : Processor)
    (es : List SeafDirent)
    (hacc : ∀ dent ∈ es, dent.id ≠ E → accepts_entry store dent = true) :
    check_seafdir E store p es =
      ({ p with inspect_objects := p.inspect_objects + ((spec_walked E es).length : Int),
                log := p.log ++ spec_walk_probes E es }, 0) ∧
    emitted p (check_seafdir E store p es).1 = spec_walk_probes E es ∧
    responses_of (emitted p (check_seafdir E store p es).1) = [] ∧
    dones_of (emitted p (check_seafdir E store p es).1) = [] := by
  have hmain : ∀ (es : List SeafDirent) (p : Processor),
      (∀ dent ∈ es, dent.id ≠ E → accepts_entry store dent = true) →
      check_seafdir E store p es =
        ({ p with inspect_objects := p.inspect_objects + ((spec_walked E es).length : Int),
                  log := p.log ++ spec_walk_probes E es }, 0) := by
    intro es
    induction es with
    | nil => intro p _; simp [check_seafdir, spec_walked, spec_walk_probes]
    | cons dent rest ih =>
      intro p hacc
      have hrest : ∀ d ∈ rest, d.id ≠ E → accepts_entry store d = true :=
        fun d hd => hacc d (List.mem_cons_of_mem _ hd)
      unfold check_seafdir
      by_cases he : dent.id = E
      · simp only [he, if_true]
        rw [ih p hrest]
        simp [spec_walked, spec_walk_probes, he]
      · have ha := hacc dent (List.mem_cons_self _ _) he
        simp only [he, if_false]
        by_cases hdir : S_ISDIR dent.mode = true
        · have hok : store.async_read dent.id = true := by
            simpa [accepts_entry, hdir] using ha
          simp only [hdir, if_true, seaf_obj_store_async_read, hok]
          rw [ih _ hrest]
          simp [spec_walked, spec_walk_probes, he, spec_probe_of_entry, hdir]
          omega
        · have hok : store.async_stat dent.id = true := by
            simpa [accepts_entry, hdir] using ha
          simp only [hdir, seaf_obj_store_async_stat, hok, if_true]
          simp only [Bool.false_eq_true, if_false]
          rw [ih _ hrest]
          simp [spec_walked, spec_walk_probes, he, spec_probe_of_entry, hdir]
          omega
  have hresp : ∀ es : List SeafDirent,
      responses_of (spec_walk_probes E es) = [] ∧ dones_of (spec_walk_probes E es) = [] := by
    intro es
    induction es with
    | nil => exact ⟨rfl, rfl⟩
    | cons dent rest ih =>
      by_cases he : dent.id = E
      · simpa [spec_walk_probes, spec_walked, he] using ih
      · by_cases hdir : S_ISDIR dent.mode = true
        · simpa [spec_walk_probes, spec_walked, he, spec_probe_of_entry, hdir, responses_of,
            dones_of] using ih
        · simpa [spec_walk_probes, spec_walked, he, spec_probe_of_entry, hdir, responses_of,
            dones_of] using ih
  have h := hmain es p hacc
  have he : emitted p (check_seafdir E store p es).1 = spec_walk_probes E es :=
    emitted_append _ _ _ (by rw [h])
  exact ⟨h, he, by rw [he]; exact (hresp es).1, by rw [he]; exact (hresp es).2⟩

theorem C15_walk_probes_each_entry_witness :
    (∀ dent ∈ sample_dir.entries, dent.id ≠ sample_empty →
      accepts_entry twin_store dent = true) ∧
    check_seafdir sample_empty twin_store session_begun sample_dir.entries =
      ({ session_begun with
          inspect_objects := session_begun.inspect_objects +
            ((spec_walked sample_empty sample_dir.entries).length : Int),
          log := session_begun.log ++ spec_walk_probes sample_empty sample_dir.entries }, 0) ∧
    emitted session_begun
        (check_seafdir sample_empty twin_store session_begun sample_dir.entries).1 =
      spec_walk_probes sample_empty sample_dir.entries ∧
    responses_of (emitted session_begun
        (check_seafdir sample_empty twin_store session_begun sample_dir.entries).1) = [] ∧
    dones_of (emitted session_begun
        (check_seafdir sample_empty twin_store session_begun sample_dir.entries).1) = [] :=
  ⟨by decide, C15_walk_probes_each_entry sample_empty twin_store session_begun
    sample_dir.entries (by decide)⟩

/-! ## Outstanding probes -/

/-- C16: in every state reached by a session in which the store delivers a
completion only for a read or stat it accepted and that is outstanding (one
completion per accepted read or stat), no handler trips the assertion and
`inspect_objects` is the number of reads and stats that were issued, accepted
by the store, and are not yet completed; this holds after every handler, also
after a walk that stopped at a refused read or stat. -/
theorem C16_inspect_counts_outstanding (E : ObjId) (tr : List (Store × Event))
    (hp : punctual E [] session_begun tr = true) :
    ∃ p, run E session_begun tr = some p ∧
      p.inspect_objects = ((outstanding E [] session_begun tr).length : Int) :=
  run_outstanding E tr [] session_begun [] [] session_begun_shape rfl hp

theorem C16_inspect_counts_outstanding_witness :
    punctual sample_empty [] session_begun refused_trace = true ∧
    ∃ p, run sample_empty session_begun refused_trace = some p ∧
      p.inspect_objects =
        ((outstanding sample_empty [] session_begun refused_trace).length : Int) :=
  ⟨by decide, C16_inspect_counts_outstanding sample_empty refused_trace (by decide)⟩

/-! ## The write of a received object -/

@[simp] theorem writes_of_append (a b : List Effect) :
    writes_of (a ++ b) = writes_of a ++ writes_of b := by
  induction a with
  | nil => rfl
  | cons e a ih => cases e <;> simp [writes_of, ih]

theorem writes_of_walk (E : ObjId) (store : Store) (p : Processor) (es : List SeafDirent) :
    ∃ d, (check_seafdir E store p es).1.log = p.log ++ d ∧ writes_of d = [] := by
  induction es generalizing p with
  | nil => exact ⟨[], by simp [check_seafdir], rfl⟩
  | cons dent rest ih =>
    unfold check_seafdir
    by_cases he : dent.id = E
    · simp only [he, if_true]; exact ih p
    · simp only [he, if_false]
      by_cases hdir : S_ISDIR dent.mode = true
      · simp only [hdir, if_true, seaf_obj_store_async_read]
        by_cases hok : store.async_read dent.id = true
        · simp only [hok, if_true]
          obtain ⟨d, h1, h2⟩ := ih
            { p with log := p.log ++ [Effect.async_read dent.id true],
                     inspect_objects := p.inspect_objects + 1 }
          exact ⟨Effect.async_read dent.id true :: d, by rw [h1]; simp,
            by simpa [writes_of] using h2⟩
        · have hf : store.async_read dent.id = false := by simpa using hok
          simp only [hf]
          exact ⟨[Effect.async_read dent.id false,
            Effect.send_response Status.SC_BAD_OBJECT [], Effect.done false],
            by simp [ccnet_processor_done, ccnet_processor_send_response], rfl⟩
      · simp only [hdir, seaf_obj_store_async_stat]
        by_cases hok : store.async_stat dent.id = true
        · simp only [hok, if_true]
          obtain ⟨d, h1, h2⟩ := ih
            { p with log := p.log ++ [Effect.async_stat dent.id true],
                     inspect_objects := p.inspect_objects + 1 }
          refine ⟨Effect.async_stat dent.id true :: d, ?_, by simpa [writes_of] using h2⟩
          simp only [Bool.false_eq_true, if_false]
          rw [h1]; simp
        · have hf : store.async_stat dent.id = false := by simpa using hok
          simp only [hf]
          exact ⟨[Effect.async_stat dent.id false,
            Effect.send_response Status.SC_BAD_OBJECT [], Effect.done false],
            by simp [ccnet_processor_done, ccnet_processor_send_response], rfl⟩

theorem recv_fs_object_save_log (store : Store) (p : Processor) (content : List Nat) :
    (recv_fs_object_save store p content).log =
      p.log ++ ([Effect.async_write (id_at content) (content.drop 41)
          (store.async_write (id_at content) (content.drop 41))] ++
        if store.async_write (id_at content) (content.drop 41) = true then []
        else [Effect.send_response Status.SC_BAD_OBJECT [], Effect.done false]) := by
  rw [recv_fs_object_save_eq]
  by_cases hok : store.async_write (id_at content) (content.drop 41) = true
  · simp [hok]
  · have hf : store.async_write (id_at content) (content.drop 41) = false := by simpa using hok
    simp [hf]

/-- C17, as the code has it: for every object message of at least 41 bytes
whose payload is File-typed, and for every one that is Directory-typed, parses,
and whose walk returns 0, `recv_fs_object` hands exactly one write to the
store; its key is the id field of the message and its data are the bytes after
the 41 bytes of the id field, `clen - 41` of them. For a File-typed message
nothing else is handed to the store, and the handler emits exactly that write
if the store accepts it (no response, the session goes on); if the store
refuses the write, the handler sends `SC_BAD_OBJECT` and calls
`ccnet_processor_done` with failure. -/
theorem C17_one_write (E : ObjId) (store : Store) (p : Processor) (content : List Nat)
    (hlen : 41 ≤ content.length)
    (hvalid : store.seaf_metadata_type_from_data (content.drop 41) content.length =
        MetadataType.FILE ∨
      (store.seaf_metadata_type_from_data (content.drop 41) content.length =
          MetadataType.DIR ∧
        ∃ dir, store.seaf_dir_from_data (id_at content) (content.drop 41) = some dir ∧
          (check_seafdir E store { p with pending_objects := p.pending_objects - 1 }
            dir.entries).2 = 0)) :
    writes_of (emitted p (recv_fs_object E store p content)) =
      [(id_at content, content.drop 41,
        store.async_write (id_at content) (content.drop 41))] ∧
    (content.drop 41).length = content.length - 41 ∧
    (store.seaf_metadata_type_from_data (content.drop 41) content.length =
        MetadataType.FILE →
      emitted p (recv_fs_object E store p content) =
        [Effect.async_write (id_at content) (content.drop 41)
          (store.async_write (id_at content) (content.drop 41))] ++
        (if store.async_write (id_at content) (content.drop 41) = true then []
         else [Effect.send_response Status.SC_BAD_OBJECT [], Effect.done false])) := by
  have hl : ¬ content.length < 41 := by omega
  have hdrop : (content.drop 41).length ≤ content.length - 41 := by simp
  have htake : (content.drop 41).take (content.length - 41) = content.drop 41 :=
    List.take_of_length_le hdrop
  refine ⟨?_, by simp, ?_⟩
  · rcases hvalid with hfile | ⟨hdirty, dir, hparse, hret⟩
    · have hq : recv_fs_object E store p content =
          recv_fs_object_save store { p with pending_objects := p.pending_objects - 1 }
            content := by
        unfold recv_fs_object
        simp only [hl, if_false, hfile]
      have hlog := recv_fs_object_save_log store
        { p with pending_objects := p.pending_objects - 1 } content
      rw [hq, emitted_append p _ _ hlog]
      split <;> simp [writes_of]
    · have hq : recv_fs_object E store p content =
          recv_fs_object_save store
            (check_seafdir E store { p with pending_objects := p.pending_objects - 1 }
              dir.entries).1
            content := by
        unfold recv_fs_object
        simp only [hl, if_false, hdirty, htake, hparse, hret]
        simp
      obtain ⟨d, hd, hw⟩ := writes_of_walk E store
        { p with pending_objects := p.pending_objects - 1 } dir.entries
      have hlog := recv_fs_object_save_log store
        (check_seafdir E store { p with pending_objects := p.pending_objects - 1 }
          dir.entries).1 content
      rw [hd] at hlog
      rw [hq, emitted_append p _ _ (by rw [hlog, List.append_assoc])]
      rw [writes_of_append, hw]
      split <;> simp [writes_of]
  · intro hfile
    have hq : recv_fs_object E store p content =
        recv_fs_object_save store { p with pending_objects := p.pending_objects - 1 }
          content := by
      unfold recv_fs_object
      simp only [hl, if_false, hfile]
    have hlog := recv_fs_object_save_log store
      { p with pending_objects := p.pending_objects - 1 } content
    rw [hq, emitted_append p _ _ hlog]

theorem C17_one_write_witness :
    (41 ≤ (object_msg (sample_id 97) [1, 2, 3]).length ∧
      (twin_store.seaf_metadata_type_from_data ((object_msg (sample_id 97) [1, 2, 3]).drop 41)
          (object_msg (sample_id 97) [1, 2, 3]).length = MetadataType.FILE ∨
        (twin_store.seaf_metadata_type_from_data
            ((object_msg (sample_id 97) [1, 2, 3]).drop 41)
            (object_msg (sample_id 97) [1, 2, 3]).length = MetadataType.DIR ∧
          ∃ dir, twin_store.seaf_dir_from_data (id_at (object_msg (sample_id 97) [1, 2, 3]))
              ((object_msg (sample_id 97) [1, 2, 3]).drop 41) = some dir ∧
            (check_seafdir sample_empty twin_store
              { waiting with pending_objects := waiting.pending_objects - 1 }
              dir.entries).2 = 0))) ∧
    (writes_of (emitted waiting (recv_fs_object sample_empty twin_store waiting
        (object_msg (sample_id 97) [1, 2, 3]))) =
      [(id_at (object_msg (sample_id 97) [1, 2, 3]),
        (object_msg (sample_id 97) [1, 2, 3]).drop 41,
        twin_store.async_write (id_at (object_msg (sample_id 97) [1, 2, 3]))
          ((object_msg (sample_id 97) [1, 2, 3]).drop 41))] ∧
    ((object_msg (sample_id 97) [1, 2, 3]).drop 41).length =
      (object_msg (sample_id 97) [1, 2, 3]).length - 41 ∧
    (twin_store.seaf_metadata_type_from_data ((object_msg (sample_id 97) [1, 2, 3]).drop 41)
        (object_msg (sample_id 97) [1, 2, 3]).length = MetadataType.FILE →
      emitted waiting (recv_fs_object sample_empty twin_store waiting
          (object_msg (sample_id 97) [1, 2, 3])) =
        [Effect.async_write (id_at (object_msg (sample_id 97) [1, 2, 3]))
          ((object_msg (sample_id 97) [1, 2, 3]).drop 41)
          (twin_store.async_write (id_at (object_msg (sample_id 97) [1, 2, 3]))
            ((object_msg (sample_id 97) [1, 2, 3]).drop 41))] ++
        (if twin_store.async_write (id_at (object_msg (sample_id 97) [1, 2, 3]))
            ((object_msg (sample_id 97) [1, 2, 3]).drop 41) = true then []
         else [Effect.send_response Status.SC_BAD_OBJECT [], Effect.done false]))) :=
  ⟨⟨by decide, Or.inl rfl⟩, C17_one_write sample_empty twin_store waiting
    (object_msg (sample_id 97) [1, 2, 3]) (by decide) (Or.inl rfl)⟩

/-- C17 fails as stated: a File-typed object message of 44 bytes for the
pending id `sample_id 97`, when the store refuses the write: the one write is
handed to the store, but the handler does emit a response, `SC_BAD_OBJECT`, and
ends the session. -/
theorem C17_counterexample :
    41 ≤ (object_msg (sample_id 97) [1, 2, 3]).length ∧
    full_store.seaf_metadata_type_from_data ((object_msg (sample_id 97) [1, 2, 3]).drop 41)
      (object_msg (sample_id 97) [1, 2, 3]).length = MetadataType.FILE ∧
    emitted waiting (recv_fs_object sample_empty full_store waiting
        (object_msg (sample_id 97) [1, 2, 3])) =
      [Effect.async_write (sample_id 97) [1, 2, 3] false,
        Effect.send_response Status.SC_BAD_OBJECT [], Effect.done false] ∧
    responses_of (emitted waiting (recv_fs_object sample_empty full_store waiting
        (object_msg (sample_id 97) [1, 2, 3]))) ≠ [] := by
  decide

/-! ## The flush -/

/-- C18: for every state whose buffer holds the ids `i1 .. in` in submission
order (the bytes of each id followed by a newline): if `n >= 1`,
`request_object_batch_flush` sends exactly one `SC_GET_OBJECT` message, whose
payload is these bytes followed by one NUL byte, `41 * n + 1` bytes that list
exactly `i1 .. in`, and leaves the buffer empty with batch count 0; if `n = 0`
it sends nothing and changes nothing. It never changes `pending_objects`,
`inspect_objects`, the hash table or the state. -/
theorem C18_flush (p : Processor) (ids : List ObjId) (hbuf : p.buf = encode_ids ids) :
    encode_ids ids = (ids.map (fun i => i.val ++ [10])).flatten ∧
    (ids ≠ [] →
      emitted p (request_object_batch_flush p) =
        [Effect.send_response Status.SC_GET_OBJECT (encode_ids ids ++ [0])] ∧
      (encode_ids ids ++ [0]).length = 41 * ids.length + 1 ∧
      decode_ids (encode_ids ids ++ [0]) = ids ∧
      (request_object_batch_flush p).buf = [] ∧
      (request_object_batch_flush p).n_batch = 0) ∧
    (ids = [] →
      request_object_batch_flush p = p ∧ emitted p (request_object_batch_flush p) = []) ∧
    (request_object_batch_flush p).pending_objects = p.pending_objects ∧
    (request_object_batch_flush p).inspect_objects = p.inspect_objects ∧
    (request_object_batch_flush p).fs_objects = p.fs_objects ∧
    (request_object_batch_flush p).state = p.state := by
  obtain ⟨hb, h2, h3, h4, h5⟩ := flush_fields p
  refine ⟨?_, ?_, ?_, h2, h3, h4, h5⟩
  · clear hbuf
    induction ids with
    | nil => rfl
    | cons x ids ih => simp [encode_ids, ih]
  · intro hne
    have hnb : p.buf ≠ [] := by
      rw [hbuf]; exact fun e => hne ((encode_ids_eq_nil ids).1 e)
    refine ⟨?_, ?_, decode_ids_frame ids, hb, ?_⟩
    · rw [emitted_flush, if_neg hnb, hbuf]
    · simp [encode_ids_length]
    · rw [request_object_batch_flush_eq, if_neg hnb]
  · intro he
    have hnb : p.buf = [] := by rw [hbuf, he]; rfl
    refine ⟨?_, ?_⟩
    · rw [request_object_batch_flush_eq, if_pos hnb]
    · rw [emitted_flush, if_pos hnb]

theorem C18_flush_witness :
    { session_begun with buf := encode_ids [sample_id 97, sample_id 98], n_batch := 2 }.buf =
      encode_ids [sample_id 97, sample_id 98] ∧
    (encode_ids [sample_id 97, sample_id 98] =
        ([sample_id 97, sample_id 98].map (fun i => i.val ++ [10])).flatten ∧
    ([sample_id 97, sample_id 98] ≠ [] →
      emitted { session_begun with buf := encode_ids [sample_id 97, sample_id 98], n_batch := 2 }
          (request_object_batch_flush
            { session_begun with buf := encode_ids [sample_id 97, sample_id 98],
                                 n_batch := 2 }) =
        [Effect.send_response Status.SC_GET_OBJECT
          (encode_ids [sample_id 97, sample_id 98] ++ [0])] ∧
      (encode_ids [sample_id 97, sample_id 98] ++ [0]).length =
        41 * [sample_id 97, sample_id 98].length + 1 ∧
      decode_ids (encode_ids [sample_id 97, sample_id 98] ++ [0]) =
        [sample_id 97, sample_id 98] ∧
      (request_object_batch_flush
        { session_begun with buf := encode_ids [sample_id 97, sample_id 98],
                             n_batch := 2 }).buf = [] ∧
      (request_object_batch_flush
        { session_begun with buf := encode_ids [sample_id 97, sample_id 98],
                             n_batch := 2 }).n_batch = 0) ∧
    ([sample_id 97, sample_id 98] = [] →
      request_object_batch_flush
          { session_begun with buf := encode_ids [sample_id 97, sample_id 98], n_batch := 2 } =
        { session_begun with buf := encode_ids [sample_id 97, sample_id 98], n_batch := 2 } ∧
      emitted { session_begun with buf := encode_ids [sample_id 97, sample_id 98], n_batch := 2 }
          (request_object_batch_flush
            { session_begun with buf := encode_ids [sample_id 97, sample_id 98],
                                 n_batch := 2 }) = []) ∧
    (request_object_batch_flush
      { session_begun with buf := encode_ids [sample_id 97, sample_id 98],
                           n_batch := 2 }).pending_objects =
      { session_begun with buf := encode_ids [sample_id 97, sample_id 98],
                           n_batch := 2 }.pending_objects ∧
    (request_object_batch_flush
      { session_begun with buf := encode_ids [sample_id 97, sample_id 98],
                           n_batch := 2 }).inspect_objects =
      { session_begun with buf := encode_ids [sample_id 97, sample_id 98],
                           n_batch := 2 }.inspect_objects ∧
    (request_object_batch_flush
      { session_begun with buf := encode_ids [sample_id 97, sample_id 98],
                           n_batch := 2 }).fs_objects =
      { session_begun with buf := encode_ids [sample_id 97, sample_id 98],
                           n_batch := 2 }.fs_objects ∧
    (request_object_batch_flush
      { session_begun with buf := encode_ids [sample_id 97, sample_id 98],
                           n_batch := 2 }).state =
      { session_begun with buf := encode_ids [sample_id 97, sample_id 98],
                           n_batch := 2 }.state) :=
  ⟨rfl, C18_flush
    { session_begun with buf := encode_ids [sample_id 97, sample_id 98], n_batch := 2 }
    [sample_id 97, sample_id 98] rfl⟩

/-! ## The bounds of the buffer -/

/-- C20: in every state reached by a session from a begun buffer (empty, batch
count 0, no request sent yet), no call of `request_object_batch` trips its
assertion, and between events the write offset of the buffer is
`41 * n_batch` with `0 <= n_batch < 64`; hence the offset is at most
`4096 - 41`, the next append of 41 bytes and the NUL of a flush stay inside
the 4096 bytes, and every request message sent (the bytes the buffer held when
it was flushed, with the NUL) is at most 4096 bytes long. -/
theorem C20_buffer_bounds (E : ObjId) (p0 : Processor) (tr : List (Store × Event))
    (hbuf : p0.buf = []) (hn : p0.n_batch = 0) (hlog : requests_of p0.log = []) :
    ∃ p, run E p0 tr = some p ∧
      (p.buf.length : Int) = 41 * p.n_batch ∧ 0 ≤ p.n_batch ∧ p.n_batch < MAX_NUM_BATCH ∧
      p.buf.length ≤ 4096 - 41 ∧ p.buf.length + 41 + 1 ≤ BUF_SIZE ∧
      ∀ m ∈ requests_of p.log, m.length ≤ BUF_SIZE := by
  obtain ⟨q, sent, cur, hq, hs⟩ := run_shape E tr p0 [] [] (shape_of_begun p0 hbuf hn hlog)
  have hlt := hs.cur_lt
  have hlen : q.buf.length = 41 * cur.length := by rw [hs.buf_eq, encode_ids_length]
  refine ⟨q, hq, ?_, ?_, ?_, ?_, ?_, ?_⟩
  · rw [hlen, hs.n_eq]; push_cast; rfl
  · rw [hs.n_eq]; exact Int.natCast_nonneg _
  · rw [hs.n_eq]; simp only [MAX_NUM_BATCH]; omega
  · omega
  · simp only [BUF_SIZE]; omega
  · intro m hm
    exact (hs.message_bound m hm).2.2.2.2

theorem C20_buffer_bounds_witness :
    (session_begun.buf = [] ∧ session_begun.n_batch = 0 ∧
      requests_of session_begun.log = []) ∧
    ∃ p, run sample_empty session_begun twin_trace = some p ∧
      (p.buf.length : Int) = 41 * p.n_batch ∧ 0 ≤ p.n_batch ∧ p.n_batch < MAX_NUM_BATCH ∧
      p.buf.length ≤ 4096 - 41 ∧ p.buf.length + 41 + 1 ≤ BUF_SIZE ∧
      ∀ m ∈ requests_of p.log, m.length ≤ BUF_SIZE :=
  ⟨⟨rfl, rfl, rfl⟩, C20_buffer_bounds sample_empty session_begun twin_trace rfl rfl rfl⟩

/-! ## Completions in any order -/

/-- One completion of a stat, or of a read that reports not-found, in a state
whose buffer is well formed: the handler returns, `inspect_objects` goes down
by one, the id reported absent (if any) joins the hash table, and it joins the
ids requested unless it was in the hash table. -/
theorem completion_step (E : ObjId) (store : Store) {p : Processor}
    {sent : List (List ObjId)} {cur : List ObjId} (h : Shape p sent cur) (ev : Event)
    (hk : stat_or_missing ev = true) :
    ∃ q sent' cur', on_completion E store p ev = some q ∧ Shape q sent' cur' ∧
      q.inspect_objects = p.inspect_objects - 1 ∧
      q.fs_objects = p.fs_objects ∪ (absent_ids ev).toFinset ∧
      q.pending_objects - (q.fs_objects.card : Int) =
        p.pending_objects - (p.fs_objects.card : Int) ∧
      (sent'.flatten ++ cur').toFinset =
        (sent.flatten ++ cur).toFinset ∪ ((absent_ids ev).toFinset \ p.fs_objects) := by
  have h1 : Shape { p with inspect_objects := p.inspect_objects - 1 } sent cur :=
    h.congr rfl rfl rfl
  have hreq : ∀ id : ObjId, ∃ q sent' cur',
      request_object_batch { p with inspect_objects := p.inspect_objects - 1 } id = some q ∧
      Shape q sent' cur' ∧ q.inspect_objects = p.inspect_objects - 1 ∧
      q.fs_objects = p.fs_objects ∪ [id].toFinset ∧
      q.pending_objects - (q.fs_objects.card : Int) =
        p.pending_objects - (p.fs_objects.card : Int) ∧
      (sent'.flatten ++ cur').toFinset =
        (sent.flatten ++ cur).toFinset ∪ ([id].toFinset \ p.fs_objects) := by
    intro id
    by_cases hid : id ∈ p.fs_objects
    · refine ⟨_, sent, cur, request_object_batch_mem _ id h1.buf_length hid, h1, rfl, ?_, ?_, ?_⟩
      · ext x
        simp only [Finset.mem_union, List.toFinset_cons, List.toFinset_nil,
          Finset.mem_insert, Finset.not_mem_empty, or_false]
        constructor
        · exact Or.inl
        · rintro (hx | rfl)
          · exact hx
          · exact hid
      · have : p.fs_objects ∪ [id].toFinset = p.fs_objects := by
          ext x
          simp only [Finset.mem_union, List.toFinset_cons, List.toFinset_nil,
            Finset.mem_insert, Finset.not_mem_empty, or_false]
          constructor
          · rintro (hx | rfl)
            · exact hx
            · exact hid
          · exact Or.inl
        rfl
      · ext x
        simp only [Finset.mem_union, Finset.mem_sdiff, List.toFinset_cons, List.toFinset_nil,
          Finset.mem_insert, Finset.not_mem_empty, or_false]
        constructor
        · exact Or.inl
        · rintro (hx | ⟨rfl, hx⟩)
          · exact hx
          · exact absurd hid hx
    · obtain ⟨q, d, sent', cur', hq, hqe, -, hs, hall⟩ := h1.request id hid
      refine ⟨q, sent', cur', hq, hs, by rw [hqe], ?_, ?_, ?_⟩
      · rw [hqe]
        ext x
        simp only [Finset.mem_union, List.toFinset_cons, List.toFinset_nil,
          Finset.mem_insert, Finset.not_mem_empty, or_false]
        tauto
      · rw [hqe]
        simp only [Finset.card_insert_of_not_mem hid]
        push_cast
        ring
      · rw [hall]
        ext x
        simp only [List.toFinset_append, Finset.mem_union, Finset.mem_sdiff, List.toFinset_cons,
          List.toFinset_nil, Finset.mem_insert, Finset.not_mem_empty, or_false,
          List.mem_toFinset]
        constructor
        · rintro (hx | rfl)
          · exact Or.inl hx
          · exact Or.inr ⟨rfl, hid⟩
        · rintro (hx | ⟨rfl, -⟩)
          · exact Or.inl hx
          · exact Or.inr rfl
  have hnone : ∃ q sent' cur',
      some { p with inspect_objects := p.inspect_objects - 1 } = some q ∧
      Shape q sent' cur' ∧ q.inspect_objects = p.inspect_objects - 1 ∧
      q.fs_objects = p.fs_objects ∪ ([] : List ObjId).toFinset ∧
      q.pending_objects - (q.fs_objects.card : Int) =
        p.pending_objects - (p.fs_objects.card : Int) ∧
      (sent'.flatten ++ cur').toFinset =
        (sent.flatten ++ cur).toFinset ∪ (([] : List ObjId).toFinset \ p.fs_objects) :=
    ⟨_, sent, cur, rfl, h1, rfl, by simp, rfl, by simp⟩
  cases ev with
  | seafile_stat res =>
    simp only [on_completion, on_seafile_stat, absent_ids]
    by_cases hs : res.success = true
    · simp only [hs, Bool.true_eq_false, if_false, if_true]
      exact hnone
    · have hf : res.success = false := by simpa using hs
      simp only [hf, if_true, Bool.false_eq_true, if_false]
      exact hreq res.obj_id
  | seafdir_read res =>
    have hf : res.success = false := by simpa [stat_or_missing] using hk
    simp only [on_completion, on_seafdir_read, absent_ids, hf, if_true, Bool.false_eq_true,
      if_false]
    exact hreq res.obj_id
  | update code content => simp [stat_or_missing] at hk
  | fs_write res => simp [stat_or_missing] at hk
  | timer => simp [stat_or_missing] at hk

/-- The state after a list of such completions, in terms that do not depend on
their order. -/
theorem complete_all_spec (E : ObjId) (store : Store) (l : List Event) :
    ∀ (p : Processor) (sent : List (List ObjId)) (cur : List ObjId), Shape p sent cur →
      (∀ ev ∈ l, stat_or_missing ev = true) →
      ∃ q sent' cur', complete_all E store p l = some q ∧ Shape q sent' cur' ∧
        q.inspect_objects = p.inspect_objects - (l.length : Int) ∧
        q.fs_objects = p.fs_objects ∪ (l.flatMap absent_ids).toFinset ∧
        q.pending_objects - (q.fs_objects.card : Int) =
          p.pending_objects - (p.fs_objects.card : Int) ∧
        (sent'.flatten ++ cur').toFinset =
          (sent.flatten ++ cur).toFinset ∪ ((l.flatMap absent_ids).toFinset \ p.fs_objects) := by
  induction l with
  | nil =>
    intro p sent cur h _
    exact ⟨p, sent, cur, rfl, h, by simp, by simp, rfl, by simp⟩
  | cons ev l ih =>
    intro p sent cur h hk
    obtain ⟨q, sent', cur', hq, hs, hi, hfs, hpe, hall⟩ :=
      completion_step E store h ev (hk ev (List.mem_cons_self _ _))
    obtain ⟨r, s2, c2, hr, hs2, hi2, hfs2, hpe2, hall2⟩ :=
      ih q sent' cur' hs (fun e he => hk e (List.mem_cons_of_mem _ he))
    refine ⟨r, s2, c2, by simp [complete_all, hq, hr], hs2, ?_, ?_, by omega, ?_⟩
    · rw [hi2, hi]; simp only [List.length_cons]; push_cast; ring
    · rw [hfs2, hfs]
      simp only [List.flatMap_cons, List.toFinset_append, Finset.union_assoc]
    · rw [hall2, hall, hfs]
      ext x
      simp only [List.flatMap_cons, List.toFinset_append, Finset.mem_union, Finset.mem_sdiff,
        not_or]
      tauto

theorem absent_ids_perm {l1 l2 : List Event} (h : l1.Perm l2) :
    (l1.flatMap absent_ids).toFinset = (l2.flatMap absent_ids).toFinset := by
  ext x
  simp only [List.mem_toFinset, List.mem_flatMap]
  constructor
  · rintro ⟨e, he, hx⟩; exact ⟨e, h.mem_iff.1 he, hx⟩
  · rintro ⟨e, he, hx⟩; exact ⟨e, h.mem_iff.2 he, hx⟩

/-- C19: for every state whose buffer and sent messages are well formed (as
they are in every state a session reaches) and every two orderings of the same
finite list of stat completions and not-found read completions, the completion
handlers applied in either order return, and yield the same `inspect_objects`,
the same `pending_objects`, the same hash table, and the same set of ids sent
or buffered. -/
theorem C19_order_independent (E : ObjId) (store : Store) (p : Processor)
    (sent : List (List ObjId)) (cur : List ObjId) (l1 l2 : List Event)
    (hshape : Shape p sent cur) (hperm : l1.Perm l2)
    (hkind : ∀ ev ∈ l1, stat_or_missing ev = true) :
    ∃ q1 q2, complete_all E store p l1 = some q1 ∧ complete_all E store p l2 = some q2 ∧
      q1.inspect_objects = q2.inspect_objects ∧
      q1.pending_objects = q2.pending_objects ∧
      q1.fs_objects = q2.fs_objects ∧
      (requested_ids q1).toFinset = (requested_ids q2).toFinset := by
  have hkind2 : ∀ ev ∈ l2, stat_or_missing ev = true :=
    fun ev he => hkind ev (hperm.mem_iff.2 he)
  obtain ⟨q1, s1, c1, hq1, hs1, hi1, hfs1, hpe1, hall1⟩ :=
    complete_all_spec E store l1 p sent cur hshape hkind
  obtain ⟨q2, s2, c2, hq2, hs2, hi2, hfs2, hpe2, hall2⟩ :=
    complete_all_spec E store l2 p sent cur hshape hkind2
  have hab := absent_ids_perm hperm
  have hfs : q1.fs_objects = q2.fs_objects := by rw [hfs1, hfs2, hab]
  refine ⟨q1, q2, hq1, hq2, ?_, ?_, hfs, ?_⟩
  · rw [hi1, hi2, hperm.length_eq]
  · have : (q1.fs_objects.card : Int) = (q2.fs_objects.card : Int) := by rw [hfs]
    omega
  · rw [hs1.requested.2, hs2.requested.2, hall1, hall2, hab]

theorem C19_order_independent_witness :
    (Shape session_begun [] [] ∧
      [Event.seafile_stat { obj_id := sample_id 98, success := false, data := [] },
        Event.seafdir_read { obj_id := sample_id 99, success := false, data := [] }].Perm
        [Event.seafdir_read { obj_id := sample_id 99, success := false, data := [] },
          Event.seafile_stat { obj_id := sample_id 98, success := false, data := [] }] ∧
      ∀ ev ∈ [Event.seafile_stat { obj_id := sample_id 98, success := false, data := [] },
        Event.seafdir_read { obj_id := sample_id 99, success := false, data := [] }],
        stat_or_missing ev = true) ∧
    ∃ q1 q2,
      complete_all sample_empty twin_store session_begun
        [Event.seafile_stat { obj_id := sample_id 98, success := false, data := [] },
          Event.seafdir_read { obj_id := sample_id 99, success := false, data := [] }] =
        some q1 ∧
      complete_all sample_empty twin_store session_begun
        [Event.seafdir_read { obj_id := sample_id 99, success := false, data := [] },
          Event.seafile_stat { obj_id := sample_id 98, success := false, data := [] }] =
        some q2 ∧
      q1.inspect_objects = q2.inspect_objects ∧
      q1.pending_objects = q2.pending_objects ∧
      q1.fs_objects = q2.fs_objects ∧
      (requested_ids q1).toFinset = (requested_ids q2).toFinset :=
  ⟨⟨session_begun_shape, List.Perm.swap _ _ [], by decide⟩,
    C19_order_independent sample_empty twin_store session_begun [] [] _ _
      session_begun_shape (List.Perm.swap _ _ []) (by decide)⟩

end RecvFs
